import Mathlib

/-!
# Paint puzzle (`src/project/final.js`): projectiles, splashes, targets and doors

A shallow embedding of the gameplay core of `final.js` (namespace `Final`), of the splash code
of the colour-mixing variant `testmainver3.js` (namespace `Ver3`) and of the hand-written player
physics of `legacy/[0604] main.js` (namespace `Main0604`).

Conventions of the embedding.

* JavaScript numbers that carry lengths, times and speeds are rationals (`ℚ`): no rounding and
  no `NaN`.  Counters (`hitCount`, `window.paintDepthOrder`) and array indices are naturals.
* Object references (`THREE.Object3D`) are compared by identity in the source (`===`); here an
  object (a mesh, a decal, a paint model) is named by a natural number.
* A thrown `TypeError` is `Except.error`.
* What three.js computes (ray casting against `walls`) and what the browser supplies
  (`performance.now()`) are parameters of the functions that use them.
-/

namespace Final

/-! ## The program -/

/-- A `THREE.Vector3`. -/
structure Vec3 where
  x : ℚ
  y : ℚ
  z : ℚ
deriving DecidableEq

/-- The sum `a.clone().add(b)`. -/
def Vec3.add (a b : Vec3) : Vec3 := ⟨a.x + b.x, a.y + b.y, a.z + b.z⟩

/-- The multiple `v.clone().multiplyScalar(s)`. -/
def Vec3.multiplyScalar (v : Vec3) (s : ℚ) : Vec3 := ⟨v.x * s, v.y * s, v.z * s⟩

/-- An entry of `mainObjects` (lines 240-246); `materialColor` is `mesh.material.color`. -/
structure Target where
  mesh : Nat
  hitCount : Nat
  requiredColor : String
  doorIndex : Nat
  unlocked : Bool
  materialColor : Nat
deriving DecidableEq

/-- A door mesh of `doors`; only its position is read by the code. -/
structure Door where
  position : Vec3
deriving DecidableEq

/-- A `THREE.AnimationMixer` created by `openDoor`: the door it animates, its clock, and the
position of the door when the `doorOpen` clip was built, from which the three keyframes
`(x, y0, z)`, `(x, y0 + 2, z)`, `(x, y0 + 4, z)` of lines 930-940 are made. -/
structure Mixer where
  root : Nat
  time : ℚ
  base : Vec3
deriving DecidableEq

/-- A splash mesh added to the struck object by `createPaintSplash`.  `position` is the point
`hit.point + 0.01 * hit.face.normal` before it is re-expressed in the parent's frame; the
orientation of the disc is not part of the embedding. -/
structure Decal where
  parent : Nat
  color : String
  materialColor : Nat
  renderOrder : Nat
  position : Vec3
deriving DecidableEq

/-- One element of the array returned by `Raycaster.intersectObjects`. -/
structure Intersection where
  distance : ℚ
  point : Vec3
  normal : Vec3
  object : Nat
deriving DecidableEq

/-- An entry of `paintProjectiles` (lines 826-832); `position` is `object.position`. -/
structure Projectile where
  object : Nat
  position : Vec3
  velocity : Vec3
  life : ℚ
  gravity : ℚ
  color : String
deriving DecidableEq

/-- The object `keys` (lines 47-54): which keys are held. -/
structure Keys where
  w : Bool
  a : Bool
  s : Bool
  d : Bool
  space : Bool
  shift : Bool
deriving DecidableEq

/-- The Rapier rigid body `playerBody` as the script reads and writes it: `translation()` and
`linvel()`. -/
structure Body where
  translation : Vec3
  linvel : Vec3
deriving DecidableEq

/-- The module-level variables of `final.js` that the paint, puzzle, door, pointer and player
code reads or writes.  `scene` lists the paint objects added with `scene.add`; `nextObject` supplies the
identity of the next object created by `clone()`; `doorBodies` holds the translation last
pushed into each kinematic door body.  Two fields are observations of the run, not variables
of the source: `openDoorCalls` records, in order, the arguments of the calls of `openDoor`,
and `pointerLockRequests` counts the calls of `document.body.requestPointerLock()`.
`blueCubeMesh` and `crownMesh` hold the position of the pickup while it exists (`none` for
`undefined` and `null`); `playerPosition` is `player.position`. -/
structure Game where
  mainObjects : List Target
  doors : List Door
  doorMixers : List (Option Mixer)
  doorAnimStart : List (Option ℚ)
  decals : List Decal
  paintDepthOrder : Nat
  paintProjectiles : List Projectile
  scene : List Nat
  currentPaintColor : String
  redPaintModelTemplate : Option Nat
  bluePaintModelTemplate : Option Nat
  cameraPosition : Vec3
  cameraDirection : Vec3
  nextObject : Nat
  openDoorCalls : List Nat
  doorBodies : List Vec3
  isPointerLocked : Bool
  mouseX : ℚ
  mouseY : ℚ
  pointerLockRequests : Nat
  keys : Keys
  bluePaintUnlocked : Bool
  blueCubeMesh : Option Vec3
  crownMesh : Option Vec3
  lastJumpTime : ℚ
  playerPosition : Vec3
  playerBody : Body

/-- JavaScript `xs[i] = v` on an array whose entries may be `null`: an index past the end
extends the array, and the holes this leaves are written `none`. -/
def arraySet {α : Type} (xs : List (Option α)) (i : Nat) (v : α) : List (Option α) :=
  if i < xs.length then xs.set i (some v)
  else xs ++ List.replicate (i - xs.length) none ++ [some v]

/-- Lines 928-950: the mixer made for door `index`, with the clip built from the position the
door has at that moment. -/
def newMixer (g : Game) (index : Nat) : Mixer :=
  ⟨index, 0, (g.doors[index]?.map Door.position).getD ⟨0, 0, 0⟩⟩

/-- Lines 927-958.  Reading `doors[index].position` throws when there is no such door. -/
def openDoor (g : Game) (index : Nat) (now : ℚ) : Except String Game :=
  match g.doors[index]? with
  | none => .error "TypeError: doors[index] is undefined"
  | some _ =>
    .ok { g with
      doorMixers := arraySet g.doorMixers index (newMixer g index)
      doorAnimStart := arraySet g.doorAnimStart index now
      openDoorCalls := g.openDoorCalls ++ [index] }

/-- Line 869. -/
def splashColor (color : String) : Nat :=
  if color = "blue" then 0x3c3cff else 0xff3c3c

/-- Lines 871-902: the splash mesh hung on the struck object, with its colour tag, its material
colour, its draw order and its place, 0.01 off the surface along the normal. -/
def decalOf (hit : Intersection) (color : String) (order : Nat) : Decal :=
  { parent := hit.object, color := color, materialColor := splashColor color,
    renderOrder := order, position := hit.point.add (hit.normal.multiplyScalar (1 / 100)) }

/-- Lines 871-904: build the splash mesh and attach it to the struck object. -/
def addSplash (g : Game) (hit : Intersection) (color : String) : Game :=
  let order := g.paintDepthOrder + 1
  { g with
    paintDepthOrder := order
    decals := g.decals ++ [decalOf hit color order] }

/-- Lines 908-921: the body run for the target `obj`, found at position `i` of `mainObjects`,
whose mesh is the struck object. -/
def scoreHit (g : Game) (i : Nat) (obj : Target) (color : String) (now : ℚ) :
    Except String Game :=
  if color = obj.requiredColor then
    let obj1 := { obj with hitCount := obj.hitCount + 1 }
    if obj1.hitCount = 3 ∧ obj1.unlocked = false then
      let obj2 := { obj1 with unlocked := true, materialColor := splashColor color }
      let g2 := { g with mainObjects := g.mainObjects.set i obj2 }
      let allUnlocked :=
        (g2.mainObjects.filter (fun o => o.doorIndex = obj.doorIndex)).all (fun o => o.unlocked)
      if allUnlocked then openDoor g2 obj.doorIndex now else .ok g2
    else .ok { g with mainObjects := g.mainObjects.set i obj1 }
  else .ok g

/-- Lines 906-924: `for (const obj of mainObjects)` with its `break`; `rest` are the targets
not yet visited and `i` is the position of the first of them. -/
def scoreLoop (g : Game) (hitObject : Nat) (color : String) (now : ℚ) :
    List Target → Nat → Except String Game
  | [], _ => .ok g
  | obj :: rest, i =>
    if hitObject = obj.mesh then scoreHit g i obj color now
    else scoreLoop g hitObject color now rest (i + 1)

/-- Lines 868-925. -/
def createPaintSplash (g : Game) (hit : Intersection) (color : String) (now : ℚ) :
    Except String Game :=
  let g1 := addSplash g hit color
  scoreLoop g1 hit.object color now g1.mainObjects 0

/-- Lines 842-844: gravity changes the vertical speed, then the new velocity moves the paint
object. -/
def Projectile.integrate (paint : Projectile) (deltaTime : ℚ) : Projectile :=
  let velocity : Vec3 := { paint.velocity with y := paint.velocity.y + paint.gravity * deltaTime }
  { paint with
    velocity := velocity
    position := paint.position.add (velocity.multiplyScalar deltaTime) }

/-- What one iteration of the loop of `updatePaintProjectiles` does with its projectile: the
record `paint` as the iteration leaves it, the hit handed to `createPaintSplash` if there is
one, and whether the projectile is spliced out of `paintProjectiles`. -/
structure TickOutcome where
  paint : Projectile
  splash : Option Intersection
  removed : Bool

/-- Lines 859-864: no contact; the life runs down and the projectile is dropped when it has
expired or fallen below the floor bound. -/
def expire (paint : Projectile) (deltaTime : ℚ) : TickOutcome :=
  let paint1 := { paint with life := paint.life - deltaTime }
  ⟨paint1, none, decide (paint1.life ≤ 0 ∨ paint1.position.y < -10)⟩

/-- Lines 840-864 for one projectile.  `intersects origin direction` is
`new THREE.Raycaster(origin, direction.normalize()).intersectObjects(walls)`, whose result
three.js orders by distance, nearest first. -/
def tickPaint (intersects : Vec3 → Vec3 → List Intersection) (deltaTime : ℚ)
    (paint : Projectile) : TickOutcome :=
  let paint1 := paint.integrate deltaTime
  match intersects paint1.position paint1.velocity with
  | hit :: _ => if hit.distance < 2 / 5 then ⟨paint1, some hit, true⟩ else expire paint1 deltaTime
  | [] => expire paint1 deltaTime

/-- Lines 854-855 and 862-863: `scene.remove(paint.object)` and `paintProjectiles.splice(i, 1)`. -/
def removeProjectile (g : Game) (i : Nat) (object : Nat) : Game :=
  { g with scene := g.scene.erase object, paintProjectiles := g.paintProjectiles.eraseIdx i }

/-- The body of the loop of `updatePaintProjectiles` (lines 840-864) at index `i`.  The ray
cast is made against `walls` and what hangs on them, so it is given the decals. -/
def projectileStep (rayCast : List Decal → Vec3 → Vec3 → List Intersection)
    (deltaTime now : ℚ) (g : Game) (i : Nat) : Except String Game :=
  match g.paintProjectiles[i]? with
  | none => .error "TypeError: paint is undefined"
  | some paint =>
    let out := tickPaint (rayCast g.decals) deltaTime paint
    let g1 := { g with paintProjectiles := g.paintProjectiles.set i out.paint }
    match out.splash with
    | some hit =>
      match createPaintSplash g1 hit out.paint.color now with
      | .error e => .error e
      | .ok g2 => .ok (removeProjectile g2 i out.paint.object)
    | none => if out.removed then .ok (removeProjectile g1 i out.paint.object) else .ok g1

/-- The loop `for (let i = n - 1; i >= lo; i--)` over the body above, called with `n`; line 839
is the loop with `lo = 0`.  The clock reading `now i` is what `performance.now()` returns
during the iteration at index `i`. -/
def paintLoop (rayCast : List Decal → Vec3 → Vec3 → List Intersection) (deltaTime : ℚ)
    (now : Nat → ℚ) (lo : Nat) : Nat → Game → Except String Game
  | 0, g => .ok g
  | i + 1, g =>
    if lo ≤ i then
      match projectileStep rayCast deltaTime (now i) g i with
      | .error e => .error e
      | .ok g1 => paintLoop rayCast deltaTime now lo i g1
    else .ok g

/-- Lines 838-866. -/
def updatePaintProjectiles (rayCast : List Decal → Vec3 → Vec3 → List Intersection)
    (deltaTime : ℚ) (now : Nat → ℚ) (g : Game) : Except String Game :=
  paintLoop rayCast deltaTime now 0 g.paintProjectiles.length g

/-- Lines 824-835, once the paint model has been cloned: the clone is a new object, placed at
the camera, pushed to `paintProjectiles` and added to the scene. -/
def launch (g : Game) : Game :=
  let paintObject := g.nextObject
  let paintData : Projectile :=
    { object := paintObject
      position := g.cameraPosition
      velocity := g.cameraDirection.multiplyScalar 15
      life := 5
      gravity := -(49 / 5)
      color := g.currentPaintColor }
  { g with
    nextObject := g.nextObject + 1
    paintProjectiles := g.paintProjectiles ++ [paintData]
    scene := g.scene ++ [paintObject] }

/-- Lines 811-836.  `redPaintModelTemplate.clone()` throws while the template is still
`undefined`; the blue branch is guarded by `&& bluePaintModelTemplate`. -/
def shoot (g : Game) : Except String Game :=
  if g.currentPaintColor = "red" then
    match g.redPaintModelTemplate with
    | none => .error "TypeError: redPaintModelTemplate is undefined"
    | some _ => .ok (launch g)
  else if g.currentPaintColor = "blue" ∧ g.bluePaintModelTemplate.isSome then
    .ok (launch g)
  else .ok g

/-- The table `mainObjectPositions` (lines 182-224) as pushed to `mainObjects` (lines 240-246).
The meshes are the first five entries of `walls`; a mesh is named by its position there. -/
def levelTargets : List Target :=
  [ ⟨0, 0, "red", 0, false, 0x938784⟩,
    ⟨1, 0, "blue", 1, false, 0x938784⟩,
    ⟨2, 0, "red", 1, false, 0x938784⟩,
    ⟨3, 0, "red", 2, false, 0x938784⟩,
    ⟨4, 0, "blue", 2, false, 0x938784⟩ ]

/-- The table `doorPositions` (lines 387-406). -/
def levelDoors : List Door :=
  [ ⟨⟨-20, 2, 0⟩⟩, ⟨⟨0, 2, 0⟩⟩, ⟨⟨20, 2, 0⟩⟩ ]

/-- The state once the synchronous part of `createMap` has run: five locked targets, three
closed doors with their bodies at the same places, no paint in flight, red paint selected, no
paint model loaded yet, the pointer not locked.  The camera stands at `player.position`
(line 39) and looks down the negative z axis.  No key is held, blue paint is locked, the blue
cube and the crown are not there yet, and the player body made by `createPlayer` rests at
`player.position`. -/
def initialGame : Game where
  mainObjects := levelTargets
  doors := levelDoors
  doorMixers := [none, none, none]
  doorAnimStart := [none, none, none]
  decals := []
  paintDepthOrder := 0
  paintProjectiles := []
  scene := []
  currentPaintColor := "red"
  redPaintModelTemplate := none
  bluePaintModelTemplate := none
  cameraPosition := ⟨-30, 8 / 5, 0⟩
  cameraDirection := ⟨0, 0, -1⟩
  nextObject := 1000
  openDoorCalls := []
  doorBodies := [⟨-20, 2, 0⟩, ⟨0, 2, 0⟩, ⟨20, 2, 0⟩]
  isPointerLocked := false
  mouseX := 0
  mouseY := 0
  pointerLockRequests := 0
  keys := ⟨false, false, false, false, false, false⟩
  bluePaintUnlocked := false
  blueCubeMesh := none
  crownMesh := none
  lastJumpTime := 0
  playerPosition := ⟨-30, 8 / 5, 0⟩
  playerBody := ⟨⟨-30, 8 / 5, 0⟩, ⟨0, 0, 0⟩⟩

/-- Modelled from the spec: what three.js makes of the `doorOpen` position track, which the
repository only builds (lines 928-946): the height at clip time `t` is the linear
interpolation of the keys `(0, y0)`, `(1, y0 + 2)`, `(2, y0 + 4)`, held at the first key before
0 and, the action being `LoopOnce` with `clampWhenFinished`, at the last key after 2. -/
def doorTrack (y0 t : ℚ) : ℚ :=
  if t ≤ 0 then y0
  else if t ≤ 1 then y0 + ((y0 + 2) - y0) * (t - 0) / (1 - 0)
  else if t ≤ 2 then (y0 + 2) + ((y0 + 4) - (y0 + 2)) * (t - 1) / (2 - 1)
  else y0 + 4

/-- The call `mixer.update(deltaTime)` of line 1160, on the mixer's clock. -/
def Mixer.update (m : Mixer) (deltaTime : ℚ) : Mixer := { m with time := m.time + deltaTime }

/-- The position the mixer gives its door: the track evaluated at the mixer's accumulated
time; x and z are the same in all three keys. -/
def Mixer.position (m : Mixer) : Vec3 := ⟨m.base.x, doorTrack m.base.y m.time, m.base.z⟩

/-- Lines 1159-1169: the body of the door loop of `animate` for door `i`.  The value `clock` is
what `performance.now()` returns at line 1162.  A `doorAnimStart[i]` that is `undefined` makes
the height `NaN`, which has no place among the rationals and is reported as an error. -/
def doorTick (deltaTime clock : ℚ) (g : Game) (i : Nat) : Except String Game :=
  match g.doorMixers[i]? with
  | some (some mixer) =>
    let mixer1 := mixer.update deltaTime
    let g1 := { g with
      doorMixers := g.doorMixers.set i (some mixer1)
      doors := g.doors.set mixer.root ⟨mixer1.position⟩ }
    match g1.doorAnimStart[i]? with
    | some none => .ok g1
    | none => .error "doorAnimStart[i] is undefined: the height is NaN"
    | some (some start) =>
      let elapsed := (clock - start) / 1000
      let y := min (2 + elapsed * 2) 6
      match g1.doors[i]?, g1.doorBodies[i]? with
      | some door, some _ =>
        .ok { g1 with doorBodies := g1.doorBodies.set i ⟨door.position.x, y, door.position.z⟩ }
      | _, _ => .error "TypeError: doors[i] or doorBodies[i] is undefined"
  | _ => .ok g

/-- Lines 1158-1170: `for (let i = 0; i < 3; i++)`; `clock i` is the reading of
`performance.now()` in the iteration for door `i`. -/
def doorLoop (deltaTime : ℚ) (clock : Nat → ℚ) (g : Game) : Except String Game :=
  match doorTick deltaTime (clock 0) g 0 with
  | .error e => .error e
  | .ok g1 =>
    match doorTick deltaTime (clock 1) g1 1 with
    | .error e => .error e
    | .ok g2 => doorTick deltaTime (clock 2) g2 2

/-- Lines 1147-1184, as far as the variables of `Game` go: `updatePlayer` leaves the camera at
the pose `camera` (position, direction), then the projectiles are updated, then the doors.
`deltaTime` is `(currentTime - lastTime) / 1000`. -/
def animate (rayCast : List Decal → Vec3 → Vec3 → List Intersection) (deltaTime : ℚ)
    (now clock : Nat → ℚ) (camera : Vec3 × Vec3) (g : Game) : Except String Game :=
  let g0 := { g with cameraPosition := camera.1, cameraDirection := camera.2 }
  match updatePaintProjectiles rayCast deltaTime now g0 with
  | .error e => .error e
  | .ok g1 => doorLoop deltaTime clock g1

/-- Lines 1053-1055: the browser is asked for the pointer lock; whether and when it grants it
is told by a later `pointerlockchange` event. -/
def requestPointerLock (g : Game) : Game :=
  { g with pointerLockRequests := g.pointerLockRequests + 1 }

/-- Lines 1026-1032: the `click` listener. -/
def click (g : Game) : Except String Game :=
  if g.isPointerLocked = false then .ok (requestPointerLock g) else shoot g

/-- Lines 1042-1044: the `pointerlockchange` listener; `onBody` tells whether
`document.pointerLockElement === document.body`. -/
def pointerlockchange (g : Game) (onBody : Bool) : Game :=
  { g with isPointerLocked := onBody }

/-- The constant `Math.PI`: the double nearest to π, which is this rational. -/
def mathPI : ℚ := 884279719003555 / 281474976710656

/-- Lines 1034-1040: the `mousemove` listener. -/
def mousemove (g : Game) (movementX movementY : ℚ) : Game :=
  if g.isPointerLocked = true then
    let mouseX := g.mouseX + movementX * (1 / 500)
    let mouseY := g.mouseY + movementY * (1 / 500)
    { g with mouseX := mouseX, mouseY := max (-mathPI / 2) (min (mathPI / 2) mouseY) }
  else g

/-- The difference `a.clone().sub(b)`. -/
def Vec3.sub (a b : Vec3) : Vec3 := ⟨a.x - b.x, a.y - b.y, a.z - b.z⟩

/-- The cross product `new Vector3().crossVectors(a, b)`. -/
def Vec3.crossVectors (a b : Vec3) : Vec3 :=
  ⟨a.y * b.z - a.z * b.y, a.z * b.x - a.x * b.z, a.x * b.y - a.y * b.x⟩

/-- The squared distance `a.distanceToSquared(b)`; `a.distanceTo(b)` is its square root. -/
def Vec3.distanceToSquared (a b : Vec3) : ℚ :=
  (a.x - b.x) * (a.x - b.x) + (a.y - b.y) * (a.y - b.y) + (a.z - b.z) * (a.z - b.z)

/-- The constant `jumpCooldown` (line 22), in milliseconds. -/
def jumpCooldown : ℚ := 1500

/-- The field `player.speed` (line 40). -/
def playerSpeed : ℚ := 5 / 2

/-- The field `player.jumpPower` (line 41). -/
def jumpPower : ℚ := 15 / 2

/-- Lines 961-1001: the `keydown` listener for the key `code`.  `Escape` calls
`exitPointerLock()`, which the browser answers with a `pointerlockchange` event; the
`loadBluePaintModel()` of line 991 starts a load that ends in a later callback; the `else`
branch of `Digit2` only shows a notice. -/
def keydown (g : Game) (code : String) : Game :=
  if code = "KeyW" then { g with keys := { g.keys with w := true } }
  else if code = "KeyA" then { g with keys := { g.keys with a := true } }
  else if code = "KeyS" then { g with keys := { g.keys with s := true } }
  else if code = "KeyD" then { g with keys := { g.keys with d := true } }
  else if code = "Space" then { g with keys := { g.keys with space := true } }
  else if code = "ShiftLeft" then { g with keys := { g.keys with shift := true } }
  else if code = "Escape" then g
  else if code = "Digit1" then { g with currentPaintColor := "red" }
  else if code = "Digit2" then
    if g.bluePaintUnlocked = true then { g with currentPaintColor := "blue" } else g
  else g

/-- Lines 1003-1024: the `keyup` listener for the key `code`. -/
def keyup (g : Game) (code : String) : Game :=
  if code = "KeyW" then { g with keys := { g.keys with w := false } }
  else if code = "KeyA" then { g with keys := { g.keys with a := false } }
  else if code = "KeyS" then { g with keys := { g.keys with s := false } }
  else if code = "KeyD" then { g with keys := { g.keys with d := false } }
  else if code = "Space" then { g with keys := { g.keys with space := false } }
  else if code = "ShiftLeft" then { g with keys := { g.keys with shift := false } }
  else g

/-- Lines 1066-1079: the move direction before it is normalised.  `forward` is the camera
direction flattened and normalised, `right` its cross product with the up axis. -/
def moveDirection (keys : Keys) (forward : Vec3) : Vec3 :=
  let right := forward.crossVectors ⟨0, 1, 0⟩
  let m0 : Vec3 := ⟨0, 0, 0⟩
  let m1 := if keys.w = true then m0.add forward else m0
  let m2 := if keys.s = true then m1.sub forward else m1
  let m3 := if keys.d = true then m2.add right else m2
  if keys.a = true then m3.sub right else m3

/-- Lines 1094-1097: the test that guards the jump, at the clock reading `currentTime`. -/
def jumpTest (g : Game) (currentTime : ℚ) : Bool :=
  let currentVel := g.playerBody.linvel
  let canJump := decide (currentTime - g.lastJumpTime > jumpCooldown)
  g.keys.space && decide (|currentVel.y| < 1 / 10) && canJump

/-- Lines 1108-1119: the blue cube is picked up when the player is closer to it than 1 (the
distance is below 1 exactly when its square is). -/
def pickBlueCube (g : Game) : Game :=
  match g.blueCubeMesh with
  | some position =>
    if g.playerPosition.distanceToSquared position < 1 then
      { g with blueCubeMesh := none, bluePaintUnlocked := true }
    else g
  | none => g

/-- Lines 1121-1127: the crown is picked up when the player is closer to it than 1. -/
def pickCrown (g : Game) : Game :=
  match g.crownMesh with
  | some position =>
    if g.playerPosition.distanceToSquared position < 1 then { g with crownMesh := none } else g
  | none => g

/-- Lines 1061-1128 (the parameter `deltaTime` of the source is not used by the body).
`worldDirection` is what `camera.getWorldDirection` returns for the rotation set in lines
1062-1064, `normalize` is `Vector3.normalize`, whose square root has no place among the
rationals, and `currentTime` is the reading of `performance.now()` in line 1094. -/
def updatePlayer (worldDirection : Vec3) (normalize : Vec3 → Vec3) (currentTime : ℚ)
    (g : Game) : Game :=
  let forward := normalize { worldDirection with y := 0 }
  let moveDirection := normalize (moveDirection g.keys forward)
  let speed := if g.keys.shift = true then playerSpeed * 2 else playerSpeed
  let currentVel := g.playerBody.linvel
  let newVel : Vec3 := ⟨moveDirection.x * speed, currentVel.y, moveDirection.z * speed⟩
  let jump := jumpTest g currentTime
  let newVel1 := if jump = true then { newVel with y := jumpPower } else newVel
  let bodyPos := g.playerBody.translation
  let g1 := { g with
    lastJumpTime := if jump = true then currentTime else g.lastJumpTime
    playerBody := { g.playerBody with linvel := newVel1 }
    playerPosition := bodyPos
    cameraPosition := bodyPos
    cameraDirection := worldDirection }
  pickCrown (pickBlueCube g1)

/-- Line 1152: `world.step()`; what Rapier leaves of the player body is `body`. -/
def worldStep (g : Game) (body : Body) : Game := { g with playerBody := body }

/-- Lines 504-516: `createMap` resumes once `loadBluePaintModel()` has delivered the template
`paintObject`, and places the blue cube. -/
def placeBlueCube (g : Game) (paintObject : Nat) : Game :=
  { g with bluePaintModelTemplate := some paintObject, blueCubeMesh := some ⟨-10, 1, 0⟩ }

/-! ## Runs, sample states and the notions used in the statements -/

/-- A splash as `createPaintSplash` receives it: the ray hit, the paint colour, and the clock
value `performance.now()` would return if a door is opened. -/
structure Splash where
  hit : Intersection
  color : String
  now : ℚ

/-- Run `createPaintSplash` on the splashes of a list, one after the other. -/
def runSplashes (g : Game) : List Splash → Except String Game
  | [] => .ok g
  | s :: rest =>
    match createPaintSplash g s.hit s.color s.now with
    | .error e => .error e
    | .ok g1 => runSplashes g1 rest

/-- A splash on the object `o` with colour `c` (the geometry of the hit is immaterial to the
puzzle state). -/
def splashOn (o : Nat) (c : String) : Splash :=
  ⟨⟨0, ⟨0, 0, 0⟩, ⟨0, 0, 1⟩, o⟩, c, 0⟩

/-- The level once both paint models have loaded. -/
def loadedGame : Game :=
  { initialGame with redPaintModelTemplate := some 900, bluePaintModelTemplate := some 901 }

/-- The projectile `shoot` makes in the loaded level. -/
def firstPaint : Projectile :=
  ⟨1000, ⟨-30, 8 / 5, 0⟩, Vec3.multiplyScalar ⟨0, 0, -1⟩ 15, 5, -(49 / 5), "red"⟩

/-- A ray cast that meets nothing. -/
def openSky : List Decal → Vec3 → Vec3 → List Intersection := fun _ _ _ => []

/-- A ray cast that meets the first target (object 0) at distance 1/10. -/
def targetAhead : List Decal → Vec3 → Vec3 → List Intersection :=
  fun _ _ _ => [⟨1 / 10, ⟨-26, 1, 0⟩, ⟨-1, 0, 0⟩, 0⟩]

/-- Every target of door `d` is unlocked. -/
def groupUnlocked (ts : List Target) (d : Nat) : Prop :=
  ∀ t ∈ ts, t.doorIndex = d → t.unlocked = true

/-- The target `t` at position `j` is the first one whose mesh is the struck object: the one
the loop of `createPaintSplash` stops at. -/
def FirstStruck (g : Game) (o : Nat) (j : Nat) (t : Target) : Prop :=
  g.mainObjects[j]? = some t ∧ t.mesh = o ∧
    ∀ k u, k < j → g.mainObjects[k]? = some u → u.mesh ≠ o

/-- The target after a counted hit that does not unlock it. -/
def Target.counted (t : Target) : Target := { t with hitCount := t.hitCount + 1 }

/-- The target after the counted hit that unlocks it. -/
def Target.unlockedBy (t : Target) (color : String) : Target :=
  { t with hitCount := t.hitCount + 1, unlocked := true, materialColor := splashColor color }

/-- The target after a counted hit: lines 909-913. -/
def Target.scored (t : Target) (color : String) : Target :=
  if t.hitCount + 1 = 3 ∧ t.unlocked = false then t.unlockedBy color else t.counted

/-- What `createMap` fixes of a target for the whole session. -/
def Target.static (t : Target) : Nat × String × Nat := (t.mesh, t.requiredColor, t.doorIndex)

/-- The four ways a call of `createPaintSplash` can end, each with the state it leaves. -/
inductive SplashStep (g : Game) (hit : Intersection) (color : String) (now : ℚ) :
    Except String Game → Prop
  | ignored :
      (∀ j t, FirstStruck g hit.object j t → color ≠ t.requiredColor) →
      SplashStep g hit color now (.ok (addSplash g hit color))
  | counted (j : Nat) (t : Target) :
      FirstStruck g hit.object j t → color = t.requiredColor →
      ¬ (t.hitCount + 1 = 3 ∧ t.unlocked = false) →
      SplashStep g hit color now
        (.ok { addSplash g hit color with mainObjects := g.mainObjects.set j t.counted })
  | unlocked (j : Nat) (t : Target) :
      FirstStruck g hit.object j t → color = t.requiredColor →
      t.hitCount + 1 = 3 → t.unlocked = false →
      ¬ groupUnlocked (g.mainObjects.set j (t.unlockedBy color)) t.doorIndex →
      SplashStep g hit color now
        (.ok { addSplash g hit color with
                mainObjects := g.mainObjects.set j (t.unlockedBy color) })
  | opened (j : Nat) (t : Target) :
      FirstStruck g hit.object j t → color = t.requiredColor →
      t.hitCount + 1 = 3 → t.unlocked = false →
      groupUnlocked (g.mainObjects.set j (t.unlockedBy color)) t.doorIndex →
      SplashStep g hit color now
        (openDoor { addSplash g hit color with
                      mainObjects := g.mainObjects.set j (t.unlockedBy color) }
          t.doorIndex now)

/-- What holds of the puzzle state in every state the level can reach by splashes. -/
structure Inv (g : Game) : Prop where
  static : g.mainObjects.map Target.static = levelTargets.map Target.static
  doors : g.doors.length = 3
  mixers : g.doorMixers.length = 3
  starts : g.doorAnimStart.length = 3
  flag : ∀ t ∈ g.mainObjects, (t.unlocked = true ↔ 3 ≤ t.hitCount)
  gate : ∀ d, d < 3 →
    ((∃ m, g.doorMixers[d]? = some (some m)) ↔ groupUnlocked g.mainObjects d)
  started : ∀ d, d < 3 →
    ((∃ m, g.doorAnimStart[d]? = some (some m)) ↔ groupUnlocked g.mainObjects d)
  callsNodup : g.openDoorCalls.Nodup
  calls : ∀ d, d ∈ g.openDoorCalls ↔ d < 3 ∧ groupUnlocked g.mainObjects d

/-- The target at position `j` after the first `k` splashes of `ss`, from the initial state. -/
def targetAfter (ss : List Splash) (k j : Nat) : Option Target :=
  match runSplashes initialGame (ss.take k) with
  | .ok g => g.mainObjects[j]?
  | .error _ => none

/-- Splash number `k` of `ss` (counted from 0) turns the `unlocked` flag of target `j` from
false to true. -/
def UnlocksAt (ss : List Splash) (j k : Nat) : Prop :=
  (targetAfter ss k j).map Target.unlocked = some false ∧
    (targetAfter ss (k + 1) j).map Target.unlocked = some true

/-- Splash number `k` of `ss` raises the `hitCount` of target `j` from 2 to 3. -/
def ReachesThreeAt (ss : List Splash) (j k : Nat) : Prop :=
  (targetAfter ss k j).map Target.hitCount = some 2 ∧
    (targetAfter ss (k + 1) j).map Target.hitCount = some 3

/-- The number of splashes of `ss` that struck the mesh `m` with the colour `c`. -/
def hits (m : Nat) (c : String) (ss : List Splash) : Nat :=
  ss.countP (fun s => s.hit.object == m && s.color == c)

/-- Every target names a door that exists, so `openDoor` cannot throw. -/
def DoorsOk (g : Game) : Prop := ∀ t ∈ g.mainObjects, t.doorIndex < g.doors.length

/-- The contact test of line 852 on the result of the ray cast. -/
def Contact (hits : List Intersection) (hit : Intersection) : Prop :=
  hits.head? = some hit ∧ hit.distance < 2 / 5

/-- The decals an iteration adds: one on contact, none otherwise. -/
def newDecals (out : TickOutcome) (order : Nat) : List Decal :=
  match out.splash with
  | some hit => [decalOf hit out.paint.color order]
  | none => []

/-- The entries an iteration leaves in the list in place of its projectile. -/
def kept (out : TickOutcome) : List Projectile :=
  if out.removed then [] else [out.paint]

/-- The paint objects in flight are pairwise distinct and older than the next object `clone()`
will make. -/
def FreshPaint (g : Game) : Prop :=
  (g.paintProjectiles.map Projectile.object).Nodup ∧
    ∀ p ∈ g.paintProjectiles, p.object < g.nextObject

/-- The list `S` holds what is left of the projectiles of `B` after their iterations: the paint
objects of `S` are paint objects of `B`, in the same order, and each entry has life left and is
not below the floor bound. -/
def SurvivorsOf (B S : List Projectile) : Prop :=
  (S.map Projectile.object).Sublist (B.map Projectile.object) ∧
    ∀ q ∈ S, 0 < q.life ∧ -10 ≤ q.position.y

/-- What can happen to the game: a splash, a frame of `animate`, a click, a mouse move, a
change of the pointer lock. -/
inductive Event where
  | splash (s : Splash)
  | frame (rayCast : List Decal → Vec3 → Vec3 → List Intersection) (deltaTime : ℚ)
      (now clock : Nat → ℚ) (camera : Vec3 × Vec3)
  | click
  | mousemove (movementX movementY : ℚ)
  | pointerlockchange (onBody : Bool)

/-- Run the code that answers one event. -/
def play (g : Game) : Event → Except String Game
  | .splash s => createPaintSplash g s.hit s.color s.now
  | .frame rayCast deltaTime now clock camera => animate rayCast deltaTime now clock camera g
  | .click => click g
  | .mousemove movementX movementY => .ok (mousemove g movementX movementY)
  | .pointerlockchange onBody => .ok (pointerlockchange g onBody)

/-- Run the code that answers the events of a list, one after the other. -/
def playAll (g : Game) : List Event → Except String Game
  | [] => .ok g
  | e :: rest =>
    match play g e with
    | .error err => .error err
    | .ok g1 => playAll g1 rest

/-- The initial state with blue paint selected and no paint model loaded. -/
def blueSelectedGame : Game := { initialGame with currentPaintColor := "blue" }

/-- The decals a run of splashes hangs up, the first of them with draw order `k + 1`. -/
def decalsFrom (k : Nat) : List Splash → List Decal
  | [] => []
  | s :: rest => decalOf s.hit s.color (k + 1) :: decalsFrom (k + 1) rest

/-- The pitch `mouseY` lies between `-Math.PI / 2` and `Math.PI / 2`. -/
def PitchInRange (g : Game) : Prop := -mathPI / 2 ≤ g.mouseY ∧ g.mouseY ≤ mathPI / 2

/-- Nothing has gone back from `g` to `g'`: a target unlocked in `g` is unlocked in `g'`, a door
with a mixer in `g` has one in `g'`, and a door with an animation start time in `g` has one in
`g'`. -/
def NoReverse (g g' : Game) : Prop :=
  (∀ (j : Nat) (t : Target), g.mainObjects[j]? = some t → t.unlocked = true →
      ∃ t' : Target, g'.mainObjects[j]? = some t' ∧ t'.unlocked = true) ∧
    (∀ (i : Nat) (m : Mixer), g.doorMixers[i]? = some (some m) →
      ∃ m' : Mixer, g'.doorMixers[i]? = some (some m')) ∧
    (∀ (i : Nat) (s : ℚ), g.doorAnimStart[i]? = some (some s) →
      ∃ s' : ℚ, g'.doorAnimStart[i]? = some (some s'))

/-- Every door that has a mixer has an animation start time. -/
def MixersStarted (g : Game) : Prop :=
  ∀ (i : Nat) (m : Mixer), g.doorMixers[i]? = some (some m) →
    ∃ s : ℚ, g.doorAnimStart[i]? = some (some s)

/-- The state a list of events leads to, or the state before them if one of them throws. -/
def afterEvents (g : Game) (evs : List Event) : Game :=
  match playAll g evs with
  | .ok g' => g'
  | .error _ => g

/-- Three red splashes on the first target: the events that open the first door. -/
def openingEvents : List Event :=
  [.splash (splashOn 0 "red"), .splash (splashOn 0 "red"), .splash (splashOn 0 "red")]

/-- A frame one second later with nothing in flight, then the pointer is locked and the mouse
moves. -/
def laterEvents : List Event :=
  [.frame openSky (1 / 60) (fun _ => 0) (fun _ => 1000) (⟨-30, 8 / 5, 0⟩, ⟨0, 0, -1⟩),
    .pointerlockchange true, .mousemove 3 4]

/-- Two red splashes on the first target, then the pointer is locked, a red paint is fired and,
at the next frame (1/60 s of frame time, wall clock 5000 ms in the paint loop and 5001 ms in the
door loop), it lands on the first target: the frame in which the first door starts to open. -/
def firstOpeningFrame : List Event :=
  [.splash (splashOn 0 "red"), .splash (splashOn 0 "red"), .pointerlockchange true, .click,
    .frame targetAhead (1 / 60) (fun _ => 5000) (fun _ => 5001) (⟨-30, 8 / 5, 0⟩, ⟨0, 0, -1⟩)]

/-- Line 1163: the height `Math.min(2 + elapsed * 2, 6)` pushed into the kinematic body of a
door that is opening, `elapsed` being the seconds since `openDoor`. -/
def doorHeight (elapsed : ℚ) : ℚ := min (2 + elapsed * 2) 6

/-- One call of `updatePaintProjectiles`: its frame time, and what the ray cast and the clock
return during it. -/
structure Tick where
  rayCast : List Decal → Vec3 → Vec3 → List Intersection
  deltaTime : ℚ
  now : Nat → ℚ

/-- Run `updatePaintProjectiles` for the ticks of a list, one after the other. -/
def runTicks (g : Game) : List Tick → Except String Game
  | [] => .ok g
  | t :: rest =>
    match updatePaintProjectiles t.rayCast t.deltaTime t.now g with
    | .error e => .error e
    | .ok g1 => runTicks g1 rest

/-- The projectile `q` is what flight over ticks of the lengths `dts` makes of `p`: the same
paint object, colour and gravity, the same horizontal velocity, the vertical velocity changed by
gravity over the whole time, and the life run down by the whole time. -/
def Flown (dts : List ℚ) (p q : Projectile) : Prop :=
  q.object = p.object ∧ q.color = p.color ∧ q.gravity = p.gravity ∧
    q.velocity.x = p.velocity.x ∧ q.velocity.z = p.velocity.z ∧
    q.velocity.y = p.velocity.y + p.gravity * dts.sum ∧ q.life = p.life - dts.sum

/-- The tick as a filter, one projectile: it is integrated and tested once, in the state `g`
left by the projectiles behind it in the list; `g.paintProjectiles` holds the survivors among
those, and the projectile is put in front of them if it stays.  On contact it makes its splash;
a projectile that goes has its paint object taken from the scene. -/
def visit (rayCast : List Decal → Vec3 → Vec3 → List Intersection) (deltaTime now : ℚ)
    (paint : Projectile) (g : Game) : Except String Game :=
  let out := tickPaint (rayCast g.decals) deltaTime paint
  match out.splash with
  | some hit =>
    match createPaintSplash g hit out.paint.color now with
    | .error e => .error e
    | .ok g1 => .ok { g1 with scene := g1.scene.erase out.paint.object }
  | none =>
    if out.removed then .ok { g with scene := g.scene.erase out.paint.object }
    else .ok { g with paintProjectiles := out.paint :: g.paintProjectiles }

/-- The tick as a filter over the list `ps`, whose first entry has index `i`: the entries
behind the first are dealt with first, then the first one. -/
def filterFrom (rayCast : List Decal → Vec3 → Vec3 → List Intersection) (deltaTime : ℚ)
    (now : Nat → ℚ) : Nat → List Projectile → Game → Except String Game
  | _, [], g => .ok g
  | i, paint :: rest, g =>
    match filterFrom rayCast deltaTime now (i + 1) rest g with
    | .error e => .error e
    | .ok g1 => visit rayCast deltaTime (now i) paint g1

/-- The tick as the filter it is meant to be: every projectile of the list is visited once, the
last one first, and the list is replaced by the survivors in their order. -/
def filterTick (rayCast : List Decal → Vec3 → Vec3 → List Intersection) (deltaTime : ℚ)
    (now : Nat → ℚ) (g : Game) : Except String Game :=
  filterFrom rayCast deltaTime now 0 g.paintProjectiles { g with paintProjectiles := [] }

/-- The state with its list of projectiles replaced. -/
def withPaint (g : Game) (ps : List Projectile) : Game := { g with paintProjectiles := ps }

/-- A tick of one second with nothing in reach of the ray. -/
def secondTick : Tick := ⟨openSky, 1, fun _ => 0⟩

/-- The projectile after a tick of length `dt` without contact: integrated (lines 842-844),
then its life run down (line 859). -/
def Projectile.aged (p : Projectile) (dt : ℚ) : Projectile :=
  { p.integrate dt with life := p.life - dt }

/-- What the player's side of the game consists of: a key goes down or up, `world.step()` moves
the player body, `createMap` places the blue cube, `updatePlayer` runs. -/
inductive Control where
  | keydown (code : String)
  | keyup (code : String)
  | worldStep (body : Body)
  | placeBlueCube (paintObject : Nat)
  | updatePlayer (worldDirection : Vec3) (normalize : Vec3 → Vec3) (currentTime : ℚ)

/-- Run the code that answers one control. -/
def control (g : Game) : Control → Game
  | .keydown code => keydown g code
  | .keyup code => keyup g code
  | .worldStep body => worldStep g body
  | .placeBlueCube paintObject => placeBlueCube g paintObject
  | .updatePlayer worldDirection normalize currentTime =>
    updatePlayer worldDirection normalize currentTime g

/-- Run the code that answers the controls of a list, one after the other. -/
def controlAll (g : Game) : List Control → Game
  | [] => g
  | c :: rest => controlAll (control g c) rest

/-- The number 1 for a held key and 0 for a released one. -/
def held (key : Bool) : ℚ := if key = true then 1 else 0

/-- A stand-in for `Vector3.normalize` on the vectors of the examples: it leaves the axis
vectors used there as they are. -/
def unitAxes : Vec3 → Vec3 := fun v => v

/-- The player walks to the blue cube with the space key held: the cube is placed, the body
comes to rest on it, `updatePlayer` runs at 2000 ms, and `Digit2` is pressed. -/
def walkToCube : List Control :=
  [.placeBlueCube 901, .keydown "Space", .worldStep ⟨⟨-10, 1, 0⟩, ⟨0, 0, 0⟩⟩,
    .updatePlayer ⟨0, 0, -1⟩ unitAxes 2000, .keydown "Digit2"]

end Final

namespace Ver3

open Final (Vec3 Target Door Mixer Intersection arraySet)

/-! ## The colour-mixing variant (`src/project/testmainver3.js`) -/

/-- Modelled from the spec: `Number::toString` of a natural number, its decimal numeral.
(JavaScript switches to exponent form from 10^21 on, which names the same number.) -/
def digits : Nat → Nat → List Char → List Char
  | 0, _, acc => acc
  | fuel + 1, n, acc =>
    if n < 10 then Nat.digitChar n :: acc
    else digits fuel (n / 10) (Nat.digitChar (n % 10) :: acc)

/-- Modelled from the spec: `Number::toString` of an integer-valued number: a minus sign for a
negative one, then the decimal numeral of the magnitude. -/
def numberToString (n : Int) : List Char :=
  if n < 0 then '-' :: digits (n.natAbs + 1) n.natAbs [] else digits (n.natAbs + 1) n.natAbs []

/-- Modelled from the spec: `Array.prototype.join(",")` on an array of integer-valued
numbers. -/
def join : List Int → List Char
  | [] => []
  | [a] => numberToString a
  | a :: b :: rest => numberToString a ++ ',' :: join (b :: rest)

/-- Lines 597-601 up to `toArray()`: the point divided by 0.1 and floored, as an array. -/
def cell (point : Vec3) : List Int :=
  [⌊point.x / (1 / 10)⌋, ⌊point.y / (1 / 10)⌋, ⌊point.z / (1 / 10)⌋]

/-- Lines 597-602. -/
def pointKey (point : Vec3) : String := String.mk (join (cell point))

/-- The `Map` `splashMap` (line 20): what `get` returns for each key, `none` for a key the map
does not have; a `Set` of colours is the list of its members in insertion order. -/
abbrev SplashMap := String → Option (List String)

/-- The call `set.add(color)`. -/
def setAdd (set : List String) (color : String) : List String :=
  if color ∈ set then set else set ++ [color]

/-- Lines 604-607: a key the map does not have is given an empty set, then the colour is added
to the set at the key. -/
def recordColor (splashMap : SplashMap) (pointKey color : String) : SplashMap :=
  let colorSet := (splashMap pointKey).getD []
  fun key => if key = pointKey then some (setAdd colorSet color) else splashMap key

/-- Lines 609-613. -/
def effectiveColor (colorSet : List String) (color : String) : String :=
  if "red" ∈ colorSet ∧ "blue" ∈ colorSet then "purple" else color

/-- Lines 615-620. -/
def splashColor (effectiveColor : String) : Nat :=
  if effectiveColor = "blue" then 0x3c3cff
  else if effectiveColor = "red" then 0xff3c3c
  else 0xaa00aa

/-- A splash mesh: the object it is added to (line 651), `userData.color`,
`material.color`, and the point `hit.point + 0.01 * hit.face.normal` of lines 636-638. -/
structure Decal where
  parent : Nat
  color : String
  materialColor : Nat
  position : Vec3
deriving DecidableEq

/-- A child of `scene` as the loop of lines 659-686 reads it: whether it has a geometry with a
bounding box, its `userData.color` if it has one, and its `material.color`. -/
structure SceneChild where
  hasBoundingBox : Bool
  color : Option String
  materialColor : Nat
deriving DecidableEq

/-- The module-level variables of `testmainver3.js` that `createPaintSplash` and `openDoor`
read or write.  `sceneChildren` is `scene.children`; the splash meshes are children of the
objects they were added to, kept in `decals` in the order of their creation.  The field
`openDoorCalls` is an observation of the run: the arguments of the calls of `openDoor`. -/
structure Game where
  splashMap : SplashMap
  sceneChildren : List SceneChild
  decals : List Decal
  mainObjects : List Target
  doors : List Door
  doorMixers : List (Option Mixer)
  doorAnimStart : List (Option ℚ)
  openDoorCalls : List Nat

/-- Lines 661-684: the body of the loop over `scene.children` for the child `other` at
position `k`; `boxHit k` is `box1.intersectsBox(box2)` for that child.  The splash is never
itself a child of the scene (it is added to the struck mesh), so `other !== splash` holds. -/
def overlapStep (boxHit : Nat → Bool) (k : Nat) (splash : Decal) (other : SceneChild) :
    Decal × SceneChild :=
  if other.hasBoundingBox = true ∧ (other.color = some "red" ∨ other.color = some "blue") then
    if boxHit k = true then
      let c1 := splash.color
      let c2 := other.color
      if (c1 = "red" ∧ c2 = some "blue") ∨ (c1 = "blue" ∧ c2 = some "red") then
        ({ splash with materialColor := 0xaa00aa, color := "purple" },
          { other with materialColor := 0xaa00aa, color := some "purple" })
      else (splash, other)
    else (splash, other)
  else (splash, other)

/-- Lines 659-686: `for (const other of scene.children)`; `k` is the position of the first
child of the list. -/
def overlapLoop (boxHit : Nat → Bool) : Nat → Decal → List SceneChild → Decal × List SceneChild
  | _, splash, [] => (splash, [])
  | k, splash, other :: rest =>
    let step := overlapStep boxHit k splash other
    let done := overlapLoop boxHit (k + 1) step.1 rest
    (done.1, step.2 :: done.2)

/-- Lines 712-743.  Reading `doors[index].position` throws when there is no such door. -/
def openDoor (g : Game) (index : Nat) (now : ℚ) : Except String Game :=
  match g.doors[index]? with
  | none => .error "TypeError: doors[index] is undefined"
  | some door =>
    .ok { g with
      doorMixers := arraySet g.doorMixers index ⟨index, 0, door.position⟩
      doorAnimStart := arraySet g.doorAnimStart index now
      openDoorCalls := g.openDoorCalls ++ [index] }

/-- Lines 691-706: the body run for the target `obj`, found at position `i` of `mainObjects`,
whose mesh is the struck object. -/
def scoreHit (g : Game) (i : Nat) (obj : Target) (splash : Decal) (now : ℚ) :
    Except String Game :=
  let finalColor := splash.color
  if finalColor = obj.requiredColor then
    let obj1 := { obj with hitCount := obj.hitCount + 1 }
    if obj1.hitCount = 3 ∧ obj1.unlocked = false then
      let obj2 := { obj1 with unlocked := true, materialColor := splash.materialColor }
      let g2 := { g with mainObjects := g.mainObjects.set i obj2 }
      let allUnlocked :=
        (g2.mainObjects.filter (fun o => o.doorIndex = obj.doorIndex)).all (fun o => o.unlocked)
      if allUnlocked then openDoor g2 obj.doorIndex now else .ok g2
    else .ok { g with mainObjects := g.mainObjects.set i obj1 }
  else .ok g

/-- Lines 689-709: `for (const obj of mainObjects)` with its `break`; `rest` are the targets
not yet visited and `i` is the position of the first of them. -/
def scoreLoop (g : Game) (hitObject : Nat) (splash : Decal) (now : ℚ) :
    List Target → Nat → Except String Game
  | [], _ => .ok g
  | obj :: rest, i =>
    if hitObject = obj.mesh then scoreHit g i obj splash now
    else scoreLoop g hitObject splash now rest (i + 1)

/-- Lines 596-710.  `boxHit` tells, for each position in `scene.children`, whether the box of
the new splash meets the box of that child; `now` is what `performance.now()` returns if a door
is opened. -/
def createPaintSplash (boxHit : Nat → Bool) (g : Game) (hit : Intersection) (color : String)
    (now : ℚ) : Except String Game :=
  let pointKey := pointKey hit.point
  let splashMap := recordColor g.splashMap pointKey color
  let colorSet := (splashMap pointKey).getD []
  let effectiveColor := effectiveColor colorSet color
  let splash : Decal :=
    { parent := hit.object, color := effectiveColor, materialColor := splashColor effectiveColor,
      position := hit.point.add (hit.normal.multiplyScalar (1 / 100)) }
  let done := overlapLoop boxHit 0 splash g.sceneChildren
  let g1 := { g with
    splashMap := splashMap
    sceneChildren := done.2
    decals := g.decals ++ [done.1] }
  scoreLoop g1 hit.object done.1 now g1.mainObjects 0

/-- The table `mainObjectPositions` (lines 196-238) as pushed to `mainObjects` (lines 254-260).
A mesh is named by its position in `walls`. -/
def levelTargets : List Target :=
  [ ⟨0, 0, "red", 0, false, 0x938784⟩,
    ⟨1, 0, "blue", 1, false, 0x938784⟩,
    ⟨2, 0, "red", 1, false, 0x938784⟩,
    ⟨3, 0, "purple", 2, false, 0x938784⟩,
    ⟨4, 0, "purple", 2, false, 0x938784⟩ ]

/-- The table `doorPositions` (lines 381-400). -/
def levelDoors : List Door :=
  [ ⟨⟨-20, 2, 0⟩⟩, ⟨⟨0, 2, 0⟩⟩, ⟨⟨20, 2, 0⟩⟩ ]

/-- The children of `scene` once `init` has run `createMap` and `createAim`: two lights, the
floor, five targets, twenty walls, three doors, six inner walls, the blue cube and the aim.
None has a `userData.color`, and no geometry has a bounding box before `computeBoundingBox` is
called on it, which the script does for splash geometries only. -/
def levelScene : List SceneChild :=
  List.replicate 2 ⟨false, none, 0⟩ ++ [⟨false, none, 0x808080⟩] ++
    List.replicate 5 ⟨false, none, 0x938784⟩ ++ List.replicate 20 ⟨false, none, 0xffffff⟩ ++
    List.replicate 3 ⟨false, none, 0x0000ff⟩ ++ List.replicate 6 ⟨false, none, 0xffffff⟩ ++
    [⟨false, none, 0x0000ff⟩, ⟨false, none, 0x00ff00⟩]

/-- The state once the synchronous part of `init` has run: an empty `splashMap`, no splash,
five locked targets and three closed doors. -/
def initialGame : Game where
  splashMap := fun _ => none
  sceneChildren := levelScene
  decals := []
  mainObjects := levelTargets
  doors := levelDoors
  doorMixers := [none, none, none]
  doorAnimStart := [none, none, none]
  openDoorCalls := []

/-- A splash as `createPaintSplash` receives it, with what the box test and the clock return
during the call. -/
structure Splash where
  hit : Intersection
  color : String
  boxHit : Nat → Bool
  now : ℚ

/-- Run `createPaintSplash` on the splashes of a list, one after the other. -/
def runSplashes (g : Game) : List Splash → Except String Game
  | [] => .ok g
  | s :: rest =>
    match createPaintSplash s.boxHit g s.hit s.color s.now with
    | .error e => .error e
    | .ok g1 => runSplashes g1 rest

/-- A splash of colour `c` on the object `o` at the point `p`, its box meeting every child of
the scene. -/
def splashAt (o : Nat) (p : Vec3) (c : String) : Splash :=
  ⟨⟨0, p, ⟨0, 0, 1⟩, o⟩, c, fun _ => true, 0⟩

/-- The colours recorded for the cell with key `key`. -/
def colorSet (g : Game) (key : String) : List String := (g.splashMap key).getD []

/-- No child of the scene is tagged red or blue. -/
def Untagged (g : Game) : Prop :=
  ∀ c ∈ g.sceneChildren, c.color ≠ some "red" ∧ c.color ≠ some "blue"

/-- Every target names a door that exists. -/
def DoorsOk (g : Game) : Prop :=
  ∀ t ∈ g.mainObjects, t.doorIndex < g.doors.length

/-- The target `t` at position `j` is the first one whose mesh is the object `o`: the one the
loop of `createPaintSplash` stops at. -/
def FirstStruck (g : Game) (o : Nat) (j : Nat) (t : Target) : Prop :=
  g.mainObjects[j]? = some t ∧ t.mesh = o ∧
    ∀ k u, k < j → g.mainObjects[k]? = some u → u.mesh ≠ o

/-! ## Runs and notions of the colour-mixing variant -/

/-- The splash mesh lines 609-638 build: its colour tag is resolved from the colours recorded
for its cell once the fired colour is among them. -/
def splashOf (g : Game) (hit : Intersection) (color : String) : Decal :=
  let resolved := effectiveColor (setAdd (colorSet g (pointKey hit.point)) color) color
  { parent := hit.object, color := resolved, materialColor := splashColor resolved,
    position := hit.point.add (hit.normal.multiplyScalar (1 / 100)) }

/-- The colours fired at the cell with key `key` by the splashes of a list, in order. -/
def firedAt (ss : List Splash) (key : String) : List String :=
  (ss.filter (fun s => pointKey s.hit.point = key)).map Splash.color

/-- The state the splashes `ss` leave when made from the start of the level. -/
def afterSplashes (ss : List Splash) : Game :=
  match runSplashes initialGame ss with
  | .ok g => g
  | .error _ => initialGame

/-- What holds of the state after the splashes `ss` have been made from the start of the level:
no scene child is tagged, every target names a door, the bucket of each cell holds exactly the
colours fired at the cell, and the splash meshes are, in order, those of the splashes, each
with the colour resolved from the colours fired at its cell up to and including its own. -/
structure MixInv (ss : List Splash) (g : Game) : Prop where
  untagged : Untagged g
  doorsOk : DoorsOk g
  cells : ∀ (key c : String), c ∈ colorSet g key ↔ c ∈ firedAt ss key
  count : g.decals.length = ss.length
  colors : ∀ (k : Nat) (s : Splash) (d : Decal), ss[k]? = some s → g.decals[k]? = some d →
    d.color = effectiveColor (firedAt (ss.take (k + 1)) (pointKey s.hit.point)) s.color ∧
      d.materialColor = splashColor d.color ∧ d.parent = s.hit.object

end Ver3

namespace Main0604

open Final (Vec3 Keys)

/-! ## The hand-written player physics (`src/project/legacy/[0604] main.js`) -/

/-- The object `player` (lines 16-22). -/
structure Player where
  position : Vec3
  velocity : Vec3
  speed : ℚ
  jumpPower : ℚ
  onGround : Bool
deriving DecidableEq

/-- The variables of `[0604] main.js` that `updatePlayer` reads or writes: the player, the held
keys (lines 24-31, of the same shape as in `final.js`) and the pose of the camera. -/
structure Game where
  player : Player
  keys : Keys
  cameraPosition : Vec3
  cameraDirection : Vec3
deriving DecidableEq

/-- Lines 296-310: the move direction before it is normalised. -/
def moveDirection (keys : Keys) (forward : Vec3) : Vec3 :=
  let right := forward.crossVectors ⟨0, 1, 0⟩
  let m0 : Vec3 := ⟨0, 0, 0⟩
  let m1 := if keys.w = true then m0.add forward else m0
  let m2 := if keys.s = true then m1.sub forward else m1
  let m3 := if keys.d = true then m2.add right else m2
  if keys.a = true then m3.sub right else m3

/-- Lines 292-337.  `worldDirection` is what `camera.getWorldDirection` returns for the
rotation set in lines 293-295 and `normalize` is `Vector3.normalize`, whose square root has no
place among the rationals. -/
def updatePlayer (worldDirection : Vec3) (normalize : Vec3 → Vec3) (deltaTime : ℚ)
    (g : Game) : Game :=
  let forward := normalize { worldDirection with y := 0 }
  let moveDirection := normalize (moveDirection g.keys forward)
  let speed := if g.keys.shift = true then g.player.speed * 2 else g.player.speed
  let p1 := { g.player with
    velocity := ⟨moveDirection.x * speed, g.player.velocity.y, moveDirection.z * speed⟩ }
  let p2 :=
    if g.keys.space = true ∧ p1.onGround = true then
      { p1 with velocity := { p1.velocity with y := p1.jumpPower }, onGround := false }
    else p1
  let p3 := { p2 with velocity := { p2.velocity with y := p2.velocity.y - 25 * deltaTime } }
  let p4 := { p3 with position := p3.position.add (p3.velocity.multiplyScalar deltaTime) }
  let p5 :=
    if p4.position.y ≤ (8 / 5 : ℚ) then
      { p4 with
        position := { p4.position with y := 8 / 5 }
        velocity := { p4.velocity with y := 0 }
        onGround := true }
    else p4
  let p6 := { p5 with position := { p5.position with x := max (-9) (min 9 p5.position.x) } }
  let p7 := { p6 with position := { p6.position with z := max (-9) (min 9 p6.position.z) } }
  { g with player := p7, cameraPosition := p7.position, cameraDirection := worldDirection }

/-- The state at the start: the player of lines 16-22, no key held, the camera at the player
(line 52) looking down the negative z axis. -/
def initialGame : Game :=
  { player := ⟨⟨0, 8 / 5, 0⟩, ⟨0, 0, 0⟩, 5, 10, false⟩
    keys := ⟨false, false, false, false, false, false⟩
    cameraPosition := ⟨0, 8 / 5, 0⟩
    cameraDirection := ⟨0, 0, -1⟩ }

/-- The height lines 318-325 give the player before the floor test of line 327: the vertical
velocity is the jump power if a jump starts and the old one otherwise, less 25 times the frame
time, and moves the height for the frame time. -/
def integratedHeight (g : Game) (deltaTime : ℚ) : ℚ :=
  g.player.position.y +
    ((if g.keys.space = true ∧ g.player.onGround = true then g.player.jumpPower
      else g.player.velocity.y) - 25 * deltaTime) * deltaTime

/-- The start state with the keys `w`, `shift` and space held. -/
def runningJump : Game :=
  { initialGame with keys := ⟨true, false, false, false, true, true⟩ }

end Main0604

namespace Final

/-! ## How one splash acts on the targets -/

theorem allUnlocked_iff (ts : List Target) (d : Nat) :
    (ts.filter (fun o => o.doorIndex = d)).all (fun o => o.unlocked) = true ↔
      groupUnlocked ts d := by
  simp only [groupUnlocked, List.all_eq_true, List.mem_filter, decide_eq_true_eq]
  constructor
  · intro h t ht hd
    exact h t ⟨ht, hd⟩
  · rintro h t ⟨ht, hd⟩
    exact h t ht hd

theorem scoreLoop_cases (g : Game) (o : Nat) (color : String) (now : ℚ) :
    ∀ (rest pre : List Target), g.mainObjects = pre ++ rest → (∀ u ∈ pre, u.mesh ≠ o) →
      (scoreLoop g o color now rest pre.length = .ok g ∧ ∀ u ∈ g.mainObjects, u.mesh ≠ o) ∨
      ∃ j t, FirstStruck g o j t ∧
        scoreLoop g o color now rest pre.length = scoreHit g j t color now
  | [], pre, h, hpre => by
      left
      simp only [List.append_nil] at h
      exact ⟨rfl, by rw [h]; exact hpre⟩
  | obj :: rest, pre, h, hpre => by
      unfold scoreLoop
      by_cases hm : o = obj.mesh
      · right
        refine ⟨pre.length, obj, ⟨?_, hm.symm, ?_⟩, by simp [hm]⟩
        · rw [h, List.getElem?_append_right (Nat.le_refl _)]; simp
        · intro k u hk hku
          rw [h, List.getElem?_append_left hk] at hku
          exact hpre u (List.getElem?_mem hku)
      · have ih := scoreLoop_cases g o color now rest (pre ++ [obj]) (by simp [h])
          (by
            intro u hu
            rcases List.mem_append.mp hu with hu | hu
            · exact hpre u hu
            · simp only [List.mem_singleton] at hu
              subst hu
              exact fun hc => hm hc.symm)
        simpa [hm] using ih

theorem createPaintSplash_step (g : Game) (hit : Intersection) (color : String) (now : ℚ) :
    SplashStep g hit color now (createPaintSplash g hit color now) := by
  unfold createPaintSplash
  have hmo : (addSplash g hit color).mainObjects = g.mainObjects := rfl
  rcases scoreLoop_cases (addSplash g hit color) hit.object color now
      (addSplash g hit color).mainObjects [] (by simp) (by simp) with ⟨hr, hno⟩ | ⟨j, t, hf, hr⟩
  · simp only [List.length_nil] at hr
    rw [hr]
    refine SplashStep.ignored ?_
    intro j t hjt
    exact absurd hjt.2.1 (hno t (by rw [hmo]; exact List.getElem?_mem hjt.1))
  · simp only [List.length_nil] at hr
    rw [hr]
    have hf' : FirstStruck g hit.object j t := hf
    unfold scoreHit
    dsimp only
    split_ifs with hc hu hall
    · exact SplashStep.opened j t hf' hc hu.1 hu.2 ((allUnlocked_iff _ _).mp hall)
    · exact SplashStep.unlocked j t hf' hc hu.1 hu.2 (fun h => hall ((allUnlocked_iff _ _).mpr h))
    · exact SplashStep.counted j t hf' hc hu
    · refine SplashStep.ignored ?_
      intro k u hku
      have hkj : k = j := by
        rcases Nat.lt_trichotomy k j with h | h | h
        · exact absurd hku.2.1 (hf'.2.2 k u h hku.1)
        · exact h
        · exact absurd hf'.2.1 (hku.2.2 j t h hf'.1)
      subst hkj
      have hut : u = t := by
        have := hku.1.symm.trans hf'.1
        simpa using this
      subst hut
      exact hc

/-! ## Arrays and target lists -/

theorem arraySet_length {α : Type} (xs : List (Option α)) (i : Nat) (v : α)
    (h : i < xs.length) : (arraySet xs i v).length = xs.length := by
  simp [arraySet, h]

theorem arraySet_getElem? {α : Type} (xs : List (Option α)) (i k : Nat) (v : α)
    (h : i < xs.length) :
    (arraySet xs i v)[k]? = if k = i then some (some v) else xs[k]? := by
  simp only [arraySet, if_pos h, List.getElem?_set]
  by_cases hk : k = i
  · subst hk; simp [h]
  · have : ¬ i = k := fun e => hk e.symm
    simp [hk, this]

theorem openDoor_ok (g : Game) (i : Nat) (now : ℚ) (h : i < g.doors.length) :
    openDoor g i now = .ok { g with
      doorMixers := arraySet g.doorMixers i (newMixer g i)
      doorAnimStart := arraySet g.doorAnimStart i now
      openDoorCalls := g.openDoorCalls ++ [i] } := by
  simp [openDoor, List.getElem?_eq_getElem h]

theorem getElem?_set_cases {ts : List Target} {j k : Nat} {a u : Target}
    (h : (ts.set j a)[k]? = some u) : (k = j ∧ u = a) ∨ (k ≠ j ∧ ts[k]? = some u) := by
  rw [List.getElem?_set] at h
  by_cases hk : j = k
  · left
    rw [if_pos hk] at h
    split_ifs at h
    · exact ⟨hk.symm, by simpa using h.symm⟩
  · right
    rw [if_neg hk] at h
    exact ⟨fun e => hk e.symm, h⟩

theorem getElem?_set_self_of {ts : List Target} {j : Nat} {t a : Target}
    (h : ts[j]? = some t) : (ts.set j a)[j]? = some a := by
  have hj : j < ts.length := by
    rcases List.getElem?_eq_some.mp h with ⟨hj, _⟩
    exact hj
  simp [List.getElem?_set, hj]

theorem mem_set_cases {ts : List Target} {j : Nat} {a u : Target}
    (h : u ∈ ts.set j a) : u = a ∨ ∃ k, k ≠ j ∧ ts[k]? = some u := by
  rcases List.mem_iff_getElem?.mp h with ⟨k, hk⟩
  rcases getElem?_set_cases hk with ⟨_, hu⟩ | ⟨hne, hu⟩
  · exact Or.inl hu
  · exact Or.inr ⟨k, hne, hu⟩

theorem mem_set_of_ne {ts : List Target} {j k : Nat} {a u : Target}
    (hk : ts[k]? = some u) (hne : k ≠ j) : u ∈ ts.set j a := by
  apply List.mem_iff_getElem?.mpr
  refine ⟨k, ?_⟩
  rw [List.getElem?_set, if_neg (fun e => hne e.symm)]
  exact hk

theorem mem_set_self_of {ts : List Target} {j : Nat} {t a : Target}
    (h : ts[j]? = some t) : a ∈ ts.set j a :=
  List.mem_iff_getElem?.mpr ⟨j, getElem?_set_self_of h⟩

/-- The group of door `d` after the target at `j` has been replaced, split into the other
targets and the replaced one. -/
theorem groupUnlocked_set {ts : List Target} {j : Nat} {t a : Target} (d : Nat)
    (h : ts[j]? = some t) (hd : a.doorIndex = t.doorIndex) :
    groupUnlocked (ts.set j a) d ↔
      (∀ k u, k ≠ j → ts[k]? = some u → u.doorIndex = d → u.unlocked = true) ∧
        (t.doorIndex = d → a.unlocked = true) := by
  constructor
  · intro hg
    refine ⟨fun k u hne hk hud => hg u (mem_set_of_ne hk hne) hud, fun htd => ?_⟩
    exact hg a (mem_set_self_of h) (hd.trans htd)
  · rintro ⟨h1, h2⟩ u hu hud
    rcases mem_set_cases hu with rfl | ⟨k, hne, hk⟩
    · exact h2 (hd.symm.trans hud)
    · exact h1 k u hne hk hud

theorem groupUnlocked_split {ts : List Target} {j : Nat} {t : Target} (d : Nat)
    (h : ts[j]? = some t) :
    groupUnlocked ts d ↔
      (∀ k u, k ≠ j → ts[k]? = some u → u.doorIndex = d → u.unlocked = true) ∧
        (t.doorIndex = d → t.unlocked = true) := by
  constructor
  · intro hg
    exact ⟨fun k u _ hk hud => hg u (List.getElem?_mem hk) hud,
      fun htd => hg t (List.getElem?_mem h) htd⟩
  · rintro ⟨h1, h2⟩ u hu hud
    rcases List.mem_iff_getElem?.mp hu with ⟨k, hk⟩
    by_cases hkj : k = j
    · subst hkj
      have : u = t := by simpa using hk.symm.trans h
      subst this
      exact h2 hud
    · exact h1 k u hkj hk hud

theorem map_static_set {ts : List Target} {j : Nat} {t a : Target}
    (h : ts[j]? = some t) (ha : a.static = t.static) :
    (ts.set j a).map Target.static = ts.map Target.static := by
  apply List.ext_getElem?
  intro k
  rw [List.getElem?_map, List.getElem?_map, List.getElem?_set]
  by_cases hk : j = k
  · subst hk
    have hj : j < ts.length := by
      rcases List.getElem?_eq_some.mp h with ⟨hj, _⟩
      exact hj
    simp [hj, h, ha]
  · simp [hk]

theorem static_getElem? {ts : List Target}
    (hs : ts.map Target.static = levelTargets.map Target.static) {j : Nat} {t : Target}
    (h : ts[j]? = some t) :
    t.mesh = j ∧ t.doorIndex < 3 ∧ levelTargets[j]?.map Target.static = some t.static := by
  have hj : (ts.map Target.static)[j]? = some t.static := by
    rw [List.getElem?_map, h]; rfl
  rw [hs, List.getElem?_map] at hj
  refine ⟨?_, ?_, hj⟩
  · rcases j with _ | _ | _ | _ | _ | j <;>
      simp [levelTargets, Target.static] at hj <;>
      (obtain ⟨h1, -, h3⟩ := hj; omega)
  · rcases j with _ | _ | _ | _ | _ | j <;>
      simp [levelTargets, Target.static] at hj <;>
      (obtain ⟨h1, -, h3⟩ := hj; omega)

theorem groupUnlocked_set_same {ts : List Target} {j : Nat} {t a : Target} (d : Nat)
    (h : ts[j]? = some t) (hd : a.doorIndex = t.doorIndex)
    (hu : t.doorIndex = d → a.unlocked = t.unlocked) :
    groupUnlocked (ts.set j a) d ↔ groupUnlocked ts d := by
  rw [groupUnlocked_set d h hd, groupUnlocked_split d h]
  constructor
  · rintro ⟨h1, h2⟩
    exact ⟨h1, fun e => (hu e) ▸ h2 e⟩
  · rintro ⟨h1, h2⟩
    exact ⟨h1, fun e => (hu e).symm ▸ h2 e⟩

theorem not_groupUnlocked_of_locked {ts : List Target} {j : Nat} {t : Target}
    (h : ts[j]? = some t) (hl : t.unlocked = false) : ¬ groupUnlocked ts t.doorIndex := by
  intro hg
  have := hg t (List.getElem?_mem h) rfl
  rw [hl] at this
  exact Bool.noConfusion this

/-! ## The invariant of the level -/

theorem inv_initialGame : Inv initialGame where
  static := rfl
  doors := rfl
  mixers := rfl
  starts := rfl
  flag := by simp [initialGame, levelTargets]
  gate := by
    intro d hd
    interval_cases d <;> simp [initialGame, levelTargets, groupUnlocked]
  started := by
    intro d hd
    interval_cases d <;> simp [initialGame, levelTargets, groupUnlocked]
  callsNodup := by simp [initialGame]
  calls := by
    intro d
    constructor
    · intro h
      simp [initialGame] at h
    · rintro ⟨hd, hg⟩
      exfalso
      interval_cases d <;> simp [initialGame, levelTargets, groupUnlocked] at hg

theorem inv_counted {g : Game} {hit : Intersection} {color : String} {j : Nat} {t : Target}
    (hI : Inv g) (hf : FirstStruck g hit.object j t)
    (hu : ¬ (t.hitCount + 1 = 3 ∧ t.unlocked = false)) :
    Inv { addSplash g hit color with mainObjects := g.mainObjects.set j t.counted } := by
  have hgrp : ∀ d, groupUnlocked (g.mainObjects.set j t.counted) d ↔
      groupUnlocked g.mainObjects d :=
    fun d => groupUnlocked_set_same d hf.1 rfl (fun _ => rfl)
  refine ⟨?_, hI.doors, hI.mixers, hI.starts, ?_, ?_, ?_, hI.callsNodup, ?_⟩
  · exact (map_static_set (a := t.counted) hf.1 rfl).trans hI.static
  · intro u hu'
    rcases mem_set_cases hu' with rfl | ⟨k, _, hk⟩
    · have old := hI.flag t (List.getElem?_mem hf.1)
      show t.unlocked = true ↔ 3 ≤ t.hitCount + 1
      constructor
      · intro h; have := old.mp h; omega
      · intro h
        by_contra hn
        have hfalse : t.unlocked = false := by simpa using hn
        have : ¬ 3 ≤ t.hitCount := fun h3 => hn (old.mpr h3)
        exact hu ⟨by omega, hfalse⟩
    · exact hI.flag u (List.getElem?_mem hk)
  · intro d hd
    exact (hI.gate d hd).trans (hgrp d).symm
  · intro d hd
    exact (hI.started d hd).trans (hgrp d).symm
  · intro d
    exact (hI.calls d).trans (and_congr_right fun _ => (hgrp d).symm)

theorem inv_unlocked {g : Game} {hit : Intersection} {color : String} {j : Nat} {t : Target}
    (hI : Inv g) (hf : FirstStruck g hit.object j t)
    (h3 : t.hitCount + 1 = 3) (hl : t.unlocked = false)
    (hall : ¬ groupUnlocked (g.mainObjects.set j (t.unlockedBy color)) t.doorIndex) :
    Inv { addSplash g hit color with mainObjects := g.mainObjects.set j (t.unlockedBy color) } := by
  have hold : ¬ groupUnlocked g.mainObjects t.doorIndex := not_groupUnlocked_of_locked hf.1 hl
  have hgrp : ∀ d, groupUnlocked (g.mainObjects.set j (t.unlockedBy color)) d ↔
      groupUnlocked g.mainObjects d := by
    intro d
    by_cases hd : t.doorIndex = d
    · subst hd
      exact ⟨fun h => absurd h hall, fun h => absurd h hold⟩
    · exact groupUnlocked_set_same d hf.1 rfl (fun e => absurd e hd)
  refine ⟨?_, hI.doors, hI.mixers, hI.starts, ?_, ?_, ?_, hI.callsNodup, ?_⟩
  · exact (map_static_set (a := t.unlockedBy color) hf.1 rfl).trans hI.static
  · intro u hu'
    rcases mem_set_cases hu' with rfl | ⟨k, _, hk⟩
    · show true = true ↔ 3 ≤ t.hitCount + 1
      simp only [true_iff]; omega
    · exact hI.flag u (List.getElem?_mem hk)
  · intro d hd
    exact (hI.gate d hd).trans (hgrp d).symm
  · intro d hd
    exact (hI.started d hd).trans (hgrp d).symm
  · intro d
    exact (hI.calls d).trans (and_congr_right fun _ => (hgrp d).symm)

theorem inv_opened {g : Game} {hit : Intersection} {color : String} {j : Nat} {t : Target}
    (now : ℚ) (hI : Inv g) (hf : FirstStruck g hit.object j t)
    (h3 : t.hitCount + 1 = 3) (hl : t.unlocked = false)
    (hall : groupUnlocked (g.mainObjects.set j (t.unlockedBy color)) t.doorIndex) :
    Inv { addSplash g hit color with
      mainObjects := g.mainObjects.set j (t.unlockedBy color)
      doorMixers := arraySet g.doorMixers t.doorIndex (newMixer g t.doorIndex)
      doorAnimStart := arraySet g.doorAnimStart t.doorIndex now
      openDoorCalls := g.openDoorCalls ++ [t.doorIndex] } := by
  have hold : ¬ groupUnlocked g.mainObjects t.doorIndex := not_groupUnlocked_of_locked hf.1 hl
  have hlt : t.doorIndex < 3 := (static_getElem? hI.static hf.1).2.1
  have hgrp : ∀ d, d ≠ t.doorIndex →
      (groupUnlocked (g.mainObjects.set j (t.unlockedBy color)) d ↔
        groupUnlocked g.mainObjects d) :=
    fun d hd => groupUnlocked_set_same d hf.1 rfl (fun e => absurd e.symm hd)
  have hm : t.doorIndex < g.doorMixers.length := by rw [hI.mixers]; exact hlt
  have hs : t.doorIndex < g.doorAnimStart.length := by rw [hI.starts]; exact hlt
  refine ⟨?_, hI.doors, ?_, ?_, ?_, ?_, ?_, ?_, ?_⟩
  · exact (map_static_set (a := t.unlockedBy color) hf.1 rfl).trans hI.static
  · exact (arraySet_length _ _ _ hm).trans hI.mixers
  · exact (arraySet_length _ _ _ hs).trans hI.starts
  · intro u hu'
    rcases mem_set_cases hu' with rfl | ⟨k, _, hk⟩
    · show true = true ↔ 3 ≤ t.hitCount + 1
      simp only [true_iff]; omega
    · exact hI.flag u (List.getElem?_mem hk)
  · intro d hd
    show (∃ m, (arraySet g.doorMixers t.doorIndex _)[d]? = some (some m)) ↔ _
    rw [arraySet_getElem? _ _ _ _ hm]
    by_cases hdt : d = t.doorIndex
    · subst hdt
      simp only [if_true]
      exact ⟨fun _ => hall, fun _ => ⟨_, rfl⟩⟩
    · rw [if_neg hdt]
      exact (hI.gate d hd).trans (hgrp d hdt).symm
  · intro d hd
    show (∃ m, (arraySet g.doorAnimStart t.doorIndex _)[d]? = some (some m)) ↔ _
    rw [arraySet_getElem? _ _ _ _ hs]
    by_cases hdt : d = t.doorIndex
    · subst hdt
      simp only [if_true]
      exact ⟨fun _ => hall, fun _ => ⟨_, rfl⟩⟩
    · rw [if_neg hdt]
      exact (hI.started d hd).trans (hgrp d hdt).symm
  · show (g.openDoorCalls ++ [t.doorIndex]).Nodup
    rw [List.nodup_append]
    refine ⟨hI.callsNodup, List.nodup_singleton _, ?_⟩
    intro a ha hb
    simp only [List.mem_singleton] at hb
    subst hb
    exact hold ((hI.calls _).mp ha).2
  · intro d
    show d ∈ g.openDoorCalls ++ [t.doorIndex] ↔ _
    rw [List.mem_append, List.mem_singleton]
    by_cases hdt : d = t.doorIndex
    · subst hdt
      exact ⟨fun _ => ⟨hlt, hall⟩, fun _ => Or.inr rfl⟩
    · constructor
      · rintro (h | h)
        · exact ⟨((hI.calls d).mp h).1, (hgrp d hdt).mpr ((hI.calls d).mp h).2⟩
        · exact absurd h hdt
      · rintro ⟨h1, h2⟩
        exact Or.inl ((hI.calls d).mpr ⟨h1, (hgrp d hdt).mp h2⟩)

/-- On a state of the level a splash never throws, and the invariant is kept. -/
theorem inv_step {g : Game} (hI : Inv g) (hit : Intersection) (color : String) (now : ℚ) :
    ∃ g', createPaintSplash g hit color now = .ok g' ∧ Inv g' := by
  have hstep := createPaintSplash_step g hit color now
  generalize createPaintSplash g hit color now = r at hstep
  cases hstep with
  | ignored _ =>
    exact ⟨_, rfl, ⟨hI.static, hI.doors, hI.mixers, hI.starts, hI.flag, hI.gate, hI.started,
      hI.callsNodup, hI.calls⟩⟩
  | counted j t hf hc hu => exact ⟨_, rfl, inv_counted hI hf hu⟩
  | unlocked j t hf hc h3 hl hall => exact ⟨_, rfl, inv_unlocked hI hf h3 hl hall⟩
  | opened j t hf hc h3 hl hall =>
    have hlt : t.doorIndex < 3 := (static_getElem? hI.static hf.1).2.1
    refine ⟨_, openDoor_ok _ _ _ (by show t.doorIndex < g.doors.length; rw [hI.doors]; exact hlt),
      inv_opened now hI hf h3 hl hall⟩

/-- Every run of splashes from the initial state of the level ends in a state, and the
invariant holds there. -/
theorem runSplashes_inv : ∀ (ss : List Splash) (g : Game), Inv g →
    ∃ g', runSplashes g ss = .ok g' ∧ Inv g'
  | [], g, hI => ⟨g, rfl, hI⟩
  | s :: rest, g, hI => by
    obtain ⟨g1, h1, hI1⟩ := inv_step hI s.hit s.color s.now
    obtain ⟨g2, h2, hI2⟩ := runSplashes_inv rest g1 hI1
    exact ⟨g2, by simp only [runSplashes, h1]; exact h2, hI2⟩

/-! ## One splash, target by target -/

theorem firstStruck_unique {g : Game} {o j k : Nat} {t u : Target}
    (h1 : FirstStruck g o j t) (h2 : FirstStruck g o k u) : j = k ∧ t = u := by
  have hjk : j = k := by
    rcases Nat.lt_trichotomy j k with h | h | h
    · exact absurd h1.2.1 (h2.2.2 j t h h1.1)
    · exact h
    · exact absurd h2.2.1 (h1.2.2 k u h h2.1)
  subst hjk
  exact ⟨rfl, by simpa using h1.1.symm.trans h2.1⟩

theorem openDoor_fields {g g' : Game} {i : Nat} {now : ℚ} (h : openDoor g i now = .ok g') :
    g' = { g with
      doorMixers := arraySet g.doorMixers i (newMixer g i)
      doorAnimStart := arraySet g.doorAnimStart i now
      openDoorCalls := g.openDoorCalls ++ [i] } := by
  unfold openDoor at h
  split at h
  · exact Except.noConfusion h
  · simpa using h.symm

/-- What a splash does to the target at position `j`: it is scored when it is the first target
with the struck mesh and the colour is the required one, and is left as it was otherwise. -/
theorem step_target {g g' : Game} {hit : Intersection} {color : String} {now : ℚ}
    (h : createPaintSplash g hit color now = .ok g') {j : Nat} {t : Target}
    (hj : g.mainObjects[j]? = some t) :
    (FirstStruck g hit.object j t ∧ color = t.requiredColor →
        g'.mainObjects[j]? = some (t.scored color)) ∧
      (¬ (FirstStruck g hit.object j t ∧ color = t.requiredColor) →
        g'.mainObjects[j]? = some t) := by
  have hstep := createPaintSplash_step g hit color now
  rw [h] at hstep
  have key : ∀ (j0 : Nat) (t0 a : Target), FirstStruck g hit.object j0 t0 →
      color = t0.requiredColor → a = t0.scored color →
      g'.mainObjects = g.mainObjects.set j0 a →
      (FirstStruck g hit.object j t ∧ color = t.requiredColor →
        g'.mainObjects[j]? = some (t.scored color)) ∧
      (¬ (FirstStruck g hit.object j t ∧ color = t.requiredColor) →
        g'.mainObjects[j]? = some t) := by
    intro j0 t0 a hf hc ha hg
    constructor
    · rintro ⟨hf', _⟩
      obtain ⟨rfl, rfl⟩ := firstStruck_unique hf hf'
      rw [hg, ha]
      exact getElem?_set_self_of hj
    · intro hn
      have hne : j0 ≠ j := by
        rintro rfl
        have : t0 = t := by simpa using hf.1.symm.trans hj
        subst this
        exact hn ⟨hf, hc⟩
      rw [hg, List.getElem?_set, if_neg hne]
      exact hj
  generalize hr : (Except.ok g' : Except String Game) = r at hstep
  cases hstep with
  | ignored hno =>
    have hg := Except.ok.inj hr
    subst hg
    exact ⟨fun hh => absurd hh.2 (hno j t hh.1), fun _ => hj⟩
  | counted j0 t0 hf hc hu =>
    have hg := Except.ok.inj hr
    subst hg
    exact key j0 t0 _ hf hc (by unfold Target.scored; rw [if_neg hu]) rfl
  | unlocked j0 t0 hf hc h3 hl hall =>
    have hg := Except.ok.inj hr
    subst hg
    exact key j0 t0 _ hf hc (by unfold Target.scored; rw [if_pos ⟨h3, hl⟩]) rfl
  | opened j0 t0 hf hc h3 hl hall =>
    have hg := openDoor_fields hr.symm
    subst hg
    exact key j0 t0 _ hf hc (by unfold Target.scored; rw [if_pos ⟨h3, hl⟩]) rfl

/-- What a splash does to the doors: nothing, or exactly one call of `openDoor`, made for the
door of the target that has just been unlocked, once its whole group is unlocked. -/
theorem step_doors {g g' : Game} {hit : Intersection} {color : String} {now : ℚ}
    (h : createPaintSplash g hit color now = .ok g') :
    (g'.doorMixers = g.doorMixers ∧ g'.doorAnimStart = g.doorAnimStart ∧
        g'.openDoorCalls = g.openDoorCalls) ∨
      ∃ j t, FirstStruck g hit.object j t ∧ color = t.requiredColor ∧
        t.hitCount + 1 = 3 ∧ t.unlocked = false ∧
        groupUnlocked g'.mainObjects t.doorIndex ∧
        g'.doorMixers = arraySet g.doorMixers t.doorIndex (newMixer g t.doorIndex) ∧
        g'.doorAnimStart = arraySet g.doorAnimStart t.doorIndex now ∧
        g'.openDoorCalls = g.openDoorCalls ++ [t.doorIndex] := by
  have hstep := createPaintSplash_step g hit color now
  rw [h] at hstep
  generalize hr : (Except.ok g' : Except String Game) = r at hstep
  cases hstep with
  | ignored hno =>
    have hg := Except.ok.inj hr
    subst hg
    exact Or.inl ⟨rfl, rfl, rfl⟩
  | counted j0 t0 hf hc hu =>
    have hg := Except.ok.inj hr
    subst hg
    exact Or.inl ⟨rfl, rfl, rfl⟩
  | unlocked j0 t0 hf hc h3 hl hall =>
    have hg := Except.ok.inj hr
    subst hg
    exact Or.inl ⟨rfl, rfl, rfl⟩
  | opened j0 t0 hf hc h3 hl hall =>
    have hg := openDoor_fields hr.symm
    subst hg
    exact Or.inr ⟨j0, t0, hf, hc, h3, hl, hall, rfl, rfl, rfl⟩

theorem scored_hitCount (t : Target) (color : String) :
    (t.scored color).hitCount = t.hitCount + 1 := by
  unfold Target.scored
  split_ifs <;> rfl

theorem scored_static (t : Target) (color : String) : (t.scored color).static = t.static := by
  unfold Target.scored
  split_ifs <;> rfl

theorem scored_unlocked (t : Target) (color : String) :
    (t.scored color).unlocked = (t.unlocked || decide (t.hitCount = 2)) := by
  unfold Target.scored
  split_ifs with h
  · have : t.hitCount = 2 := by omega
    simp [Target.unlockedBy, this]
  · by_cases h2 : t.hitCount = 2
    · have : t.unlocked = true := by
        by_contra hn
        exact h ⟨by omega, by simpa using hn⟩
      simp [Target.counted, this]
    · simp [Target.counted, h2]

theorem firstStruck_of_inv {g : Game} (hI : Inv g) {o j : Nat} {t : Target}
    (hj : g.mainObjects[j]? = some t) (ho : t.mesh = o) : FirstStruck g o j t := by
  refine ⟨hj, ho, ?_⟩
  intro k u hk hu hc
  have h1 := (static_getElem? hI.static hj).1
  have h2 := (static_getElem? hI.static hu).1
  omega

theorem inv_length {g : Game} (hI : Inv g) : g.mainObjects.length = 5 := by
  have := congrArg List.length hI.static
  simpa [levelTargets] using this

/-! ## Claims on targets and doors -/

/-- C1: in every state the level reaches by splashes, one more splash never lowers a target's
`hitCount`, and raises it only by one and only when the splash struck that target's mesh with
the target's `requiredColor`. -/
theorem hitCount_grows_only_on_matching_splash (ss : List Splash) (hit : Intersection)
    (color : String) (now : ℚ) :
    ∃ g g', runSplashes initialGame ss = .ok g ∧
      createPaintSplash g hit color now = .ok g' ∧
      g'.mainObjects.length = g.mainObjects.length ∧
      ∀ (j : Nat) (t : Target), g.mainObjects[j]? = some t →
        ∃ t' : Target, g'.mainObjects[j]? = some t' ∧
        t.hitCount ≤ t'.hitCount ∧
        (t.hitCount < t'.hitCount →
          t'.hitCount = t.hitCount + 1 ∧ hit.object = t.mesh ∧ color = t.requiredColor) := by
  obtain ⟨g, hg, hI⟩ := runSplashes_inv ss initialGame inv_initialGame
  obtain ⟨g', hg', hI'⟩ := inv_step hI hit color now
  refine ⟨g, g', hg, hg', by rw [inv_length hI, inv_length hI'], ?_⟩
  intro j t hj
  obtain ⟨hyes, hno⟩ := step_target hg' hj
  by_cases hsc : FirstStruck g hit.object j t ∧ color = t.requiredColor
  · refine ⟨_, hyes hsc, ?_, fun _ => ⟨scored_hitCount t color, hsc.1.2.1.symm, hsc.2⟩⟩
    rw [scored_hitCount]; omega
  · exact ⟨t, hno hsc, Nat.le_refl _, fun h => absurd h (Nat.lt_irrefl _)⟩

/-- C3: along every run of splashes from the initial state no door index is passed to `openDoor`
twice, and a splash calls `openDoor` at most once; when it calls `openDoor(i)`, every target
whose `doorIndex` is `i` is unlocked (the call is the last thing the splash does, so the targets
it leaves are the targets at the call). -/
theorem openDoor_once_and_only_when_group_unlocked (ss : List Splash) (hit : Intersection)
    (color : String) (now : ℚ) :
    ∃ g g', runSplashes initialGame ss = .ok g ∧
      createPaintSplash g hit color now = .ok g' ∧
      g.openDoorCalls.Nodup ∧ g'.openDoorCalls.Nodup ∧
      (g'.openDoorCalls = g.openDoorCalls ∨
        ∃ i, g'.openDoorCalls = g.openDoorCalls ++ [i] ∧ i ∉ g.openDoorCalls ∧
          ∀ t ∈ g'.mainObjects, t.doorIndex = i → t.unlocked = true) := by
  obtain ⟨g, hg, hI⟩ := runSplashes_inv ss initialGame inv_initialGame
  obtain ⟨g', hg', hI'⟩ := inv_step hI hit color now
  refine ⟨g, g', hg, hg', hI.callsNodup, hI'.callsNodup, ?_⟩
  rcases step_doors hg' with ⟨_, _, hc⟩ | ⟨j, t, hf, _, _, hl, hall, _, _, hc⟩
  · exact Or.inl hc
  · refine Or.inr ⟨t.doorIndex, hc, ?_, hall⟩
    intro hmem
    exact not_groupUnlocked_of_locked hf.1 hl ((hI.calls _).mp hmem).2

/-- C4: with the level table (three doors, each with at least one target), in every state
reached by splashes door `i` has a mixer exactly when every target of door `i` is unlocked. -/
theorem door_triggered_iff_group_unlocked (ss : List Splash) :
    ∃ g, runSplashes initialGame ss = .ok g ∧ g.doors.length = 3 ∧
      ∀ i, i < 3 →
        (∃ t ∈ g.mainObjects, t.doorIndex = i) ∧
        ((∃ m, g.doorMixers[i]? = some (some m)) ↔
          ∀ t ∈ g.mainObjects, t.doorIndex = i → t.unlocked = true) := by
  obtain ⟨g, hg, hI⟩ := runSplashes_inv ss initialGame inv_initialGame
  refine ⟨g, hg, hI.doors, fun i hi => ⟨?_, hI.gate i hi⟩⟩
  have hmem : ∀ x ∈ levelTargets.map Target.static, ∃ t ∈ g.mainObjects, t.static = x := by
    intro x hx
    rw [← hI.static] at hx
    obtain ⟨t, ht, rfl⟩ := List.mem_map.mp hx
    exact ⟨t, ht, rfl⟩
  interval_cases i
  · obtain ⟨t, ht, he⟩ := hmem (0, "red", 0) (by simp [levelTargets, Target.static])
    exact ⟨t, ht, congrArg (fun x => x.2.2) he⟩
  · obtain ⟨t, ht, he⟩ := hmem (1, "blue", 1) (by simp [levelTargets, Target.static])
    exact ⟨t, ht, congrArg (fun x => x.2.2) he⟩
  · obtain ⟨t, ht, he⟩ := hmem (3, "red", 2) (by simp [levelTargets, Target.static])
    exact ⟨t, ht, congrArg (fun x => x.2.2) he⟩

/-- C6, as stated, fails: after four red splashes on the first target (which requires red) the
target is unlocked and its `hitCount` is 4, not 3. -/
theorem unlocked_target_hitCount_exceeds_three :
    (runSplashes initialGame
        [splashOn 0 "red", splashOn 0 "red", splashOn 0 "red", splashOn 0 "red"]).toOption.map
      (fun g => g.mainObjects.map (fun t => (t.unlocked, t.hitCount))) =
      some [(true, 4), (false, 0), (false, 0), (false, 0), (false, 0)] := by
  decide

/-- C6, amended: in every state reached by splashes a target is unlocked exactly when its
`hitCount` is at least 3; a further splash leaves an unlocked target unlocked and its material
colour as it was, still adds one to its `hitCount` when it strikes it with the required colour,
and a splash on the mesh of an unlocked target opens no door. -/
theorem unlocked_target_keeps_counting (ss : List Splash) (hit : Intersection)
    (color : String) (now : ℚ) :
    ∃ g g', runSplashes initialGame ss = .ok g ∧
      createPaintSplash g hit color now = .ok g' ∧
      (∀ t ∈ g.mainObjects, t.unlocked = true ↔ 3 ≤ t.hitCount) ∧
      ∀ (j : Nat) (t : Target), g.mainObjects[j]? = some t → t.unlocked = true →
        ∃ t' : Target, g'.mainObjects[j]? = some t' ∧ t'.unlocked = true ∧
          t'.materialColor = t.materialColor ∧
          (hit.object = t.mesh ∧ color = t.requiredColor → t'.hitCount = t.hitCount + 1) ∧
          (¬ (hit.object = t.mesh ∧ color = t.requiredColor) → t'.hitCount = t.hitCount) ∧
          (hit.object = t.mesh →
            g'.doorMixers = g.doorMixers ∧ g'.doorAnimStart = g.doorAnimStart ∧
              g'.openDoorCalls = g.openDoorCalls) := by
  obtain ⟨g, hg, hI⟩ := runSplashes_inv ss initialGame inv_initialGame
  obtain ⟨g', hg', hI'⟩ := inv_step hI hit color now
  refine ⟨g, g', hg, hg', hI.flag, ?_⟩
  intro j t hj hu
  obtain ⟨hyes, hno⟩ := step_target hg' hj
  have hdoors : hit.object = t.mesh →
      g'.doorMixers = g.doorMixers ∧ g'.doorAnimStart = g.doorAnimStart ∧
        g'.openDoorCalls = g.openDoorCalls := by
    intro ho
    rcases step_doors hg' with h | ⟨k, u, hf, _, _, hl, _⟩
    · exact h
    · obtain ⟨_, rfl⟩ := firstStruck_unique hf (firstStruck_of_inv hI hj ho.symm)
      rw [hu] at hl
      exact Bool.noConfusion hl
  by_cases hsc : FirstStruck g hit.object j t ∧ color = t.requiredColor
  · have hs : t.scored color = t.counted := by
      unfold Target.scored
      rw [if_neg]
      rintro ⟨_, hl⟩
      rw [hu] at hl
      exact Bool.noConfusion hl
    refine ⟨_, hyes hsc, ?_, ?_, fun _ => ?_, fun hn => ?_, hdoors⟩
    · rw [hs]; exact hu
    · rw [hs]; rfl
    · rw [hs]; rfl
    · exact absurd ⟨hsc.1.2.1.symm, hsc.2⟩ hn
  · refine ⟨t, hno hsc, hu, rfl, fun hm => ?_, fun _ => rfl, hdoors⟩
    exact absurd ⟨firstStruck_of_inv hI hj hm.1.symm, hm.2⟩ hsc

/-- C7: a splash that strikes no target, or strikes a target with a colour other than its
`requiredColor`, raises no error and leaves every target and every door entry as it was. -/
theorem mismatched_splash_leaves_puzzle (g : Game) (hit : Intersection) (color : String)
    (now : ℚ) (h : ∀ t ∈ g.mainObjects, t.mesh = hit.object → color ≠ t.requiredColor) :
    ∃ g', createPaintSplash g hit color now = .ok g' ∧
      g'.mainObjects = g.mainObjects ∧ g'.doorMixers = g.doorMixers ∧
      g'.doorAnimStart = g.doorAnimStart ∧ g'.openDoorCalls = g.openDoorCalls := by
  have hstep := createPaintSplash_step g hit color now
  generalize createPaintSplash g hit color now = r at hstep
  cases hstep with
  | ignored _ => exact ⟨_, rfl, rfl, rfl, rfl, rfl⟩
  | counted j t hf hc _ => exact absurd hc (h t (List.getElem?_mem hf.1) hf.2.1)
  | unlocked j t hf hc _ _ _ => exact absurd hc (h t (List.getElem?_mem hf.1) hf.2.1)
  | opened j t hf hc _ _ _ => exact absurd hc (h t (List.getElem?_mem hf.1) hf.2.1)

/-- C7 at a concrete input: a blue splash on the first target of the level, which requires
red. -/
theorem mismatched_splash_leaves_puzzle_witness :
    (∀ t ∈ initialGame.mainObjects, t.mesh = (splashOn 0 "blue").hit.object →
        "blue" ≠ t.requiredColor) ∧
      ∃ g', createPaintSplash initialGame (splashOn 0 "blue").hit "blue" 0 = .ok g' ∧
        g'.mainObjects = initialGame.mainObjects ∧ g'.doorMixers = initialGame.doorMixers ∧
        g'.doorAnimStart = initialGame.doorAnimStart ∧
        g'.openDoorCalls = initialGame.openDoorCalls :=
  ⟨by decide, mismatched_splash_leaves_puzzle initialGame (splashOn 0 "blue").hit "blue" 0
    (by decide)⟩

/-! ## Runs of splashes -/

theorem runSplashes_append (g : Game) (a b : List Splash) :
    runSplashes g (a ++ b) =
      match runSplashes g a with
      | .ok g1 => runSplashes g1 b
      | .error e => .error e := by
  induction a generalizing g with
  | nil => rfl
  | cons s rest ih =>
    simp only [List.cons_append, runSplashes]
    cases createPaintSplash g s.hit s.color s.now with
    | error e => rfl
    | ok g1 => exact ih g1

/-- Two consecutive states of a run: both exist, both satisfy the invariant, and the second is
the first one or comes from it by one splash. -/
theorem run_succ (ss : List Splash) (k : Nat) :
    ∃ g g', runSplashes initialGame (ss.take k) = .ok g ∧ Inv g ∧
      runSplashes initialGame (ss.take (k + 1)) = .ok g' ∧
      (g' = g ∨ ∃ s : Splash, createPaintSplash g s.hit s.color s.now = .ok g') := by
  obtain ⟨g, hg, hI⟩ := runSplashes_inv (ss.take k) initialGame inv_initialGame
  rw [List.take_succ, runSplashes_append, hg]
  cases hs : ss[k]? with
  | none => exact ⟨g, g, rfl, hI, rfl, Or.inl rfl⟩
  | some s =>
    obtain ⟨g', hg', _⟩ := inv_step hI s.hit s.color s.now
    refine ⟨g, g', rfl, hI, ?_, Or.inr ⟨s, hg'⟩⟩
    simp [runSplashes, hg']

theorem targetAfter_eq {ss : List Splash} {k : Nat} {g : Game}
    (h : runSplashes initialGame (ss.take k) = .ok g) (j : Nat) :
    targetAfter ss k j = g.mainObjects[j]? := by
  simp [targetAfter, h]

/-- One step of a run seen from target `j`: the target is left as it was or is scored. -/
theorem targetAfter_succ (ss : List Splash) (j k : Nat) :
    (targetAfter ss k j = none ∧ targetAfter ss (k + 1) j = none) ∨
      ∃ t : Target, targetAfter ss k j = some t ∧ (t.unlocked = true ↔ 3 ≤ t.hitCount) ∧
        (targetAfter ss (k + 1) j = some t ∨
          ∃ c : String, targetAfter ss (k + 1) j = some (t.scored c)) := by
  obtain ⟨g, g', hg, hI, hg', hstep⟩ := run_succ ss k
  rw [targetAfter_eq hg, targetAfter_eq hg']
  cases hj : g.mainObjects[j]? with
  | none =>
    left
    refine ⟨rfl, ?_⟩
    rcases hstep with rfl | ⟨s, hs⟩
    · exact hj
    · obtain ⟨g2, hg2, hI2⟩ := inv_step hI s.hit s.color s.now
      rw [hs] at hg2
      obtain rfl := Except.ok.inj hg2
      have h1 := inv_length hI
      have h2 := inv_length hI2
      rw [List.getElem?_eq_none_iff] at hj ⊢
      omega
  | some t =>
    right
    refine ⟨t, rfl, hI.flag t (List.getElem?_mem hj), ?_⟩
    rcases hstep with rfl | ⟨s, hs⟩
    · exact Or.inl hj
    · obtain ⟨hyes, hno⟩ := step_target hs hj
      by_cases hsc : FirstStruck g s.hit.object j t ∧ s.color = t.requiredColor
      · exact Or.inr ⟨s.color, hyes hsc⟩
      · exact Or.inl (hno hsc)

theorem unlocked_stays (ss : List Splash) (j k : Nat)
    (h : (targetAfter ss k j).map Target.unlocked = some true) :
    ∀ n, (targetAfter ss (k + n) j).map Target.unlocked = some true
  | 0 => h
  | n + 1 => by
    have ih := unlocked_stays ss j k h n
    rcases targetAfter_succ ss j (k + n) with ⟨h0, _⟩ | ⟨t, ht, _, ht' | ⟨c, ht'⟩⟩
    · rw [h0] at ih
      exact Option.noConfusion ih
    · rw [ht] at ih
      rw [← Nat.add_assoc, ht']
      exact ih
    · rw [ht] at ih
      have hu : t.unlocked = true := by simpa using ih
      rw [← Nat.add_assoc, ht']
      simp [scored_unlocked, hu]

/-- C2: along every run of splashes from the initial state, the splash that turns a target's
`unlocked` flag from false to true is exactly the splash that raises its `hitCount` from 2 to
3, and no target has two such splashes. -/
theorem unlocks_exactly_once_at_third_hit (ss : List Splash) (j : Nat) :
    (∀ k, UnlocksAt ss j k ↔ ReachesThreeAt ss j k) ∧
      (∀ k k', UnlocksAt ss j k → UnlocksAt ss j k' → k = k') ∧
      (j < 5 → ∀ k, ∃ t, targetAfter ss k j = some t) := by
  refine ⟨?_, ?_, ?_⟩
  · intro k
    unfold UnlocksAt ReachesThreeAt
    rcases targetAfter_succ ss j k with ⟨h0, h1⟩ | ⟨t, ht, hflag, ht' | ⟨c, ht'⟩⟩
    · simp [h0, h1]
    · rw [ht, ht']
      simp only [Option.map_some', Option.some.injEq]
      constructor
      · rintro ⟨h1, h2⟩
        rw [h1] at h2
        exact Bool.noConfusion h2
      · rintro ⟨h1, h2⟩
        omega
    · rw [ht, ht']
      simp only [Option.map_some', Option.some.injEq, scored_hitCount, scored_unlocked]
      constructor
      · rintro ⟨h1, h2⟩
        have : t.hitCount = 2 := by simpa [h1] using h2
        omega
      · rintro ⟨h1, _⟩
        have hl : t.unlocked = false := by
          cases hu : t.unlocked with
          | false => rfl
          | true => have := hflag.mp hu; omega
        simp [hl, h1]
  · intro k k' hk hk'
    by_contra hne
    have aux : ∀ a b, a < b → UnlocksAt ss j a → UnlocksAt ss j b → False := by
      intro a b hab ha hb
      have hst := unlocked_stays ss j (a + 1) ha.2 (b - (a + 1))
      have hb' : a + 1 + (b - (a + 1)) = b := by omega
      rw [hb', hb.1] at hst
      exact Bool.noConfusion (Option.some.inj hst)
    rcases Nat.lt_or_gt_of_ne hne with h | h
    · exact aux k k' h hk hk'
    · exact aux k' k h hk' hk
  · intro hj k
    obtain ⟨g, hg, hI⟩ := runSplashes_inv (ss.take k) initialGame inv_initialGame
    rw [targetAfter_eq hg]
    have hlen := inv_length hI
    exact ⟨g.mainObjects[j], List.getElem?_eq_getElem (by omega)⟩

/-- The `hitCount` a run of splashes leaves on a target is the one it had plus the number of
splashes that struck its mesh with its required colour. -/
theorem run_hitCount : ∀ (ss : List Splash) (g g' : Game), Inv g →
    runSplashes g ss = .ok g' → ∀ (j : Nat) (t : Target), g.mainObjects[j]? = some t →
      ∃ t' : Target, g'.mainObjects[j]? = some t' ∧ t'.static = t.static ∧
        t'.hitCount = t.hitCount + hits t.mesh t.requiredColor ss
  | [], g, g', _, h, j, t, hj => by
    obtain rfl := Except.ok.inj h
    exact ⟨t, hj, rfl, by simp [hits]⟩
  | s :: rest, g, g', hI, h, j, t, hj => by
    obtain ⟨g1, h1, hI1⟩ := inv_step hI s.hit s.color s.now
    simp only [runSplashes, h1] at h
    obtain ⟨hyes, hno⟩ := step_target h1 hj
    by_cases hsc : FirstStruck g s.hit.object j t ∧ s.color = t.requiredColor
    · obtain ⟨t', ht', hst, hc⟩ := run_hitCount rest g1 g' hI1 h j _ (hyes hsc)
      have hs := scored_static t s.color
      have hm : (t.scored s.color).mesh = t.mesh := congrArg (fun x => x.1) hs
      have hr : (t.scored s.color).requiredColor = t.requiredColor :=
        congrArg (fun x => x.2.1) hs
      refine ⟨t', ht', hst.trans hs, ?_⟩
      rw [hc, hm, hr, scored_hitCount]
      have : (s.hit.object == t.mesh && s.color == t.requiredColor) = true := by
        simp [hsc.1.2.1, hsc.2]
      simp only [hits, List.countP_cons, this, if_true]
      omega
    · obtain ⟨t', ht', hst, hc⟩ := run_hitCount rest g1 g' hI1 h j t (hno hsc)
      refine ⟨t', ht', hst, ?_⟩
      rw [hc]
      have : (s.hit.object == t.mesh && s.color == t.requiredColor) = false := by
        rw [Bool.eq_false_iff]
        intro hb
        simp only [Bool.and_eq_true, beq_iff_eq] at hb
        exact hsc ⟨firstStruck_of_inv hI hj hb.1.symm, hb.2⟩
      simp [hits, List.countP_cons, this]

/-- C5: after any run of splashes from the initial state a target is unlocked exactly when at
least three splashes of the run struck its mesh with its required colour.  On the first target,
which requires red: red, red, red unlocks it on the third splash; red, blue, red leaves it
locked. -/
theorem unlocked_iff_three_matching_splashes (ss : List Splash) :
    (∃ g, runSplashes initialGame ss = .ok g ∧ g.mainObjects.length = 5 ∧
        ∀ (j : Nat) (t : Target), g.mainObjects[j]? = some t →
          (t.unlocked = true ↔ 3 ≤ hits t.mesh t.requiredColor ss)) ∧
      (List.range 4).map (fun k => (targetAfter
          [splashOn 0 "red", splashOn 0 "red", splashOn 0 "red"] k 0).map Target.unlocked) =
        [some false, some false, some false, some true] ∧
      (List.range 4).map (fun k => (targetAfter
          [splashOn 0 "red", splashOn 0 "blue", splashOn 0 "red"] k 0).map
            (fun t => (t.hitCount, t.unlocked))) =
        [some (0, false), some (1, false), some (1, false), some (2, false)] := by
  refine ⟨?_, by decide, by decide⟩
  obtain ⟨g, hg, hI⟩ := runSplashes_inv ss initialGame inv_initialGame
  refine ⟨g, hg, inv_length hI, ?_⟩
  intro j t hj
  have hj0 : j < 5 := by
    have := inv_length hI
    rcases List.getElem?_eq_some.mp hj with ⟨h, _⟩
    omega
  have h0 : ∃ t0 : Target, initialGame.mainObjects[j]? = some t0 ∧ t0.hitCount = 0 := by
    interval_cases j <;> exact ⟨_, rfl, rfl⟩
  obtain ⟨t0, ht0, hz⟩ := h0
  obtain ⟨t', ht', hst, hc⟩ := run_hitCount ss initialGame g inv_initialGame hg j t0 ht0
  have htt : t' = t := by simpa using ht'.symm.trans hj
  subst htt
  have hm : t'.mesh = t0.mesh := congrArg (fun x => x.1) hst
  have hr : t'.requiredColor = t0.requiredColor := congrArg (fun x => x.2.1) hst
  rw [hI.flag t' (List.getElem?_mem hj), hc, hz, hm, hr, Nat.zero_add]

/-! ## Paint in flight -/

/-- On a state whose targets name existing doors a splash does not throw; it adds one decal
and leaves the paint in flight and the scene alone. -/
theorem splash_ok {g : Game} (hd : DoorsOk g) (hit : Intersection) (color : String) (now : ℚ) :
    ∃ g', createPaintSplash g hit color now = .ok g' ∧ DoorsOk g' ∧
      g'.paintProjectiles = g.paintProjectiles ∧ g'.scene = g.scene ∧
      g'.decals = g.decals ++ [decalOf hit color (g.paintDepthOrder + 1)] ∧
      g'.paintDepthOrder = g.paintDepthOrder + 1 := by
  have hstep := createPaintSplash_step g hit color now
  generalize createPaintSplash g hit color now = r at hstep
  have hset : ∀ (j : Nat) (t a : Target), g.mainObjects[j]? = some t →
      a.doorIndex = t.doorIndex → ∀ u ∈ g.mainObjects.set j a, u.doorIndex < g.doors.length := by
    intro j t a hj ha u hu
    rcases mem_set_cases hu with rfl | ⟨k, _, hk⟩
    · rw [ha]; exact hd t (List.getElem?_mem hj)
    · exact hd u (List.getElem?_mem hk)
  cases hstep with
  | ignored _ => exact ⟨_, rfl, hd, rfl, rfl, rfl, rfl⟩
  | counted j t hf hc _ => exact ⟨_, rfl, hset j t _ hf.1 rfl, rfl, rfl, rfl, rfl⟩
  | unlocked j t hf hc _ _ _ => exact ⟨_, rfl, hset j t _ hf.1 rfl, rfl, rfl, rfl, rfl⟩
  | opened j t hf hc _ _ _ =>
    exact ⟨_, openDoor_ok _ _ _ (hd t (List.getElem?_mem hf.1)), hset j t _ hf.1 rfl,
      rfl, rfl, rfl, rfl⟩

/-! ## One iteration of the projectile loop -/

theorem tickPaint_eq (f : Vec3 → Vec3 → List Intersection) (dt : ℚ) (p : Projectile) :
    tickPaint f dt p =
      match f (p.integrate dt).position (p.integrate dt).velocity with
      | hit :: _ =>
        if hit.distance < 2 / 5 then ⟨p.integrate dt, some hit, true⟩
        else expire (p.integrate dt) dt
      | [] => expire (p.integrate dt) dt := rfl

theorem tickPaint_cases (f : Vec3 → Vec3 → List Intersection) (dt : ℚ) (p : Projectile) :
    (∃ hit, Contact (f (p.integrate dt).position (p.integrate dt).velocity) hit ∧
        tickPaint f dt p = ⟨p.integrate dt, some hit, true⟩) ∨
      ((∀ hit, ¬ Contact (f (p.integrate dt).position (p.integrate dt).velocity) hit) ∧
        tickPaint f dt p = expire (p.integrate dt) dt) := by
  rw [tickPaint_eq]
  unfold Contact
  cases f (p.integrate dt).position (p.integrate dt).velocity with
  | nil =>
    right
    exact ⟨fun hit h => Option.noConfusion h.1, rfl⟩
  | cons hit rest =>
    by_cases hc : hit.distance < 2 / 5
    · left
      refine ⟨hit, ⟨rfl, hc⟩, ?_⟩
      simp only [hc, if_true]
    · right
      refine ⟨fun h' h => ?_, ?_⟩
      · have : hit = h' := by simpa using h.1
        subst this
        exact hc h.2
      · simp only [hc, if_false]

theorem integrate_object (p : Projectile) (dt : ℚ) : (p.integrate dt).object = p.object := rfl

theorem integrate_life (p : Projectile) (dt : ℚ) : (p.integrate dt).life = p.life := rfl

theorem integrate_color (p : Projectile) (dt : ℚ) : (p.integrate dt).color = p.color := rfl

theorem tickPaint_object (f : Vec3 → Vec3 → List Intersection) (dt : ℚ) (p : Projectile) :
    (tickPaint f dt p).paint.object = p.object ∧ (tickPaint f dt p).paint.color = p.color := by
  rcases tickPaint_cases f dt p with ⟨hit, _, h⟩ | ⟨_, h⟩ <;> rw [h] <;> exact ⟨rfl, rfl⟩

/-- The projectile is spliced out exactly on contact, on expiry or below the floor bound. -/
theorem tickPaint_removed_iff (f : Vec3 → Vec3 → List Intersection) (dt : ℚ) (p : Projectile) :
    (tickPaint f dt p).removed = true ↔
      ((∃ hit, Contact (f (p.integrate dt).position (p.integrate dt).velocity) hit) ∨
        p.life - dt ≤ 0 ∨ (p.integrate dt).position.y < -10) := by
  rcases tickPaint_cases f dt p with ⟨hit, hc, h⟩ | ⟨hno, h⟩
  · rw [h]
    exact ⟨fun _ => Or.inl ⟨hit, hc⟩, fun _ => rfl⟩
  · rw [h]
    simp only [expire, decide_eq_true_eq, integrate_life]
    constructor
    · intro h'
      exact Or.inr h'
    · rintro (⟨hit, hc⟩ | h')
      · exact absurd hc (hno hit)
      · exact h'

/-- A projectile that stays in the list has life left and is not below the floor bound. -/
theorem tickPaint_kept (f : Vec3 → Vec3 → List Intersection) (dt : ℚ) (p : Projectile)
    (h : (tickPaint f dt p).removed = false) :
    0 < (tickPaint f dt p).paint.life ∧ -10 ≤ (tickPaint f dt p).paint.position.y ∧
      (tickPaint f dt p).splash = none := by
  rcases tickPaint_cases f dt p with ⟨hit, _, he⟩ | ⟨_, he⟩
  · rw [he] at h
    exact Bool.noConfusion h
  · rw [he] at h ⊢
    simp only [expire, decide_eq_false_iff_not, not_or, not_le, not_lt] at h
    exact ⟨h.1, h.2, rfl⟩

theorem tickPaint_splash_removed (f : Vec3 → Vec3 → List Intersection) (dt : ℚ) (p : Projectile)
    (hit : Intersection) (h : (tickPaint f dt p).splash = some hit) :
    (tickPaint f dt p).removed = true := by
  rcases tickPaint_cases f dt p with ⟨_, _, he⟩ | ⟨_, he⟩
  · rw [he]
  · rw [he] at h
    exact Option.noConfusion h

theorem getElem?_append_cons (pre suf : List Projectile) (p : Projectile) :
    (pre ++ p :: suf)[pre.length]? = some p := by
  rw [List.getElem?_append_right (Nat.le_refl _)]
  simp

theorem set_append_cons (pre suf : List Projectile) (p a : Projectile) :
    (pre ++ p :: suf).set pre.length a = pre ++ a :: suf := by
  rw [List.set_append_right _ _ (Nat.le_refl _)]
  simp

theorem eraseIdx_append_cons (pre suf : List Projectile) (p : Projectile) :
    (pre ++ p :: suf).eraseIdx pre.length = pre ++ suf := by
  rw [List.eraseIdx_append_of_length_le (Nat.le_refl _)]
  simp

/-- The shape of one iteration: it does not throw, it replaces its projectile by what is kept
of it and touches no other entry, and it adds the decal of its splash if it made one. -/
theorem projectileStep_shape (rc : List Decal → Vec3 → Vec3 → List Intersection)
    (dt now : ℚ) {g : Game} (hd : DoorsOk g) {pre suf : List Projectile} {p : Projectile}
    (hl : g.paintProjectiles = pre ++ p :: suf) :
    ∃ g', projectileStep rc dt now g pre.length = .ok g' ∧ DoorsOk g' ∧
      g'.paintProjectiles = pre ++ kept (tickPaint (rc g.decals) dt p) ++ suf ∧
      g'.decals = g.decals ++
        newDecals (tickPaint (rc g.decals) dt p) (g.paintDepthOrder + 1) := by
  unfold projectileStep
  rw [hl, getElem?_append_cons]
  simp only [set_append_cons]
  cases hs : (tickPaint (rc g.decals) dt p).splash with
  | some hit =>
    have hrem := tickPaint_splash_removed _ _ _ _ hs
    obtain ⟨g2, h2, hd2, hp2, _, hdec, _⟩ :=
      splash_ok (g := { g with paintProjectiles := pre ++ (tickPaint (rc g.decals) dt p).paint :: suf })
        hd hit (tickPaint (rc g.decals) dt p).paint.color now
    simp only [h2]
    refine ⟨_, rfl, hd2, ?_, ?_⟩
    · show g2.paintProjectiles.eraseIdx pre.length = _
      rw [hp2]
      show (pre ++ _ :: suf).eraseIdx pre.length = _
      rw [eraseIdx_append_cons, kept, hrem]
      simp
    · show g2.decals = _
      rw [hdec, newDecals, hs]
  | none =>
    cases hr : (tickPaint (rc g.decals) dt p).removed with
    | true =>
      simp only [if_true]
      refine ⟨_, rfl, hd, ?_, ?_⟩
      · show (pre ++ _ :: suf).eraseIdx pre.length = _
        rw [eraseIdx_append_cons, kept, hr]
        simp
      · show g.decals = _
        rw [newDecals, hs]
        simp
    | false =>
      refine ⟨_, rfl, hd, ?_, ?_⟩
      · show pre ++ _ :: suf = _
        rw [kept, hr]
        simp
      · show g.decals = _
        rw [newDecals, hs]
        simp

/-! ## The projectile loop -/

theorem survivorsOf_mem {B S : List Projectile} (h : SurvivorsOf B S) {q : Projectile}
    (hq : q ∈ S) : 0 < q.life ∧ -10 ≤ q.position.y ∧ ∃ p ∈ B, q.object = p.object := by
  refine ⟨(h.2 q hq).1, (h.2 q hq).2, ?_⟩
  have hm : q.object ∈ B.map Projectile.object := h.1.subset (List.mem_map_of_mem _ hq)
  obtain ⟨p, hp, e⟩ := List.mem_map.mp hm
  exact ⟨p, hp, e.symm⟩

theorem paintLoop_self (rc : List Decal → Vec3 → Vec3 → List Intersection) (dt : ℚ)
    (now : Nat → ℚ)
    (lo : Nat) (g : Game) : paintLoop rc dt now lo lo g = .ok g := by
  cases lo with
  | zero => rfl
  | succ i => simp [paintLoop]

theorem paintLoop_succ (rc : List Decal → Vec3 → Vec3 → List Intersection) (dt : ℚ)
    (now : Nat → ℚ)
    {lo i : Nat} (h : lo ≤ i) (g : Game) :
    paintLoop rc dt now lo (i + 1) g =
      match projectileStep rc dt (now i) g i with
      | .error e => .error e
      | .ok g1 => paintLoop rc dt now lo i g1 := by
  simp [paintLoop, h]

/-- The loop down to `lo` is the loop down to `mid` followed by the loop from `mid` down to
`lo`. -/
theorem paintLoop_split (rc : List Decal → Vec3 → Vec3 → List Intersection) (dt : ℚ)
    (now : Nat → ℚ)
    {lo mid : Nat} (h : lo ≤ mid) : ∀ (n : Nat) (g : Game), mid ≤ n →
      paintLoop rc dt now lo n g =
        match paintLoop rc dt now mid n g with
        | .error e => .error e
        | .ok g1 => paintLoop rc dt now lo mid g1
  | 0, g, hn => by
    have hm : mid = 0 := by omega
    have hl : lo = 0 := by omega
    subst hm hl
    rfl
  | k + 1, g, hn => by
    by_cases hm : mid ≤ k
    · rw [paintLoop_succ rc dt now (Nat.le_trans h hm), paintLoop_succ rc dt now hm]
      cases projectileStep rc dt (now k) g k with
      | error e => rfl
      | ok g1 => exact paintLoop_split rc dt now h k g1 hm
    · have hmk : mid = k + 1 := by omega
      subst hmk
      rw [paintLoop_self]

theorem survivorsOf_kept (f : Vec3 → Vec3 → List Intersection) (dt : ℚ) (p : Projectile) :
    SurvivorsOf [p] (kept (tickPaint f dt p)) := by
  unfold kept
  cases hr : (tickPaint f dt p).removed with
  | true =>
    refine ⟨by simp, ?_⟩
    intro q hq
    simp at hq
  | false =>
    obtain ⟨h1, h2, _⟩ := tickPaint_kept f dt p hr
    refine ⟨by simp [(tickPaint_object f dt p).1], ?_⟩
    intro q hq
    simp only [Bool.false_eq_true, if_false, List.mem_singleton] at hq
    subst hq
    exact ⟨h1, h2⟩

theorem survivorsOf_append {B1 B2 S1 S2 : List Projectile} (h1 : SurvivorsOf B1 S1)
    (h2 : SurvivorsOf B2 S2) : SurvivorsOf (B1 ++ B2) (S1 ++ S2) := by
  refine ⟨?_, ?_⟩
  · rw [List.map_append, List.map_append]
    exact List.Sublist.append h1.1 h2.1
  · intro q hq
    rcases List.mem_append.mp hq with hq | hq
    · exact h1.2 q hq
    · exact h2.2 q hq

/-- The shape of the loop over the indices of `B`, which stands between `A` and `C` in the
list: it does not throw, leaves `A` and `C` as they are and replaces `B` by survivors of `B`. -/
theorem paintLoop_shape (rc : List Decal → Vec3 → Vec3 → List Intersection) (dt : ℚ)
    (now : Nat → ℚ)
    (B : List Projectile) : ∀ (A C : List Projectile) (g : Game), DoorsOk g →
      g.paintProjectiles = A ++ B ++ C →
      ∃ g', paintLoop rc dt now A.length (A.length + B.length) g = .ok g' ∧ DoorsOk g' ∧
        ∃ S, g'.paintProjectiles = A ++ S ++ C ∧ SurvivorsOf B S := by
  induction B using List.reverseRecOn with
  | nil =>
    intro A C g hd hl
    exact ⟨g, by simp [paintLoop_self], hd, [], by simpa using hl,
      ⟨by simp, by intro q hq; simp at hq⟩⟩
  | append_singleton B' p ih =>
    intro A C g hd hl
    have hl' : g.paintProjectiles = (A ++ B') ++ p :: C := by simp [hl]
    obtain ⟨g1, h1, hd1, hp1, _⟩ := projectileStep_shape rc dt (now (A ++ B').length) hd hl'
    have hlen : A.length + (B' ++ [p]).length = (A ++ B').length + 1 := by simp; omega
    have hlo : A.length ≤ (A ++ B').length := by simp
    rw [hlen, paintLoop_succ rc dt now hlo, h1]
    have hl1 : g1.paintProjectiles =
        A ++ B' ++ (kept (tickPaint (rc g.decals) dt p) ++ C) := by
      rw [hp1]; simp
    obtain ⟨g', h', hd', S', hS', hsurv⟩ := ih A _ g1 hd1 hl1
    have hlen' : (A ++ B').length = A.length + B'.length := by simp
    refine ⟨g', by rw [hlen']; exact h', hd', S' ++ kept (tickPaint (rc g.decals) dt p),
      by rw [hS']; simp, survivorsOf_append hsurv (survivorsOf_kept _ dt p)⟩

theorem split_at_index : ∀ (l : List Projectile) (i : Nat) (p : Projectile),
    l[i]? = some p → ∃ T D, l = T ++ p :: D ∧ T.length = i
  | [], i, p, h => by simp at h
  | a :: l, 0, p, h => ⟨[], l, by simp at h; simp [h], rfl⟩
  | a :: l, i + 1, p, h => by
    obtain ⟨T, D, e, hl⟩ := split_at_index l i p (by simpa using h)
    exact ⟨a :: T, D, by simp [e], by simp [hl]⟩

/-- The tick seen from the projectile `p` that stands between `T` and `D`: the loop first runs
over `D` and reaches a state `gi` in which `p` is still at its index; the final list holds
survivors of `T`, what is kept of `p`, and survivors of `D`. -/
theorem tick_around (rc : List Decal → Vec3 → Vec3 → List Intersection) (dt : ℚ)
    (now : Nat → ℚ)
    {g : Game} (hd : DoorsOk g) {T D : List Projectile} {p : Projectile}
    (hl : g.paintProjectiles = T ++ p :: D) :
    ∃ gi g' S1 S2, paintLoop rc dt now (T.length + 1) g.paintProjectiles.length g = .ok gi ∧
      gi.paintProjectiles = T ++ p :: S1 ∧
      updatePaintProjectiles rc dt now g = .ok g' ∧
      g'.paintProjectiles = S2 ++ kept (tickPaint (rc gi.decals) dt p) ++ S1 ∧
      SurvivorsOf T S2 ∧ SurvivorsOf D S1 := by
  have e1 : (T ++ [p]).length = T.length + 1 := by simp
  have e2 : g.paintProjectiles.length = (T ++ [p]).length + D.length := by
    rw [hl]; simp; omega
  obtain ⟨gi, hgi, hdi, S1, hS1, hsurv1⟩ :=
    paintLoop_shape rc dt now D (T ++ [p]) [] g hd (by simp [hl])
  rw [← e2, e1] at hgi
  have hli : gi.paintProjectiles = T ++ p :: S1 := by rw [hS1]; simp
  obtain ⟨g2, h2, hd2, hp2, _⟩ := projectileStep_shape rc dt (now T.length) hdi hli
  obtain ⟨g3, h3, _, S2, hS2, hsurv2⟩ :=
    paintLoop_shape rc dt now T [] (kept (tickPaint (rc gi.decals) dt p) ++ S1) g2 hd2
      (by rw [hp2]; simp)
  simp only [List.length_nil, Nat.zero_add] at h3
  refine ⟨gi, g3, S1, S2, hgi, hli, ?_, by rw [hS2]; simp, hsurv2, hsurv1⟩
  unfold updatePaintProjectiles
  rw [paintLoop_split rc dt now (Nat.zero_le (T.length + 1)) _ g (by rw [e2, e1]; omega), hgi]
  show paintLoop rc dt now 0 (T.length + 1) gi = _
  rw [paintLoop_succ rc dt now (Nat.zero_le _), h2]
  exact h3

/-- C8: one call of `updatePaintProjectiles(dt)` returns normally, and a projectile of the list
is gone afterwards exactly when, after its integration, (a) the nearest ray hit found when the
loop visits it exists and is closer than 0.4, or (b) its life minus `dt` is at most 0, or
(c) its new height is below -10; every projectile left in the list has positive life and
height at least -10.  Projectiles are told apart by their paint object. -/
theorem projectile_removed_iff (rc : List Decal → Vec3 → Vec3 → List Intersection)
    (dt : ℚ) (now : Nat → ℚ) (g : Game) (hd : DoorsOk g)
    (hn : (g.paintProjectiles.map Projectile.object).Nodup) :
    ∃ g', updatePaintProjectiles rc dt now g = .ok g' ∧
      (∀ (i : Nat) (p : Projectile), g.paintProjectiles[i]? = some p →
        ∃ gi, paintLoop rc dt now (i + 1) g.paintProjectiles.length g = .ok gi ∧
          gi.paintProjectiles[i]? = some p ∧
          ((∀ q ∈ g'.paintProjectiles, q.object ≠ p.object) ↔
            ((∃ hit, Contact
                (rc gi.decals (p.integrate dt).position (p.integrate dt).velocity) hit) ∨
              p.life - dt ≤ 0 ∨ (p.integrate dt).position.y < -10))) ∧
      ∀ q ∈ g'.paintProjectiles, 0 < q.life ∧ -10 ≤ q.position.y := by
  obtain ⟨g', hg', _, S, hS, hsurv⟩ :=
    paintLoop_shape rc dt now g.paintProjectiles [] [] g hd (by simp)
  have hfull : updatePaintProjectiles rc dt now g = .ok g' := by
    simpa [updatePaintProjectiles] using hg'
  refine ⟨g', hfull, ?_, ?_⟩
  · intro i p hp
    obtain ⟨T, D, hl, hT⟩ := split_at_index _ i p hp
    subst hT
    obtain ⟨gi, g3, S1, S2, hgi, hli, hup, hfin, hs2, hs1⟩ := tick_around rc dt now hd hl
    rw [hfull] at hup
    obtain rfl := Except.ok.inj hup
    refine ⟨gi, hgi, by rw [hli]; exact getElem?_append_cons T S1 p, ?_⟩
    have hnod : (T.map Projectile.object ++ p.object :: D.map Projectile.object).Nodup := by
      have := hn
      rw [hl] at this
      simpa using this
    rw [List.nodup_append] at hnod
    obtain ⟨_, hn2, hdis⟩ := hnod
    have hnT : ∀ x ∈ T, x.object ≠ p.object := fun x hx e =>
      hdis (List.mem_map_of_mem _ hx) (by rw [e]; exact List.mem_cons_self _ _)
    have hnD : ∀ x ∈ D, x.object ≠ p.object := fun x hx e =>
      (List.nodup_cons.mp hn2).1 (by rw [← e]; exact List.mem_map_of_mem _ hx)
    rw [← tickPaint_removed_iff (rc gi.decals) dt p, hfin]
    constructor
    · intro hall
      by_contra hr
      have hr' : (tickPaint (rc gi.decals) dt p).removed = false := by simpa using hr
      have hmem : (tickPaint (rc gi.decals) dt p).paint ∈
          S2 ++ kept (tickPaint (rc gi.decals) dt p) ++ S1 := by
        simp [kept, hr']
      exact hall _ hmem (tickPaint_object _ dt p).1
    · intro hr q hq
      simp only [kept, hr, if_true, List.append_nil, List.mem_append] at hq
      rcases hq with hq | hq
      · obtain ⟨_, _, x, hx, e⟩ := survivorsOf_mem hs2 hq
        rw [e]; exact hnT x hx
      · obtain ⟨_, _, x, hx, e⟩ := survivorsOf_mem hs1 hq
        rw [e]; exact hnD x hx
  · intro q hq
    have hq' : q ∈ S := by
      rw [hS] at hq
      simpa using hq
    exact hsurv.2 q hq'

/-- C8 at a concrete input: the loaded level with one red projectile just fired, nothing in
reach of the ray, a tick of 1/60 s. -/
theorem projectile_removed_iff_witness :
    DoorsOk (launch loadedGame) ∧
      ((launch loadedGame).paintProjectiles.map Projectile.object).Nodup ∧
      ∃ g', updatePaintProjectiles openSky (1 / 60) (fun _ => 0) (launch loadedGame) = .ok g' ∧
        (∀ (i : Nat) (p : Projectile), (launch loadedGame).paintProjectiles[i]? = some p →
          ∃ gi, paintLoop openSky (1 / 60) (fun _ => 0) (i + 1)
              (launch loadedGame).paintProjectiles.length (launch loadedGame) = .ok gi ∧
            gi.paintProjectiles[i]? = some p ∧
            ((∀ q ∈ g'.paintProjectiles, q.object ≠ p.object) ↔
              ((∃ hit, Contact (openSky gi.decals (p.integrate (1 / 60)).position
                  (p.integrate (1 / 60)).velocity) hit) ∨
                p.life - 1 / 60 ≤ 0 ∨ (p.integrate (1 / 60)).position.y < -10))) ∧
        ∀ q ∈ g'.paintProjectiles, 0 < q.life ∧ -10 ≤ q.position.y :=
  have hd : DoorsOk (launch loadedGame) := by
    simp [DoorsOk, launch, loadedGame, initialGame, levelTargets, levelDoors]
  have hn : ((launch loadedGame).paintProjectiles.map Projectile.object).Nodup := by
    simp [launch, loadedGame, initialGame]
  ⟨hd, hn, projectile_removed_iff openSky (1 / 60) (fun _ => 0) (launch loadedGame) hd hn⟩

/-- C9: the iteration of `updatePaintProjectiles` for a projectile `p` returns normally and
makes a splash exactly when the nearest ray hit is closer than 0.4.  On contact it calls
`createPaintSplash` once, with that hit and the colour of `p`, adds exactly one decal, removes
the projectile and leaves its life as it was; without contact it makes no splash (no decal,
draw order, targets and doors untouched), whether the projectile then expires or not, and its
life has gone down by `dt`. -/
theorem splash_iff_contact (rc : List Decal → Vec3 → Vec3 → List Intersection) (dt now : ℚ)
    (g : Game) (i : Nat) (p : Projectile) (hd : DoorsOk g)
    (hp : g.paintProjectiles[i]? = some p) :
    ∃ g', projectileStep rc dt now g i = .ok g' ∧
      ((tickPaint (rc g.decals) dt p).splash.isSome = true ↔
        ∃ hit, Contact (rc g.decals (p.integrate dt).position (p.integrate dt).velocity) hit) ∧
      (∀ hit, Contact (rc g.decals (p.integrate dt).position (p.integrate dt).velocity) hit →
        (tickPaint (rc g.decals) dt p).splash = some hit ∧
        (tickPaint (rc g.decals) dt p).removed = true ∧
        (tickPaint (rc g.decals) dt p).paint.life = p.life ∧
        g'.decals = g.decals ++ [decalOf hit p.color (g.paintDepthOrder + 1)] ∧
        ∃ g2, createPaintSplash
            { g with paintProjectiles := g.paintProjectiles.set i (p.integrate dt) }
            hit p.color now = .ok g2 ∧
          g' = removeProjectile g2 i p.object) ∧
      ((∀ hit, ¬ Contact (rc g.decals (p.integrate dt).position (p.integrate dt).velocity) hit) →
        (tickPaint (rc g.decals) dt p).splash = none ∧
        (tickPaint (rc g.decals) dt p).paint.life = p.life - dt ∧
        g'.decals = g.decals ∧ g'.paintDepthOrder = g.paintDepthOrder ∧
        g'.mainObjects = g.mainObjects ∧ g'.doorMixers = g.doorMixers ∧
        g'.doorAnimStart = g.doorAnimStart) := by
  have hcases := tickPaint_cases (rc g.decals) dt p
  unfold projectileStep
  rw [hp]
  dsimp only
  generalize tickPaint (rc g.decals) dt p = out at hcases ⊢
  rcases hcases with ⟨hit, hc, rfl⟩ | ⟨hno, rfl⟩
  · obtain ⟨g2, h2, _, _, _, hdec, _⟩ :=
      splash_ok (g := { g with paintProjectiles := g.paintProjectiles.set i (p.integrate dt) })
        hd hit p.color now
    have h2' : createPaintSplash
        { g with paintProjectiles := g.paintProjectiles.set i (p.integrate dt) }
        hit (p.integrate dt).color now = .ok g2 := h2
    refine ⟨removeProjectile g2 i p.object, ?_, ⟨fun _ => ⟨hit, hc⟩, fun _ => rfl⟩, ?_, ?_⟩
    · simp only [h2']
      rfl
    · intro hit' hc'
      have : hit' = hit := Option.some.inj (hc'.1.symm.trans hc.1)
      subst this
      exact ⟨rfl, rfl, rfl, hdec, g2, h2, rfl⟩
    · intro hno
      exact absurd hc (hno hit)
  · have hsome : ¬ ∃ hit,
        Contact (rc g.decals (p.integrate dt).position (p.integrate dt).velocity) hit :=
      fun ⟨hit, hc⟩ => hno hit hc
    dsimp only [expire]
    split_ifs with hr
    · refine ⟨_, rfl, ⟨fun h => Bool.noConfusion h, fun h => absurd h hsome⟩, ?_, ?_⟩
      · intro hit hc
        exact absurd hc (hno hit)
      · intro _
        exact ⟨rfl, rfl, rfl, rfl, rfl, rfl, rfl⟩
    · refine ⟨_, rfl, ⟨fun h => Bool.noConfusion h, fun h => absurd h hsome⟩, ?_, ?_⟩
      · intro hit hc
        exact absurd hc (hno hit)
      · intro _
        exact ⟨rfl, rfl, rfl, rfl, rfl, rfl, rfl⟩

/-- C9 at a concrete input: the projectile just fired in the loaded level, with the first
target 0.1 ahead of it. -/
theorem splash_iff_contact_witness :
    DoorsOk (launch loadedGame) ∧ (launch loadedGame).paintProjectiles[0]? = some firstPaint ∧
    ∃ g', projectileStep targetAhead (1 / 60) 0 (launch loadedGame) 0 = .ok g' ∧
      ((tickPaint (targetAhead (launch loadedGame).decals) (1 / 60) firstPaint).splash.isSome
          = true ↔
        ∃ hit, Contact (targetAhead (launch loadedGame).decals
          (firstPaint.integrate (1 / 60)).position (firstPaint.integrate (1 / 60)).velocity) hit) ∧
      (∀ hit, Contact (targetAhead (launch loadedGame).decals
          (firstPaint.integrate (1 / 60)).position (firstPaint.integrate (1 / 60)).velocity) hit →
        (tickPaint (targetAhead (launch loadedGame).decals) (1 / 60) firstPaint).splash
          = some hit ∧
        (tickPaint (targetAhead (launch loadedGame).decals) (1 / 60) firstPaint).removed
          = true ∧
        (tickPaint (targetAhead (launch loadedGame).decals) (1 / 60) firstPaint).paint.life
          = firstPaint.life ∧
        g'.decals = (launch loadedGame).decals ++
          [decalOf hit firstPaint.color ((launch loadedGame).paintDepthOrder + 1)] ∧
        ∃ g2, createPaintSplash
            { launch loadedGame with
              paintProjectiles :=
                (launch loadedGame).paintProjectiles.set 0 (firstPaint.integrate (1 / 60)) }
            hit firstPaint.color 0 = .ok g2 ∧
          g' = removeProjectile g2 0 firstPaint.object) ∧
      ((∀ hit, ¬ Contact (targetAhead (launch loadedGame).decals
          (firstPaint.integrate (1 / 60)).position (firstPaint.integrate (1 / 60)).velocity) hit) →
        (tickPaint (targetAhead (launch loadedGame).decals) (1 / 60) firstPaint).splash = none ∧
        (tickPaint (targetAhead (launch loadedGame).decals) (1 / 60) firstPaint).paint.life
          = firstPaint.life - 1 / 60 ∧
        g'.decals = (launch loadedGame).decals ∧
        g'.paintDepthOrder = (launch loadedGame).paintDepthOrder ∧
        g'.mainObjects = (launch loadedGame).mainObjects ∧
        g'.doorMixers = (launch loadedGame).doorMixers ∧
        g'.doorAnimStart = (launch loadedGame).doorAnimStart) :=
  have hd : DoorsOk (launch loadedGame) := by
    simp [DoorsOk, launch, loadedGame, initialGame, levelTargets, levelDoors]
  ⟨hd, rfl, splash_iff_contact targetAhead (1 / 60) 0 (launch loadedGame) 0 firstPaint hd rfl⟩

/-! ## Firing -/

/-- C10 fails on the code in the state the game is in while `red_paint.fbx` is still loading
(the click listener is installed before the load is awaited): red is selected, the red
template is `undefined`, and `shoot()` throws instead of appending a projectile. -/
theorem shoot_red_before_model_loaded :
    initialGame.currentPaintColor = "red" ∧ initialGame.redPaintModelTemplate = none ∧
      shoot initialGame = .error "TypeError: redPaintModelTemplate is undefined" :=
  ⟨rfl, rfl, rfl⟩

/-- With the model of the selected colour loaded, `shoot()` appends exactly one projectile, at
the camera position, with velocity 15 times the camera direction, life 5, gravity -9.8 and the
current colour, adds its object to the scene and leaves the earlier projectiles as they are. -/
theorem shoot_appends_one_projectile (g : Game)
    (h : (g.currentPaintColor = "red" ∧ g.redPaintModelTemplate.isSome = true) ∨
      (g.currentPaintColor = "blue" ∧ g.bluePaintModelTemplate.isSome = true)) :
    ∃ g', shoot g = .ok g' ∧
      g'.paintProjectiles = g.paintProjectiles ++
        [⟨g.nextObject, g.cameraPosition, g.cameraDirection.multiplyScalar 15, 5, -(49 / 5),
          g.currentPaintColor⟩] ∧
      g'.scene = g.scene ++ [g.nextObject] ∧
      (∀ (i : Nat) (p : Projectile), g.paintProjectiles[i]? = some p →
        g'.paintProjectiles[i]? = some p) := by
  have hkeep : ∀ (i : Nat) (p : Projectile), g.paintProjectiles[i]? = some p →
      (launch g).paintProjectiles[i]? = some p := by
    intro i p hp
    show (g.paintProjectiles ++ _)[i]? = some p
    rw [List.getElem?_append_left (List.getElem?_eq_some.mp hp).1]
    exact hp
  unfold shoot
  rcases h with ⟨hc, ht⟩ | ⟨hc, ht⟩
  · rw [if_pos hc]
    cases hr : g.redPaintModelTemplate with
    | none => rw [hr] at ht; exact Bool.noConfusion ht
    | some m => exact ⟨launch g, rfl, rfl, rfl, hkeep⟩
  · have hne : ¬ g.currentPaintColor = "red" := by rw [hc]; decide
    rw [if_neg hne, if_pos ⟨hc, ht⟩]
    exact ⟨launch g, rfl, rfl, rfl, hkeep⟩

/-- The firing contract at a concrete input: red selected and the red model loaded. -/
theorem shoot_appends_one_projectile_witness :
    ∃ g', shoot loadedGame = .ok g' ∧
      g'.paintProjectiles = loadedGame.paintProjectiles ++
        [⟨loadedGame.nextObject, loadedGame.cameraPosition,
          loadedGame.cameraDirection.multiplyScalar 15, 5, -(49 / 5),
          loadedGame.currentPaintColor⟩] ∧
      g'.scene = loadedGame.scene ++ [loadedGame.nextObject] ∧
      (∀ (i : Nat) (p : Projectile), loadedGame.paintProjectiles[i]? = some p →
        g'.paintProjectiles[i]? = some p) :=
  shoot_appends_one_projectile loadedGame (Or.inl ⟨rfl, rfl⟩)

/-! ## The hypotheses of the projectile theorems hold along the game -/

theorem createPaintSplash_frame {g g' : Game} {hit : Intersection} {color : String} {now : ℚ}
    (h : createPaintSplash g hit color now = .ok g') :
    g'.nextObject = g.nextObject ∧ g'.paintProjectiles = g.paintProjectiles ∧
      g'.scene = g.scene ∧ g'.doors = g.doors ∧
      g'.currentPaintColor = g.currentPaintColor ∧
      g'.redPaintModelTemplate = g.redPaintModelTemplate ∧
      g'.bluePaintModelTemplate = g.bluePaintModelTemplate := by
  have hstep := createPaintSplash_step g hit color now
  rw [h] at hstep
  generalize hr : (Except.ok g' : Except String Game) = r at hstep
  cases hstep with
  | ignored hno =>
    have hg := Except.ok.inj hr
    subst hg
    exact ⟨rfl, rfl, rfl, rfl, rfl, rfl, rfl⟩
  | counted j0 t0 hf hc hu =>
    have hg := Except.ok.inj hr
    subst hg
    exact ⟨rfl, rfl, rfl, rfl, rfl, rfl, rfl⟩
  | unlocked j0 t0 hf hc h3 hl hall =>
    have hg := Except.ok.inj hr
    subst hg
    exact ⟨rfl, rfl, rfl, rfl, rfl, rfl, rfl⟩
  | opened j0 t0 hf hc h3 hl hall =>
    have hg := openDoor_fields hr.symm
    subst hg
    exact ⟨rfl, rfl, rfl, rfl, rfl, rfl, rfl⟩

theorem projectileStep_nextObject {rc : List Decal → Vec3 → Vec3 → List Intersection}
    {dt now : ℚ} {g g' : Game} {i : Nat} (h : projectileStep rc dt now g i = .ok g') :
    g'.nextObject = g.nextObject := by
  unfold projectileStep at h
  cases hp : g.paintProjectiles[i]? with
  | none =>
    rw [hp] at h
    exact Except.noConfusion h
  | some p =>
    rw [hp] at h
    dsimp only at h
    generalize tickPaint (rc g.decals) dt p = out at h
    cases hs : out.splash with
    | some hit =>
      rw [hs] at h
      dsimp only at h
      cases hc : createPaintSplash
          { g with paintProjectiles := g.paintProjectiles.set i out.paint } hit out.paint.color now with
      | error e =>
        rw [hc] at h
        exact Except.noConfusion h
      | ok g2 =>
        rw [hc] at h
        obtain rfl := Except.ok.inj h
        exact (createPaintSplash_frame hc).1
    | none =>
      rw [hs] at h
      dsimp only at h
      split_ifs at h <;> (obtain rfl := Except.ok.inj h; rfl)

theorem paintLoop_nextObject (rc : List Decal → Vec3 → Vec3 → List Intersection)
    (dt : ℚ) (now : Nat → ℚ) (lo : Nat) : ∀ (n : Nat) (g g' : Game),
    paintLoop rc dt now lo n g = .ok g' → g'.nextObject = g.nextObject
  | 0, g, g', h => by
    obtain rfl := Except.ok.inj h
    rfl
  | n + 1, g, g', h => by
    unfold paintLoop at h
    split_ifs at h with hlo
    · cases hs : projectileStep rc dt (now n) g n with
      | error e =>
        rw [hs] at h
        exact Except.noConfusion h
      | ok g1 =>
        rw [hs] at h
        exact (paintLoop_nextObject rc dt now lo n g1 g' h).trans (projectileStep_nextObject hs)
    · obtain rfl := Except.ok.inj h
      rfl

theorem doorsOk_initialGame : DoorsOk initialGame := by
  simp [DoorsOk, initialGame, levelTargets, levelDoors]

theorem freshPaint_initialGame : FreshPaint initialGame := by
  simp [FreshPaint, initialGame]

/-- Firing keeps the paint objects distinct and the targets' doors in range. -/
theorem shoot_keeps_wellFormed {g g' : Game} (hd : DoorsOk g) (hf : FreshPaint g)
    (h : shoot g = .ok g') : DoorsOk g' ∧ FreshPaint g' := by
  have hl : DoorsOk (launch g) ∧ FreshPaint (launch g) := by
    refine ⟨hd, ?_, ?_⟩
    · show ((g.paintProjectiles ++ _).map Projectile.object).Nodup
      rw [List.map_append, List.nodup_append]
      refine ⟨hf.1, List.nodup_singleton _, ?_⟩
      intro a ha hb
      obtain ⟨p, hp, rfl⟩ := List.mem_map.mp ha
      have h1 := hf.2 p hp
      have h2 : p.object = g.nextObject := by simpa using hb
      omega
    · intro p hp
      show p.object < g.nextObject + 1
      have hp' : p ∈ g.paintProjectiles ++ _ := hp
      rcases List.mem_append.mp hp' with hp' | hp'
      · have := hf.2 p hp'
        omega
      · have h2 : p.object = g.nextObject := by
          have := List.mem_singleton.mp hp'
          rw [this]
        omega
  unfold shoot at h
  split_ifs at h with h1 h2
  · cases hr : g.redPaintModelTemplate with
    | none =>
      rw [hr] at h
      exact Except.noConfusion h
    | some m =>
      rw [hr] at h
      obtain rfl := Except.ok.inj h
      exact hl
  · obtain rfl := Except.ok.inj h
    exact hl
  · obtain rfl := Except.ok.inj h
    exact ⟨hd, hf⟩

/-- A tick keeps the paint objects distinct and the targets' doors in range, and it never
throws on such a state. -/
theorem update_keeps_wellFormed (rc : List Decal → Vec3 → Vec3 → List Intersection)
    (dt : ℚ) (now : Nat → ℚ) {g : Game} (hd : DoorsOk g) (hf : FreshPaint g) :
    ∃ g', updatePaintProjectiles rc dt now g = .ok g' ∧ DoorsOk g' ∧ FreshPaint g' := by
  obtain ⟨g', hg', hd', S, hS, hsurv⟩ :=
    paintLoop_shape rc dt now g.paintProjectiles [] [] g hd (by simp)
  simp only [List.length_nil, Nat.zero_add] at hg'
  have hS' : g'.paintProjectiles = S := by simpa using hS
  refine ⟨g', hg', hd', ?_, ?_⟩
  · rw [hS']
    exact hf.1.sublist hsurv.1
  · intro q hq
    rw [hS'] at hq
    obtain ⟨_, _, p, hp, e⟩ := survivorsOf_mem hsurv hq
    rw [paintLoop_nextObject rc dt now 0 _ g g' hg', e]
    exact hf.2 p hp

/-! ## Firing without a model, draw order, clicks -/

/-- C11: `shoot()` with blue selected and the blue paint model not loaded returns normally and
leaves the whole state, `paintProjectiles` and the scene included, as it was. -/
theorem shoot_blue_before_model_loaded (g : Game) (hc : g.currentPaintColor = "blue")
    (hb : g.bluePaintModelTemplate = none) :
    shoot g = .ok g ∧
      ∀ g', shoot g = .ok g' →
        g'.paintProjectiles = g.paintProjectiles ∧ g'.scene = g.scene := by
  have h : shoot g = .ok g := by
    unfold shoot
    have hne : ¬ g.currentPaintColor = "red" := by rw [hc]; decide
    rw [if_neg hne, if_neg]
    rintro ⟨_, ht⟩
    rw [hb] at ht
    exact Bool.noConfusion ht
  refine ⟨h, fun g' hg' => ?_⟩
  rw [h] at hg'
  obtain rfl := Except.ok.inj hg'
  exact ⟨rfl, rfl⟩

/-- C11 at a concrete input: the initial state with blue selected. -/
theorem shoot_blue_before_model_loaded_witness :
    blueSelectedGame.currentPaintColor = "blue" ∧
      blueSelectedGame.bluePaintModelTemplate = none ∧
      shoot blueSelectedGame = .ok blueSelectedGame ∧
      ∀ g', shoot blueSelectedGame = .ok g' →
        g'.paintProjectiles = blueSelectedGame.paintProjectiles ∧
          g'.scene = blueSelectedGame.scene :=
  ⟨rfl, rfl, shoot_blue_before_model_loaded blueSelectedGame rfl rfl⟩

theorem doorsOk_of_inv {g : Game} (hI : Inv g) : DoorsOk g := by
  intro t ht
  obtain ⟨j, hj⟩ := List.mem_iff_getElem?.mp ht
  rw [hI.doors]
  exact (static_getElem? hI.static hj).2.1

theorem decalsFrom_getElem? : ∀ (ss : List Splash) (k n : Nat),
    (decalsFrom k ss)[n]? = ss[n]?.map (fun s => decalOf s.hit s.color (k + n + 1))
  | [], k, n => by simp [decalsFrom]
  | s :: rest, k, 0 => by simp [decalsFrom]
  | s :: rest, k, n + 1 => by
    simp only [decalsFrom, List.getElem?_cons_succ]
    rw [decalsFrom_getElem? rest (k + 1) n]
    have : k + 1 + n + 1 = k + (n + 1) + 1 := by omega
    rw [this]

theorem decalsFrom_length : ∀ (ss : List Splash) (k : Nat), (decalsFrom k ss).length = ss.length
  | [], k => rfl
  | s :: rest, k => by simp [decalsFrom, decalsFrom_length rest (k + 1)]

/-- A run of splashes appends one decal per splash and counts the draw order up by one per
splash. -/
theorem run_decals : ∀ (ss : List Splash) (g : Game), DoorsOk g →
    ∃ g', runSplashes g ss = .ok g' ∧ DoorsOk g' ∧
      g'.paintDepthOrder = g.paintDepthOrder + ss.length ∧
      g'.decals = g.decals ++ decalsFrom g.paintDepthOrder ss
  | [], g, hd => ⟨g, rfl, hd, rfl, by simp [decalsFrom]⟩
  | s :: rest, g, hd => by
    obtain ⟨g1, h1, hd1, _, _, hdec, hord⟩ := splash_ok hd s.hit s.color s.now
    obtain ⟨g2, h2, hd2, ho2, hdec2⟩ := run_decals rest g1 hd1
    refine ⟨g2, by simp only [runSplashes, h1]; exact h2, hd2, ?_, ?_⟩
    · rw [ho2, hord, List.length_cons]; omega
    · rw [hdec2, hdec, hord]
      simp [decalsFrom]

/-- C16: after `n` calls of `createPaintSplash` from the start of the session there are `n`
decals, the decal of call number `k` (counted from 1) has `renderOrder` `k`, and a decal made
later has a strictly larger `renderOrder` than one made earlier. -/
theorem renderOrder_counts_splashes (ss : List Splash) :
    ∃ g, runSplashes initialGame ss = .ok g ∧ g.decals.length = ss.length ∧
      g.paintDepthOrder = ss.length ∧
      (∀ n : Nat, g.decals[n]? = ss[n]?.map (fun s => decalOf s.hit s.color (n + 1))) ∧
      (∀ (n : Nat) (d : Decal), g.decals[n]? = some d → d.renderOrder = n + 1) ∧
      (∀ (m n : Nat) (d e : Decal), m < n → g.decals[m]? = some d → g.decals[n]? = some e →
        d.renderOrder < e.renderOrder) := by
  obtain ⟨g, hg, _, hord, hdec⟩ := run_decals ss initialGame doorsOk_initialGame
  have hdec' : g.decals = decalsFrom 0 ss := by
    rw [hdec]
    rfl
  have hget : ∀ n : Nat, g.decals[n]? = ss[n]?.map (fun s => decalOf s.hit s.color (n + 1)) := by
    intro n
    rw [hdec', decalsFrom_getElem?, Nat.zero_add]
  have hord' : ∀ (n : Nat) (d : Decal), g.decals[n]? = some d → d.renderOrder = n + 1 := by
    intro n d hd
    rw [hget] at hd
    cases hs : ss[n]? with
    | none => rw [hs] at hd; exact Option.noConfusion hd
    | some s =>
      rw [hs] at hd
      obtain rfl := Option.some.inj hd
      rfl
  refine ⟨g, hg, by rw [hdec', decalsFrom_length], ?_, hget, hord', ?_⟩
  · rw [hord]
    exact Nat.zero_add _
  · intro m n d e hmn hd he
    rw [hord' m d hd, hord' n e he]
    omega

theorem shoot_pointer {g g' : Game} (h : shoot g = .ok g') :
    g'.isPointerLocked = g.isPointerLocked ∧ g'.mouseX = g.mouseX ∧ g'.mouseY = g.mouseY ∧
      g'.pointerLockRequests = g.pointerLockRequests := by
  unfold shoot at h
  split_ifs at h with h1 h2
  · cases hr : g.redPaintModelTemplate with
    | none =>
      rw [hr] at h
      exact Except.noConfusion h
    | some m =>
      rw [hr] at h
      obtain rfl := Except.ok.inj h
      exact ⟨rfl, rfl, rfl, rfl⟩
  · obtain rfl := Except.ok.inj h
    exact ⟨rfl, rfl, rfl, rfl⟩
  · obtain rfl := Except.ok.inj h
    exact ⟨rfl, rfl, rfl, rfl⟩

/-- C19: a click with the pointer not locked asks for the pointer lock once and does nothing
else (no paint is fired, no error); a click with the pointer locked is a call of `shoot()`,
asks for no lock and leaves `isPointerLocked` as it was. -/
theorem click_acquires_or_fires (g : Game) :
    (g.isPointerLocked = false →
        click g = .ok (requestPointerLock g) ∧
        (requestPointerLock g).pointerLockRequests = g.pointerLockRequests + 1 ∧
        (requestPointerLock g).paintProjectiles = g.paintProjectiles ∧
        (requestPointerLock g).scene = g.scene ∧
        (requestPointerLock g).isPointerLocked = false) ∧
      (g.isPointerLocked = true →
        click g = shoot g ∧
        ∀ g', click g = .ok g' →
          g'.isPointerLocked = true ∧ g'.pointerLockRequests = g.pointerLockRequests) := by
  constructor
  · intro h
    refine ⟨by unfold click; rw [if_pos h], rfl, rfl, rfl, h⟩
  · intro h
    have hc : click g = shoot g := by
      unfold click
      rw [if_neg]
      rw [h]
      exact Bool.noConfusion
    refine ⟨hc, fun g' hg' => ?_⟩
    rw [hc] at hg'
    obtain ⟨h1, _, _, h4⟩ := shoot_pointer hg'
    exact ⟨h1.trans h, h4⟩

/-! ## What every operation keeps -/

theorem createPaintSplash_pointer {g g' : Game} {hit : Intersection} {color : String} {now : ℚ}
    (h : createPaintSplash g hit color now = .ok g') :
    g'.isPointerLocked = g.isPointerLocked ∧ g'.mouseX = g.mouseX ∧ g'.mouseY = g.mouseY ∧
      g'.pointerLockRequests = g.pointerLockRequests ∧ g'.doorBodies = g.doorBodies := by
  have hstep := createPaintSplash_step g hit color now
  rw [h] at hstep
  generalize hr : (Except.ok g' : Except String Game) = r at hstep
  cases hstep with
  | ignored hno =>
    have hg := Except.ok.inj hr
    subst hg
    exact ⟨rfl, rfl, rfl, rfl, rfl⟩
  | counted j0 t0 hf hc hu =>
    have hg := Except.ok.inj hr
    subst hg
    exact ⟨rfl, rfl, rfl, rfl, rfl⟩
  | unlocked j0 t0 hf hc h3 hl hall =>
    have hg := Except.ok.inj hr
    subst hg
    exact ⟨rfl, rfl, rfl, rfl, rfl⟩
  | opened j0 t0 hf hc h3 hl hall =>
    have hg := openDoor_fields hr.symm
    subst hg
    exact ⟨rfl, rfl, rfl, rfl, rfl⟩

/-- What one iteration of the door loop can change: nothing, or the mixer of its door, the
position of the door the mixer animates, and the door bodies. -/
theorem doorTick_cases {dt clock : ℚ} {g g' : Game} {i : Nat}
    (h : doorTick dt clock g i = .ok g') :
    g' = g ∨ ∃ (mixer : Mixer) (bodies : List Vec3), g.doorMixers[i]? = some (some mixer) ∧
      g' = { g with
        doorMixers := g.doorMixers.set i (some (mixer.update dt))
        doors := g.doors.set mixer.root ⟨(mixer.update dt).position⟩
        doorBodies := bodies } := by
  unfold doorTick at h
  split at h
  · rename_i mixer hm
    right
    dsimp only at h
    split at h
    · exact ⟨mixer, g.doorBodies, hm, (Except.ok.inj h).symm⟩
    · exact Except.noConfusion h
    · split at h
      · exact ⟨mixer, _, hm, (Except.ok.inj h).symm⟩
      · exact Except.noConfusion h
  · exact Or.inl (Except.ok.inj h).symm

/-- A relation between states that holds across a splash, across any change of the paint in
flight, the scene, the camera and the object supply, and across an iteration of the door loop,
and that is reflexive and transitive, holds across the projectile loop and across a frame. -/
theorem paintLoop_rel (R : Game → Game → Prop) (hrefl : ∀ g, R g g)
    (htrans : ∀ a b c, R a b → R b c → R a c)
    (hsplash : ∀ g g' hit color now, createPaintSplash g hit color now = .ok g' → R g g')
    (hfields : ∀ (g : Game) l sc cp cd no, R g { g with
      paintProjectiles := l, scene := sc, cameraPosition := cp, cameraDirection := cd,
      nextObject := no })
    (rc : List Decal → Vec3 → Vec3 → List Intersection) (dt : ℚ) (now : Nat → ℚ) (lo : Nat) :
    ∀ (n : Nat) (g g' : Game), paintLoop rc dt now lo n g = .ok g' → R g g'
  | 0, g, g', h => by
    obtain rfl := Except.ok.inj h
    exact hrefl _
  | n + 1, g, g', h => by
    unfold paintLoop at h
    split_ifs at h with hlo
    · cases hs : projectileStep rc dt (now n) g n with
      | error e =>
        rw [hs] at h
        exact Except.noConfusion h
      | ok g1 =>
        rw [hs] at h
        refine htrans _ _ _ ?_ (paintLoop_rel R hrefl htrans hsplash hfields rc dt now lo n g1 g' h)
        unfold projectileStep at hs
        cases hp : g.paintProjectiles[n]? with
        | none =>
          rw [hp] at hs
          exact Except.noConfusion hs
        | some p =>
          rw [hp] at hs
          dsimp only at hs
          generalize tickPaint (rc g.decals) dt p = out at hs
          cases hsp : out.splash with
          | some hit =>
            rw [hsp] at hs
            dsimp only at hs
            cases hc : createPaintSplash
                { g with paintProjectiles := g.paintProjectiles.set n out.paint }
                hit out.paint.color (now n) with
            | error e =>
              rw [hc] at hs
              exact Except.noConfusion hs
            | ok g2 =>
              rw [hc] at hs
              obtain rfl := Except.ok.inj hs
              exact htrans _ _ _ (hfields g _ g.scene g.cameraPosition g.cameraDirection
                g.nextObject) (htrans _ _ _ (hsplash _ _ _ _ _ hc)
                  (hfields g2 _ _ g2.cameraPosition g2.cameraDirection g2.nextObject))
          | none =>
            rw [hsp] at hs
            dsimp only at hs
            split_ifs at hs
            · obtain rfl := Except.ok.inj hs
              exact hfields g _ _ g.cameraPosition g.cameraDirection g.nextObject
            · obtain rfl := Except.ok.inj hs
              exact hfields g _ g.scene g.cameraPosition g.cameraDirection g.nextObject
    · obtain rfl := Except.ok.inj h
      exact hrefl _

theorem play_rel (R : Game → Game → Prop) (hrefl : ∀ g, R g g)
    (htrans : ∀ a b c, R a b → R b c → R a c)
    (hsplash : ∀ g g' hit color now, createPaintSplash g hit color now = .ok g' → R g g')
    (hfields : ∀ (g : Game) l sc cp cd no, R g { g with
      paintProjectiles := l, scene := sc, cameraPosition := cp, cameraDirection := cd,
      nextObject := no })
    (hdoor : ∀ dt clock g i g', doorTick dt clock g i = .ok g' → R g g')
    (hreq : ∀ g, R g (requestPointerLock g))
    (hmove : ∀ g dx dy, R g (mousemove g dx dy))
    (hlock : ∀ g b, R g (pointerlockchange g b)) :
    ∀ (g : Game) (e : Event) (g' : Game), play g e = .ok g' → R g g' := by
  intro g e g' h
  cases e with
  | splash s => exact hsplash _ _ _ _ _ h
  | frame rc dt now clock camera =>
    simp only [play, animate] at h
    cases hu : updatePaintProjectiles rc dt now
        { g with cameraPosition := camera.1, cameraDirection := camera.2 } with
    | error e =>
      rw [hu] at h
      exact Except.noConfusion h
    | ok g1 =>
      rw [hu] at h
      dsimp only at h
      have h01 := paintLoop_rel R hrefl htrans hsplash hfields rc dt now 0 _ _ g1 hu
      have h0 := hfields g g.paintProjectiles g.scene camera.1 camera.2 g.nextObject
      refine htrans _ _ _ h0 (htrans _ _ _ h01 ?_)
      unfold doorLoop at h
      cases h1 : doorTick dt (clock 0) g1 0 with
      | error e =>
        rw [h1] at h
        exact Except.noConfusion h
      | ok g2 =>
        rw [h1] at h
        dsimp only at h
        cases h2 : doorTick dt (clock 1) g2 1 with
        | error e =>
          rw [h2] at h
          exact Except.noConfusion h
        | ok g3 =>
          rw [h2] at h
          exact htrans _ _ _ (hdoor _ _ _ _ _ h1)
            (htrans _ _ _ (hdoor _ _ _ _ _ h2) (hdoor _ _ _ _ _ h))
  | click =>
    simp only [play, click] at h
    split_ifs at h with hl
    · obtain rfl := Except.ok.inj h
      exact hreq g
    · unfold shoot at h
      split_ifs at h with h1 h2
      · cases hr : g.redPaintModelTemplate with
        | none =>
          rw [hr] at h
          exact Except.noConfusion h
        | some m =>
          rw [hr] at h
          obtain rfl := Except.ok.inj h
          exact hfields g _ _ g.cameraPosition g.cameraDirection _
      · obtain rfl := Except.ok.inj h
        exact hfields g _ _ g.cameraPosition g.cameraDirection _
      · obtain rfl := Except.ok.inj h
        exact hrefl _
  | mousemove dx dy =>
    obtain rfl := Except.ok.inj h
    exact hmove g dx dy
  | pointerlockchange b =>
    obtain rfl := Except.ok.inj h
    exact hlock g b

theorem playAll_rel (R : Game → Game → Prop) (hrefl : ∀ g, R g g)
    (htrans : ∀ a b c, R a b → R b c → R a c)
    (hplay : ∀ (g : Game) (e : Event) (g' : Game), play g e = .ok g' → R g g') :
    ∀ (evs : List Event) (g g' : Game), playAll g evs = .ok g' → R g g'
  | [], g, g', h => by
    obtain rfl := Except.ok.inj h
    exact hrefl _
  | e :: rest, g, g', h => by
    unfold playAll at h
    cases h1 : play g e with
    | error err =>
      rw [h1] at h
      exact Except.noConfusion h
    | ok g1 =>
      rw [h1] at h
      exact htrans _ _ _ (hplay g e g1 h1) (playAll_rel R hrefl htrans hplay rest g1 g' h)

/-! ## Mouse look -/

theorem mathPI_nonneg : -mathPI / 2 ≤ mathPI / 2 := by
  unfold mathPI
  norm_num

theorem mathPI_le_pi : ((mathPI : ℚ) : ℝ) ≤ Real.pi := by
  have h := Real.pi_gt_d20
  unfold mathPI
  push_cast
  norm_num at h ⊢
  linarith

theorem mousemove_pitch (g : Game) (dx dy : ℚ) (h : PitchInRange g) :
    PitchInRange (mousemove g dx dy) := by
  unfold mousemove
  split_ifs with hl
  · exact ⟨le_max_left _ _, max_le mathPI_nonneg (min_le_left _ _)⟩
  · exact h

/-- C20: after every sequence of events from the start of the session the pitch `mouseY` lies
between `-Math.PI / 2` and `Math.PI / 2`, hence between -π/2 and π/2; a mouse move with the
pointer not locked changes nothing, and one with the pointer locked adds 0.002 times the
movement to `mouseX` and to `mouseY` and then clamps `mouseY`. -/
theorem pitch_stays_clamped (evs : List Event) (g : Game)
    (h : playAll initialGame evs = .ok g) :
    (-mathPI / 2 ≤ g.mouseY ∧ g.mouseY ≤ mathPI / 2) ∧
      (-Real.pi / 2 ≤ (g.mouseY : ℝ) ∧ (g.mouseY : ℝ) ≤ Real.pi / 2) ∧
      (∀ dx dy : ℚ, g.isPointerLocked = false → mousemove g dx dy = g) ∧
      (∀ dx dy : ℚ, g.isPointerLocked = true →
        (mousemove g dx dy).mouseX = g.mouseX + dx * (1 / 500) ∧
        (mousemove g dx dy).mouseY =
          max (-mathPI / 2) (min (mathPI / 2) (g.mouseY + dy * (1 / 500)))) := by
  have hkeep : ∀ (a : Game) (e : Event) (b : Game), play a e = .ok b →
      (PitchInRange a → PitchInRange b) := by
    refine play_rel (fun a b => PitchInRange a → PitchInRange b) (fun _ h => h)
      (fun _ _ _ h1 h2 h => h2 (h1 h)) ?_ (fun _ _ _ _ _ _ h => h) ?_ (fun _ h => h)
      (fun a dx dy h => mousemove_pitch a dx dy h) (fun _ _ h => h)
    · intro a b hit color now hs hp
      have := (createPaintSplash_pointer hs).2.2.1
      exact ⟨by rw [this]; exact hp.1, by rw [this]; exact hp.2⟩
    · intro dt clock a i b hd hp
      rcases doorTick_cases hd with rfl | ⟨mixer, bodies, _, rfl⟩
      · exact hp
      · exact hp
  have hrange : PitchInRange g :=
    playAll_rel (fun a b => PitchInRange a → PitchInRange b) (fun _ h => h)
      (fun _ _ _ h1 h2 h => h2 (h1 h)) hkeep evs initialGame g h
      ⟨by show -mathPI / 2 ≤ (0 : ℚ); unfold mathPI; norm_num,
        by show (0 : ℚ) ≤ mathPI / 2; unfold mathPI; norm_num⟩
  refine ⟨hrange, ?_, ?_, ?_⟩
  · have h1 : ((-mathPI / 2 : ℚ) : ℝ) ≤ (g.mouseY : ℝ) := by exact_mod_cast hrange.1
    have h2 : (g.mouseY : ℝ) ≤ ((mathPI / 2 : ℚ) : ℝ) := by exact_mod_cast hrange.2
    have hpi := mathPI_le_pi
    push_cast at h1 h2
    constructor <;> linarith
  · intro dx dy hl
    unfold mousemove
    rw [if_neg]
    rw [hl]
    exact Bool.noConfusion
  · intro dx dy hl
    unfold mousemove
    rw [if_pos hl]
    exact ⟨rfl, rfl⟩

/-- C20 at a concrete input: the pointer gets locked, then the mouse moves far down and far
up. -/
theorem pitch_stays_clamped_witness :
    playAll initialGame
        [.pointerlockchange true, .mousemove 10 2000, .mousemove 0 (-5000)] =
      .ok (mousemove (mousemove (pointerlockchange initialGame true) 10 2000) 0 (-5000)) ∧
    PitchInRange (mousemove (mousemove (pointerlockchange initialGame true) 10 2000) 0 (-5000)) :=
  ⟨rfl, (pitch_stays_clamped
    [.pointerlockchange true, .mousemove 10 2000, .mousemove 0 (-5000)] _ rfl).1⟩

/-! ## No way back -/

theorem arraySet_getElem?_general {α : Type} (xs : List (Option α)) (i k : Nat) (v : α) :
    (arraySet xs i v)[k]? =
      if k = i then some (some v)
      else if k < xs.length then xs[k]?
      else if k < i then some none else none := by
  unfold arraySet
  by_cases hi : i < xs.length
  · rw [if_pos hi, List.getElem?_set]
    by_cases hk : k = i
    · subst hk
      simp [hi]
    · have hne : ¬ i = k := fun e => hk e.symm
      rw [if_neg hne, if_neg hk]
      by_cases hkl : k < xs.length
      · rw [if_pos hkl]
      · rw [if_neg hkl, if_neg (by omega)]
        exact List.getElem?_eq_none (by omega)
  · rw [if_neg hi]
    by_cases hk : k = i
    · subst hk
      rw [if_pos rfl, List.getElem?_append_right (by simp; omega)]
      have h0 : k - (xs ++ List.replicate (k - xs.length) none).length = 0 := by simp; omega
      rw [h0]
      rfl
    · rw [if_neg hk]
      by_cases hkl : k < xs.length
      · rw [if_pos hkl, List.append_assoc, List.getElem?_append_left hkl]
      · rw [if_neg hkl]
        by_cases hki : k < i
        · rw [if_pos hki, List.getElem?_append_left (by simp; omega),
            List.getElem?_append_right (by omega), List.getElem?_replicate]
          rw [if_pos (by omega)]
        · rw [if_neg hki]
          exact List.getElem?_eq_none (by simp; omega)

theorem arraySet_keeps {α : Type} (xs : List (Option α)) (i k : Nat) (v m : α)
    (h : xs[k]? = some (some m)) : ∃ m', (arraySet xs i v)[k]? = some (some m') := by
  rw [arraySet_getElem?_general]
  have hk : k < xs.length := (List.getElem?_eq_some.mp h).1
  by_cases hki : k = i
  · exact ⟨v, by rw [if_pos hki]⟩
  · exact ⟨m, by rw [if_neg hki, if_pos hk]; exact h⟩

theorem arraySet_of_ne {α : Type} (xs : List (Option α)) (i k : Nat) (v m : α) (hki : k ≠ i)
    (h : (arraySet xs i v)[k]? = some (some m)) : xs[k]? = some (some m) := by
  rw [arraySet_getElem?_general, if_neg hki] at h
  split_ifs at h with h1 h2
  · exact h
  · simp at h

theorem noReverse_refl (g : Game) : NoReverse g g :=
  ⟨fun _ t h hu => ⟨t, h, hu⟩, fun _ m h => ⟨m, h⟩, fun _ s h => ⟨s, h⟩⟩

theorem noReverse_trans (a b c : Game) (h1 : NoReverse a b) (h2 : NoReverse b c) :
    NoReverse a c := by
  refine ⟨?_, ?_, ?_⟩
  · intro j t ht hu
    obtain ⟨t1, ht1, hu1⟩ := h1.1 j t ht hu
    exact h2.1 j t1 ht1 hu1
  · intro i m hm
    obtain ⟨m1, hm1⟩ := h1.2.1 i m hm
    exact h2.2.1 i m1 hm1
  · intro i s hs
    obtain ⟨s1, hs1⟩ := h1.2.2 i s hs
    exact h2.2.2 i s1 hs1

theorem noReverse_splash (g g' : Game) (hit : Intersection) (color : String) (now : ℚ)
    (h : createPaintSplash g hit color now = .ok g') : NoReverse g g' := by
  refine ⟨?_, ?_, ?_⟩
  · intro j t ht hu
    obtain ⟨hyes, hno⟩ := step_target h ht
    by_cases hsc : FirstStruck g hit.object j t ∧ color = t.requiredColor
    · exact ⟨_, hyes hsc, by rw [scored_unlocked, hu]; rfl⟩
    · exact ⟨t, hno hsc, hu⟩
  · intro i m hm
    rcases step_doors h with ⟨e, _, _⟩ | ⟨j, t, _, _, _, _, _, e, _, _⟩
    · exact ⟨m, by rw [e]; exact hm⟩
    · rw [e]
      exact arraySet_keeps _ _ _ _ _ hm
  · intro i s hs
    rcases step_doors h with ⟨_, e, _⟩ | ⟨j, t, _, _, _, _, _, _, e, _⟩
    · exact ⟨s, by rw [e]; exact hs⟩
    · rw [e]
      exact arraySet_keeps _ _ _ _ _ hs

theorem noReverse_doorTick (dt clock : ℚ) (g : Game) (i : Nat) (g' : Game)
    (h : doorTick dt clock g i = .ok g') : NoReverse g g' := by
  rcases doorTick_cases h with rfl | ⟨mixer, bodies, hm, rfl⟩
  · exact noReverse_refl _
  · refine ⟨fun _ t h hu => ⟨t, h, hu⟩, ?_, fun _ s h => ⟨s, h⟩⟩
    intro k m hk
    show ∃ m', (g.doorMixers.set i (some (mixer.update dt)))[k]? = some (some m')
    rw [List.getElem?_set]
    by_cases hik : i = k
    · have hi : i < g.doorMixers.length := (List.getElem?_eq_some.mp hm).1
      exact ⟨_, by rw [if_pos hik, if_pos hi]⟩
    · exact ⟨m, by rw [if_neg hik]; exact hk⟩

theorem mixersStarted_splash (g g' : Game) (hit : Intersection) (color : String) (now : ℚ)
    (h : createPaintSplash g hit color now = .ok g') (hs : MixersStarted g) :
    MixersStarted g' := by
  intro i m hm
  rcases step_doors h with ⟨e1, e2, _⟩ | ⟨j, t, _, _, _, _, _, e1, e2, _⟩
  · rw [e2]
    rw [e1] at hm
    exact hs i m hm
  · rw [e2]
    rw [e1] at hm
    by_cases hi : i = t.doorIndex
    · exact ⟨now, by rw [arraySet_getElem?_general, if_pos hi]⟩
    · obtain ⟨s, hs'⟩ := hs i m (arraySet_of_ne _ _ _ _ _ hi hm)
      exact arraySet_keeps _ _ _ _ _ hs'

theorem mixersStarted_doorTick (dt clock : ℚ) (g : Game) (i : Nat) (g' : Game)
    (h : doorTick dt clock g i = .ok g') (hs : MixersStarted g) : MixersStarted g' := by
  rcases doorTick_cases h with rfl | ⟨mixer, bodies, hm, rfl⟩
  · exact hs
  · intro k m hk
    have hk' : (g.doorMixers.set i (some (mixer.update dt)))[k]? = some (some m) := hk
    rw [List.getElem?_set] at hk'
    by_cases hik : i = k
    · subst hik
      exact hs i mixer hm
    · rw [if_neg hik] at hk'
      exact hs k m hk'

/-- C17: take any state reached from the start of the session by splashes, frames of `animate`,
clicks and mouse events, and any state reached from it by more of them.  A target unlocked in
the first is unlocked in the second, and a door with a mixer in the first has a mixer and an
animation start time in the second. -/
theorem no_reverse_transition (evs1 evs2 : List Event) (g1 g2 : Game)
    (h1 : playAll initialGame evs1 = .ok g1) (h2 : playAll g1 evs2 = .ok g2) :
    (∀ (j : Nat) (t : Target), g1.mainObjects[j]? = some t → t.unlocked = true →
        ∃ t' : Target, g2.mainObjects[j]? = some t' ∧ t'.unlocked = true) ∧
      (∀ (i : Nat) (m : Mixer), g1.doorMixers[i]? = some (some m) →
        (∃ m' : Mixer, g2.doorMixers[i]? = some (some m')) ∧
          ∃ s : ℚ, g2.doorAnimStart[i]? = some (some s)) := by
  have hplay : ∀ (a : Game) (e : Event) (b : Game), play a e = .ok b → NoReverse a b :=
    play_rel NoReverse noReverse_refl noReverse_trans noReverse_splash
      (fun a _ _ _ _ _ => ⟨fun _ t h hu => ⟨t, h, hu⟩, fun _ m h => ⟨m, h⟩, fun _ s h => ⟨s, h⟩⟩)
      noReverse_doorTick
      (fun a => ⟨fun _ t h hu => ⟨t, h, hu⟩, fun _ m h => ⟨m, h⟩, fun _ s h => ⟨s, h⟩⟩)
      (fun a dx dy => by
        unfold mousemove
        split_ifs
        · exact ⟨fun _ t h hu => ⟨t, h, hu⟩, fun _ m h => ⟨m, h⟩, fun _ s h => ⟨s, h⟩⟩
        · exact noReverse_refl a)
      (fun a _ => ⟨fun _ t h hu => ⟨t, h, hu⟩, fun _ m h => ⟨m, h⟩, fun _ s h => ⟨s, h⟩⟩)
  have hstart : ∀ (a : Game) (e : Event) (b : Game), play a e = .ok b →
      (MixersStarted a → MixersStarted b) :=
    play_rel (fun a b => MixersStarted a → MixersStarted b) (fun _ h => h)
      (fun _ _ _ h1 h2 h => h2 (h1 h))
      (fun a b hit color now hs => mixersStarted_splash a b hit color now hs)
      (fun _ _ _ _ _ _ h => h)
      (fun dt clock a i b hd => mixersStarted_doorTick dt clock a i b hd)
      (fun _ h => h)
      (fun a dx dy h => by
        unfold mousemove
        split_ifs
        · exact h
        · exact h)
      (fun _ _ h => h)
  have hnr : NoReverse g1 g2 := playAll_rel NoReverse noReverse_refl noReverse_trans hplay evs2 g1 g2 h2
  have hs0 : MixersStarted initialGame := by
    intro i m hm
    have hm' : ([none, none, none] : List (Option Mixer))[i]? = some (some m) := hm
    rcases i with _ | _ | _ | i <;> simp at hm'
  have hs1 : MixersStarted g1 :=
    playAll_rel (fun a b => MixersStarted a → MixersStarted b) (fun _ h => h)
      (fun _ _ _ h1 h2 h => h2 (h1 h)) hstart evs1 initialGame g1 h1 hs0
  have hs2 : MixersStarted g2 :=
    playAll_rel (fun a b => MixersStarted a → MixersStarted b) (fun _ h => h)
      (fun _ _ _ h1 h2 h => h2 (h1 h)) hstart evs2 g1 g2 h2 hs1
  refine ⟨hnr.1, ?_⟩
  intro i m hm
  obtain ⟨m', hm'⟩ := hnr.2.1 i m hm
  exact ⟨⟨m', hm'⟩, hs2 i m' hm'⟩

/-- C17 at a concrete input: the first door is opened by three red splashes on the first target,
then a frame, a pointer lock and a mouse move follow. -/
theorem no_reverse_transition_witness :
    playAll initialGame openingEvents = .ok (afterEvents initialGame openingEvents) ∧
    playAll (afterEvents initialGame openingEvents) laterEvents =
      .ok (afterEvents (afterEvents initialGame openingEvents) laterEvents) ∧
    (afterEvents initialGame openingEvents).mainObjects.map Target.unlocked =
      [true, false, false, false, false] ∧
    (afterEvents initialGame openingEvents).doorMixers.map Option.isSome =
      [true, false, false] ∧
    (∀ (j : Nat) (t : Target),
        (afterEvents initialGame openingEvents).mainObjects[j]? = some t → t.unlocked = true →
        ∃ t' : Target,
          (afterEvents (afterEvents initialGame openingEvents) laterEvents).mainObjects[j]?
            = some t' ∧ t'.unlocked = true) ∧
    (∀ (i : Nat) (m : Mixer),
        (afterEvents initialGame openingEvents).doorMixers[i]? = some (some m) →
        (∃ m' : Mixer,
          (afterEvents (afterEvents initialGame openingEvents) laterEvents).doorMixers[i]?
            = some (some m')) ∧
        ∃ s : ℚ,
          (afterEvents (afterEvents initialGame openingEvents) laterEvents).doorAnimStart[i]?
            = some (some s)) :=
  ⟨rfl, rfl, by decide, by decide,
    no_reverse_transition openingEvents laterEvents _ _ rfl rfl⟩

/-! ## The height pushed into the kinematic body of an opening door -/

/-- For a non-negative time the height formula of the door loop, `min (2 + t * 2) 6`, is the
`doorOpen` track of a door resting at height 2. -/
theorem doorTrack_wall (t : ℚ) (ht : 0 ≤ t) : min (2 + t * 2) 6 = doorTrack 2 t := by
  unfold doorTrack
  split_ifs with h0 h1 h2
  · have : t = 0 := le_antisymm h0 ht
    subst this; norm_num
  · rw [min_eq_left (by linarith)]; ring
  · rw [min_eq_left (by linarith)]; ring
  · rw [min_eq_right (by linarith)]; ring

/-- C18, counterexample: in the frame in which the third red splash opens the first door, the
mixer has accumulated the frame time 1/60 s, so the mesh stands at the track height 61/30, while
1 ms of wall clock has passed since `openDoor`, so the height pushed into the kinematic body is
1001/500. -/
theorem body_height_differs_from_mesh_height :
    (playAll loadedGame firstOpeningFrame).toOption.map
        (fun g => (g.doorMixers.map (Option.map Mixer.time), g.doorAnimStart,
          g.doors.map (fun d => d.position.y), g.doorBodies.map (fun b => b.y)))
      = some ([some (1 / 60), none, none], [some 5000, none, none],
          [61 / 30, 2, 2], [1001 / 500, 2, 2]) ∧
    doorTrack 2 (1 / 60) = 61 / 30 ∧ doorTrack 2 ((5001 - 5000) / 1000) = 1001 / 500 := by
  decide!

/-- C18, amended: for a door that is opening (mixer and start time set, the mixer animating this
door) one tick of the door loop succeeds, moves the mesh to the `doorOpen` track evaluated at the
mixer's accumulated time, and pushes into the kinematic body the track of a door resting at
height 2 evaluated at the wall-clock seconds since `openDoor`; the two heights agree when the door
rested at height 2 and the two clocks agree. -/
theorem kinematic_height_follows_wall_clock (deltaTime clock : ℚ) (g : Game) (i : Nat)
    (mixer : Mixer) (start : ℚ) (door : Door) (body : Vec3)
    (hm : g.doorMixers[i]? = some (some mixer))
    (hs : g.doorAnimStart[i]? = some (some start))
    (hroot : mixer.root = i)
    (hd : g.doors[i]? = some door)
    (hb : g.doorBodies[i]? = some body)
    (hclock : start ≤ clock) :
    ∃ (g' : Game) (door' : Door) (body' : Vec3),
      doorTick deltaTime clock g i = .ok g' ∧
      g'.doors[i]? = some door' ∧ g'.doorBodies[i]? = some body' ∧
      door'.position.y = doorTrack mixer.base.y (mixer.time + deltaTime) ∧
      body'.y = doorTrack 2 ((clock - start) / 1000) ∧
      (mixer.base.y = 2 → mixer.time + deltaTime = (clock - start) / 1000 →
        body'.y = door'.position.y) := by
  have hi : i < g.doors.length := by
    rcases List.getElem?_eq_some.1 hd with ⟨h, -⟩; exact h
  have hbi : i < g.doorBodies.length := by
    rcases List.getElem?_eq_some.1 hb with ⟨h, -⟩; exact h
  have he : 0 ≤ (clock - start) / 1000 := by
    apply div_nonneg <;> linarith
  have hrun : doorTick deltaTime clock g i = .ok
      { g with
        doorMixers := g.doorMixers.set i (some (mixer.update deltaTime))
        doors := g.doors.set i ⟨(mixer.update deltaTime).position⟩
        doorBodies := g.doorBodies.set i
          ⟨(mixer.update deltaTime).position.x, min (2 + (clock - start) / 1000 * 2) 6,
            (mixer.update deltaTime).position.z⟩ } := by
    unfold doorTick
    rw [hm]
    simp only [hs, hroot, List.getElem?_set_self hi, List.getElem?_eq_getElem hbi]
  refine ⟨_, ⟨(mixer.update deltaTime).position⟩,
    ⟨(mixer.update deltaTime).position.x, min (2 + (clock - start) / 1000 * 2) 6,
      (mixer.update deltaTime).position.z⟩, hrun, ?_, ?_, ?_, ?_, ?_⟩
  · simp [hi]
  · simp [hbi]
  · simp [Mixer.position, Mixer.update]
  · exact doorTrack_wall _ he
  · intro h2 ht
    simp only [Mixer.position, Mixer.update]
    rw [doorTrack_wall _ he, h2, ht]

/-- The amended C18 statement at the first door, one second after three red splashes opened
it. -/
theorem kinematic_height_follows_wall_clock_witness :
    (afterEvents initialGame openingEvents).doorMixers[0]?
        = some (some ⟨0, 0, ⟨-20, 2, 0⟩⟩) ∧
    (afterEvents initialGame openingEvents).doorAnimStart[0]? = some (some 0) ∧
    (0 : ℚ) ≤ 1000 ∧
    ∃ (g' : Game) (door' : Door) (body' : Vec3),
      doorTick (1 / 60) 1000 (afterEvents initialGame openingEvents) 0 = .ok g' ∧
      g'.doors[0]? = some door' ∧ g'.doorBodies[0]? = some body' ∧
      door'.position.y = doorTrack 2 (0 + 1 / 60) ∧
      body'.y = doorTrack 2 ((1000 - 0) / 1000) ∧
      ((2 : ℚ) = 2 → (0 : ℚ) + 1 / 60 = (1000 - 0) / 1000 → body'.y = door'.position.y) :=
  ⟨rfl, rfl, by norm_num,
    kinematic_height_follows_wall_clock (1 / 60) 1000 (afterEvents initialGame openingEvents) 0
      ⟨0, 0, ⟨-20, 2, 0⟩⟩ 0 ⟨⟨-20, 2, 0⟩⟩ ⟨-20, 2, 0⟩ rfl rfl rfl rfl rfl (by norm_num)⟩

/-! ## One splash changes one target and opens one door at most -/

/-- C29: on a state whose targets name existing doors, a call of `createPaintSplash` returns
normally and keeps the number of targets; a target whose `hitCount` differs afterwards is the
first target whose mesh is the struck object, its colour is the splash colour and its count has
gone up by exactly one, so two targets whose counts differ are the same target; every other
target is left as it was; and the calls of `openDoor` are those made before, followed by none
or by a single one. -/
theorem splash_touches_one_target_one_door (g : Game) (hit : Intersection) (color : String)
    (now : ℚ) (hd : DoorsOk g) :
    ∃ g' : Game, createPaintSplash g hit color now = .ok g' ∧
      g'.mainObjects.length = g.mainObjects.length ∧
      (∀ (j : Nat) (t t' : Target), g.mainObjects[j]? = some t → g'.mainObjects[j]? = some t' →
        t'.hitCount ≠ t.hitCount →
        FirstStruck g hit.object j t ∧ color = t.requiredColor ∧
          t'.hitCount = t.hitCount + 1) ∧
      (∀ (j k : Nat) (t t' u u' : Target),
        g.mainObjects[j]? = some t → g'.mainObjects[j]? = some t' →
        g.mainObjects[k]? = some u → g'.mainObjects[k]? = some u' →
        t'.hitCount ≠ t.hitCount → u'.hitCount ≠ u.hitCount → j = k) ∧
      (∀ (j : Nat) (t : Target), g.mainObjects[j]? = some t →
        ¬ FirstStruck g hit.object j t → g'.mainObjects[j]? = some t) ∧
      (g'.openDoorCalls = g.openDoorCalls ∨
        ∃ i : Nat, g'.openDoorCalls = g.openDoorCalls ++ [i]) ∧
      (g'.openDoorCalls.length ≤ g.openDoorCalls.length + 1) := by
  obtain ⟨g', h, -⟩ := splash_ok hd hit color now
  have hchange : ∀ (j : Nat) (t t' : Target), g.mainObjects[j]? = some t →
      g'.mainObjects[j]? = some t' → t'.hitCount ≠ t.hitCount →
      FirstStruck g hit.object j t ∧ color = t.requiredColor ∧
        t'.hitCount = t.hitCount + 1 := by
    intro j t t' hj hj' hne
    obtain ⟨hyes, hno⟩ := step_target h hj
    by_cases hc : FirstStruck g hit.object j t ∧ color = t.requiredColor
    · refine ⟨hc.1, hc.2, ?_⟩
      have := hyes hc
      rw [hj'] at this
      rw [Option.some.inj this]
      exact scored_hitCount t color
    · have := hno hc
      rw [hj'] at this
      rw [Option.some.inj this] at hne
      exact absurd rfl hne
  have hdoor := step_doors h
  have hcalls : g'.openDoorCalls = g.openDoorCalls ∨
      ∃ i : Nat, g'.openDoorCalls = g.openDoorCalls ++ [i] := by
    rcases hdoor with ⟨-, -, h3⟩ | ⟨j, t, -, -, -, -, -, -, -, h3⟩
    · exact Or.inl h3
    · exact Or.inr ⟨_, h3⟩
  refine ⟨g', h, ?_, hchange, ?_, ?_, hcalls, ?_⟩
  · have hstep := createPaintSplash_step g hit color now
    rw [h] at hstep
    generalize hr : (Except.ok g' : Except String Game) = r at hstep
    cases hstep with
    | ignored hno =>
      have hg := Except.ok.inj hr
      subst hg
      rfl
    | counted j0 t0 hf hc hu =>
      have hg := Except.ok.inj hr
      subst hg
      simp [addSplash]
    | unlocked j0 t0 hf hc h3 hl hall =>
      have hg := Except.ok.inj hr
      subst hg
      simp [addSplash]
    | opened j0 t0 hf hc h3 hl hall =>
      have hg := openDoor_fields hr.symm
      subst hg
      simp [addSplash]
  · intro j k t t' u u' hj hj' hk hk' hne1 hne2
    exact (firstStruck_unique (hchange j t t' hj hj' hne1).1 (hchange k u u' hk hk' hne2).1).1
  · intro j t hj hnf
    exact (step_target h hj).2 (fun hc => hnf hc.1)
  · rcases hcalls with h3 | ⟨i, h3⟩ <;> rw [h3] <;> simp

/-- C29 on the level at its start, for a red splash on the first target. -/
theorem splash_touches_one_target_one_door_witness :
    DoorsOk initialGame ∧
    ∃ g' : Game, createPaintSplash initialGame (splashOn 0 "red").hit "red" 0 = .ok g' ∧
      g'.mainObjects.length = initialGame.mainObjects.length ∧
      (∀ (j : Nat) (t t' : Target), initialGame.mainObjects[j]? = some t →
        g'.mainObjects[j]? = some t' → t'.hitCount ≠ t.hitCount →
        FirstStruck initialGame (splashOn 0 "red").hit.object j t ∧ "red" = t.requiredColor ∧
          t'.hitCount = t.hitCount + 1) ∧
      (∀ (j k : Nat) (t t' u u' : Target),
        initialGame.mainObjects[j]? = some t → g'.mainObjects[j]? = some t' →
        initialGame.mainObjects[k]? = some u → g'.mainObjects[k]? = some u' →
        t'.hitCount ≠ t.hitCount → u'.hitCount ≠ u.hitCount → j = k) ∧
      (∀ (j : Nat) (t : Target), initialGame.mainObjects[j]? = some t →
        ¬ FirstStruck initialGame (splashOn 0 "red").hit.object j t →
        g'.mainObjects[j]? = some t) ∧
      (g'.openDoorCalls = initialGame.openDoorCalls ∨
        ∃ i : Nat, g'.openDoorCalls = initialGame.openDoorCalls ++ [i]) ∧
      (g'.openDoorCalls.length ≤ initialGame.openDoorCalls.length + 1) :=
  ⟨doorsOk_initialGame,
    splash_touches_one_target_one_door initialGame (splashOn 0 "red").hit "red" 0
      doorsOk_initialGame⟩

/-! ## The height formula of the door loop -/

/-- C27: the height `min (2 + 2 t, 6)` is the one `animate` pushes into the body of an opening
door; it does not decrease with `t`, lies between 2 and 6 for `t ≥ 0`, is 6 for `t ≥ 2`, and for
`t ≥ 0` is the `doorOpen` track of a door resting at height 2, which every door of the level
table does. -/
theorem doorHeight_monotone_bounded_and_on_track :
    (∀ (deltaTime clock : ℚ) (g g' : Game) (i : Nat) (mixer : Mixer) (start : ℚ),
      g.doorMixers[i]? = some (some mixer) → g.doorAnimStart[i]? = some (some start) →
      doorTick deltaTime clock g i = .ok g' →
      ∃ body : Vec3, g'.doorBodies[i]? = some body ∧
        body.y = doorHeight ((clock - start) / 1000)) ∧
    (∀ s t : ℚ, s ≤ t → doorHeight s ≤ doorHeight t) ∧
    (∀ t : ℚ, 0 ≤ t → 2 ≤ doorHeight t ∧ doorHeight t ≤ 6) ∧
    (∀ t : ℚ, 2 ≤ t → doorHeight t = 6) ∧
    (∀ t : ℚ, 0 ≤ t → doorHeight t = doorTrack 2 t) ∧
    (∀ t : ℚ, 0 ≤ t → t ≤ 1 → doorTrack 2 t = 2 + 2 * t) ∧
    (∀ t : ℚ, 1 ≤ t → t ≤ 2 → doorTrack 2 t = 4 + 2 * (t - 1)) ∧
    (∀ t : ℚ, 2 ≤ t → doorTrack 2 t = 6) ∧
    (∀ d ∈ levelDoors, d.position.y = 2) ∧
    (∀ d ∈ levelDoors, ∀ t : ℚ, 0 ≤ t → doorHeight t = doorTrack d.position.y t) ∧
    doorHeight 0 = 2 ∧ doorHeight (1 / 2) = 3 ∧ doorHeight 1 = 4 ∧ doorHeight 2 = 6 ∧
    doorHeight 3 = 6 := by
  have hy : ∀ d ∈ levelDoors, d.position.y = 2 := by decide
  refine ⟨?_, ?_, ?_, ?_, fun t ht => doorTrack_wall t ht, ?_, ?_, ?_, hy, ?_,
    by decide!, by decide!, by decide!, by decide!, by decide!⟩
  · intro dt clock g g' i mixer start hm hs h
    unfold doorTick at h
    rw [hm] at h
    simp only [hs] at h
    split at h
    · obtain rfl := Except.ok.inj h
      rename_i door b hdoor hbody
      have hb : i < g.doorBodies.length := by
        rcases List.getElem?_eq_some.1 hbody with ⟨hh, -⟩
        exact hh
      refine ⟨⟨door.position.x, min (2 + (clock - start) / 1000 * 2) 6, door.position.z⟩, ?_, rfl⟩
      show (g.doorBodies.set i _)[i]? = _
      rw [List.getElem?_set_self hb]
    · exact Except.noConfusion h
  · intro s t hst
    unfold doorHeight
    exact min_le_min (by linarith) (le_refl _)
  · intro t ht
    unfold doorHeight
    exact ⟨le_min (by linarith) (by norm_num), min_le_right _ _⟩
  · intro t ht
    unfold doorHeight
    exact min_eq_right (by linarith)
  · intro t h0 h1
    unfold doorTrack
    split_ifs with h
    · have : t = 0 := le_antisymm h h0
      subst this; norm_num
    · ring
  · intro t h1 h2
    unfold doorTrack
    split_ifs with ha hb
    · linarith
    · have : t = 1 := le_antisymm hb h1
      subst this; norm_num
    · ring
  · intro t h2
    unfold doorTrack
    split_ifs with ha hb hc
    · linarith
    · linarith
    · have : t = 2 := le_antisymm hc h2
      subst this; norm_num
    · norm_num
  · intro d hd t ht
    rw [hy d hd]
    exact doorTrack_wall t ht

/-! ## The projectile loop is a filter -/

theorem openDoor_withPaint (g : Game) (L : List Projectile) (i : Nat) (now : ℚ) :
    openDoor (withPaint g L) i now = (openDoor g i now).map (fun g2 => withPaint g2 L) := by
  unfold openDoor withPaint
  cases g.doors[i]? <;> rfl

theorem scoreHit_withPaint (g : Game) (L : List Projectile) (i : Nat) (obj : Target)
    (color : String) (now : ℚ) :
    scoreHit (withPaint g L) i obj color now
      = (scoreHit g i obj color now).map (fun g2 => withPaint g2 L) := by
  unfold scoreHit withPaint
  dsimp only
  split_ifs
  · unfold openDoor
    dsimp only
    cases g.doors[obj.doorIndex]? <;> rfl
  · rfl
  · rfl
  · rfl

theorem scoreLoop_withPaint (g : Game) (L : List Projectile) (o : Nat) (color : String)
    (now : ℚ) : ∀ (rest : List Target) (i : Nat),
    scoreLoop (withPaint g L) o color now rest i
      = (scoreLoop g o color now rest i).map (fun g2 => withPaint g2 L)
  | [], _ => rfl
  | obj :: rest, i => by
    unfold scoreLoop
    split_ifs
    · exact scoreHit_withPaint g L i obj color now
    · exact scoreLoop_withPaint g L o color now rest (i + 1)

theorem createPaintSplash_withPaint (g : Game) (L : List Projectile) (hit : Intersection)
    (color : String) (now : ℚ) :
    createPaintSplash (withPaint g L) hit color now
      = (createPaintSplash g hit color now).map (fun g2 => withPaint g2 L) := by
  unfold createPaintSplash
  exact scoreLoop_withPaint (addSplash g hit color) L hit.object color now _ 0

theorem withPaint_self (g : Game) : withPaint g g.paintProjectiles = g := rfl

theorem projectileStep_visit (rc : List Decal → Vec3 → Vec3 → List Intersection) (dt now : ℚ)
    (g : Game) (pre suf : List Projectile) (p : Projectile)
    (hl : g.paintProjectiles = pre ++ p :: suf) :
    projectileStep rc dt now g pre.length
      = (visit rc dt now p (withPaint g suf)).map
          (fun g2 => withPaint g2 (pre ++ g2.paintProjectiles)) := by
  unfold projectileStep visit
  rw [hl, getElem?_append_cons]
  simp only [set_append_cons]
  have hdec : (withPaint g suf).decals = g.decals := rfl
  rw [hdec]
  cases hs : (tickPaint (rc g.decals) dt p).splash with
  | some hit =>
    dsimp only
    have h1 := createPaintSplash_withPaint g (pre ++ (tickPaint (rc g.decals) dt p).paint :: suf)
      hit (tickPaint (rc g.decals) dt p).paint.color now
    have h2 := createPaintSplash_withPaint g suf hit (tickPaint (rc g.decals) dt p).paint.color now
    unfold withPaint at h1 h2
    rw [h1]
    unfold withPaint
    rw [h2]
    cases createPaintSplash g hit (tickPaint (rc g.decals) dt p).paint.color now with
    | error e => rfl
    | ok g2 =>
      show Except.ok (removeProjectile _ _ _) = Except.ok _
      unfold removeProjectile
      simp only [eraseIdx_append_cons]
  | none =>
    dsimp only
    cases hr : (tickPaint (rc g.decals) dt p).removed with
    | true =>
      simp only [if_true]
      show Except.ok (removeProjectile _ _ _) = Except.ok _
      unfold removeProjectile withPaint
      simp only [eraseIdx_append_cons]
    | false =>
      simp only [Bool.false_eq_true, if_false]
      rfl

theorem filterFrom_append (rc : List Decal → Vec3 → Vec3 → List Intersection) (dt : ℚ)
    (now : Nat → ℚ) : ∀ (B1 B2 : List Projectile) (i : Nat) (g : Game),
    filterFrom rc dt now i (B1 ++ B2) g =
      match filterFrom rc dt now (i + B1.length) B2 g with
      | .error e => .error e
      | .ok g1 => filterFrom rc dt now i B1 g1
  | [], B2, i, g => by
    simp only [List.nil_append, List.length_nil, Nat.add_zero]
    cases filterFrom rc dt now i B2 g <;> rfl
  | p :: B1, B2, i, g => by
    have ih := filterFrom_append rc dt now B1 B2 (i + 1) g
    have e : i + 1 + B1.length = i + (p :: B1).length := by simp; omega
    rw [e] at ih
    show (match filterFrom rc dt now (i + 1) (B1 ++ B2) g with
      | Except.error e => Except.error e
      | Except.ok g1 => visit rc dt (now i) p g1) = _
    rw [ih]
    cases filterFrom rc dt now (i + (p :: B1).length) B2 g <;> rfl

theorem paintLoop_filter (rc : List Decal → Vec3 → Vec3 → List Intersection) (dt : ℚ)
    (now : Nat → ℚ) (B : List Projectile) : ∀ (A C : List Projectile) (g : Game),
      g.paintProjectiles = A ++ B ++ C →
      paintLoop rc dt now A.length (A.length + B.length) g
        = (filterFrom rc dt now A.length B (withPaint g C)).map
            (fun g2 => withPaint g2 (A ++ g2.paintProjectiles)) := by
  induction B using List.reverseRecOn with
  | nil =>
    intro A C g hl
    simp only [List.length_nil, Nat.add_zero, paintLoop_self, filterFrom]
    show Except.ok g = Except.ok (withPaint g (A ++ C))
    rw [← withPaint_self g, hl]
    simp [withPaint]
  | append_singleton B' p ih =>
    intro A C g hl
    have hl' : g.paintProjectiles = (A ++ B') ++ p :: C := by simp [hl]
    have hlen : A.length + (B' ++ [p]).length = (A ++ B').length + 1 := by simp; omega
    have hlo : A.length ≤ (A ++ B').length := by simp
    rw [hlen, paintLoop_succ rc dt now hlo, projectileStep_visit rc dt _ g _ _ p hl',
      filterFrom_append]
    simp only [filterFrom, List.length_append]
    cases hv : visit rc dt (now (A.length + B'.length)) p (withPaint g C) with
    | error e => rfl
    | ok g1 =>
      have := ih A g1.paintProjectiles (withPaint g1 (A ++ B' ++ g1.paintProjectiles)) rfl
      have hw : withPaint (withPaint g1 (A ++ B' ++ g1.paintProjectiles)) g1.paintProjectiles
          = g1 := rfl
      rw [hw] at this
      show paintLoop rc dt now A.length (A.length + B'.length)
          (withPaint g1 (A ++ B' ++ g1.paintProjectiles))
        = Except.map _ (filterFrom rc dt now A.length B' g1)
      exact this

theorem update_eq_filterTick (rc : List Decal → Vec3 → Vec3 → List Intersection) (dt : ℚ)
    (now : Nat → ℚ) (g : Game) :
    updatePaintProjectiles rc dt now g = filterTick rc dt now g := by
  have h := paintLoop_filter rc dt now g.paintProjectiles [] [] g (by simp)
  simp only [List.length_nil, Nat.zero_add] at h
  unfold updatePaintProjectiles filterTick
  rw [h]
  have hw : ({ g with paintProjectiles := [] } : Game) = withPaint g [] := rfl
  rw [hw]
  cases filterFrom rc dt now 0 g.paintProjectiles (withPaint g []) with
  | error e => rfl
  | ok g2 => rfl

/-! ## What a tick leaves of the projectiles -/

theorem visit_survivors {rc : List Decal → Vec3 → Vec3 → List Intersection} {dt now : ℚ}
    {p : Projectile} {g g' : Game} (h : visit rc dt now p g = .ok g') :
    g'.paintProjectiles = g.paintProjectiles ∨
      (g'.paintProjectiles = p.aged dt :: g.paintProjectiles ∧
        0 < (p.aged dt).life ∧ -10 ≤ (p.aged dt).position.y) := by
  unfold visit at h
  rcases tickPaint_cases (rc g.decals) dt p with ⟨hit, _, he⟩ | ⟨_, he⟩
  · rw [he] at h
    dsimp only at h
    cases hc : createPaintSplash g hit (p.integrate dt).color now with
    | error e => rw [hc] at h; exact Except.noConfusion h
    | ok g1 =>
      rw [hc] at h
      obtain rfl := Except.ok.inj h
      exact Or.inl (createPaintSplash_frame hc).2.1
  · rw [he] at h
    by_cases hr : (expire (p.integrate dt) dt).removed = true
    · simp only [expire] at h hr
      simp only [hr, if_true] at h
      obtain rfl := Except.ok.inj h
      exact Or.inl rfl
    · have hk := tickPaint_kept (rc g.decals) dt p (by rw [he]; simpa using hr)
      rw [he] at hk
      simp only [expire] at h hr
      simp only [hr, if_false] at h
      obtain rfl := Except.ok.inj h
      exact Or.inr ⟨rfl, hk.1, hk.2.1⟩

theorem filterFrom_survivors (rc : List Decal → Vec3 → Vec3 → List Intersection) (dt : ℚ)
    (now : Nat → ℚ) : ∀ (B : List Projectile) (i : Nat) (g g' : Game),
    filterFrom rc dt now i B g = .ok g' →
    ∃ S : List Projectile, g'.paintProjectiles = S ++ g.paintProjectiles ∧
      S.Sublist (B.map (fun p => p.aged dt)) ∧
      ∀ q ∈ S, 0 < q.life ∧ -10 ≤ q.position.y
  | [], _, g, g', h => by
    obtain rfl := Except.ok.inj h
    exact ⟨[], rfl, List.Sublist.refl _, by intro q hq; simp at hq⟩
  | p :: B, i, g, g', h => by
    unfold filterFrom at h
    cases h1 : filterFrom rc dt now (i + 1) B g with
    | error e => rw [h1] at h; exact Except.noConfusion h
    | ok g1 =>
      rw [h1] at h
      obtain ⟨S, hS, hsub, hpos⟩ := filterFrom_survivors rc dt now B (i + 1) g g1 h1
      rcases visit_survivors h with hv | ⟨hv, hl, hy⟩
      · exact ⟨S, by rw [hv, hS], by
          simp only [List.map_cons]
          exact List.Sublist.cons _ hsub, hpos⟩
      · refine ⟨p.aged dt :: S, by rw [hv, hS]; rfl, ?_, ?_⟩
        · simp only [List.map_cons]
          exact List.Sublist.cons₂ _ hsub
        · intro q hq
          rcases List.mem_cons.1 hq with rfl | hq
          · exact ⟨hl, hy⟩
          · exact hpos q hq

theorem update_survivors {rc : List Decal → Vec3 → Vec3 → List Intersection} {dt : ℚ}
    {now : Nat → ℚ} {g g' : Game} (h : updatePaintProjectiles rc dt now g = .ok g') :
    g'.paintProjectiles.Sublist (g.paintProjectiles.map (fun p => p.aged dt)) ∧
      ∀ q ∈ g'.paintProjectiles, 0 < q.life ∧ -10 ≤ q.position.y := by
  rw [update_eq_filterTick] at h
  obtain ⟨S, hS, hsub, hpos⟩ := filterFrom_survivors rc dt now _ 0 _ g' h
  have : g'.paintProjectiles = S := by simpa using hS
  rw [this]
  exact ⟨hsub, hpos⟩

theorem update_ok (rc : List Decal → Vec3 → Vec3 → List Intersection) (dt : ℚ)
    (now : Nat → ℚ) {g : Game} (hd : DoorsOk g) :
    ∃ g', updatePaintProjectiles rc dt now g = .ok g' ∧ DoorsOk g' := by
  obtain ⟨g', hg', hd', -⟩ := paintLoop_shape rc dt now g.paintProjectiles [] [] g hd (by simp)
  simp only [List.length_nil, Nat.zero_add] at hg'
  exact ⟨g', hg', hd'⟩

theorem flown_aged (p : Projectile) (dt : ℚ) : Flown [dt] p (p.aged dt) := by
  refine ⟨rfl, rfl, rfl, rfl, rfl, ?_, ?_⟩
  · simp [Projectile.aged, Projectile.integrate]
  · simp [Projectile.aged]

theorem flown_cons {dt : ℚ} {dts : List ℚ} {p q r : Projectile} (h1 : Flown [dt] p q)
    (h2 : Flown dts q r) : Flown (dt :: dts) p r := by
  obtain ⟨a1, a2, a3, a4, a5, a6, a7⟩ := h1
  obtain ⟨b1, b2, b3, b4, b5, b6, b7⟩ := h2
  refine ⟨by rw [b1, a1], by rw [b2, a2], by rw [b3, a3], by rw [b4, a4], by rw [b5, a5], ?_, ?_⟩
  · rw [b6, a6, a3]
    simp only [List.sum_cons, List.sum_nil]
    ring
  · rw [b7, a7]
    simp only [List.sum_cons, List.sum_nil]
    ring

theorem runTicks_flown : ∀ (ticks : List Tick) (g : Game), DoorsOk g →
    ∃ g', runTicks g ticks = .ok g' ∧ DoorsOk g' ∧
      ∀ q ∈ g'.paintProjectiles, ∃ p ∈ g.paintProjectiles,
        Flown (ticks.map Tick.deltaTime) p q ∧
          (ticks ≠ [] → 0 < q.life ∧ -10 ≤ q.position.y)
  | [], g, hd => ⟨g, rfl, hd, fun q hq =>
      ⟨q, hq, ⟨rfl, rfl, rfl, rfl, rfl, by simp, by simp⟩, fun h => absurd rfl h⟩⟩
  | t :: rest, g, hd => by
    obtain ⟨g1, h1, hd1⟩ := update_ok t.rayCast t.deltaTime t.now hd
    obtain ⟨hsub, hpos⟩ := update_survivors h1
    obtain ⟨g', h', hd', hfl⟩ := runTicks_flown rest g1 hd1
    refine ⟨g', by simp only [runTicks, h1]; exact h', hd', ?_⟩
    intro q hq
    obtain ⟨p1, hp1, hf, hlife⟩ := hfl q hq
    obtain ⟨p, hp, rfl⟩ := List.mem_map.1 (hsub.subset hp1)
    refine ⟨p, hp, flown_cons (flown_aged p t.deltaTime) hf, fun _ => ?_⟩
    cases rest with
    | nil =>
      obtain rfl := Except.ok.inj h'
      exact hpos q hq
    | cons t2 rest2 => exact hlife (by simp)

/-! ## Claims on the flight of the projectiles -/

/-- C23: integration first adds gravity times `dt` to the vertical velocity and then moves the
position by the new velocity times `dt`; that is the velocity and position a tick leaves in the
projectile, and the ray of the contact test is cast from them.  Over any run of ticks a
projectile still in the list has the horizontal velocity it started with, and its vertical
velocity has changed by gravity times the whole time. -/
theorem velocity_then_position (ticks : List Tick) (g : Game) (hd : DoorsOk g) :
    (∀ (p : Projectile) (dt : ℚ),
      (p.integrate dt).velocity = ⟨p.velocity.x, p.velocity.y + p.gravity * dt, p.velocity.z⟩ ∧
      (p.integrate dt).position =
        ⟨p.position.x + p.velocity.x * dt,
          p.position.y + (p.velocity.y + p.gravity * dt) * dt,
          p.position.z + p.velocity.z * dt⟩) ∧
    (∀ (f : Vec3 → Vec3 → List Intersection) (dt : ℚ) (p : Projectile),
      (tickPaint f dt p).paint.velocity = (p.integrate dt).velocity ∧
      (tickPaint f dt p).paint.position = (p.integrate dt).position ∧
      ((tickPaint f dt p).splash.isSome = true →
        (tickPaint f dt p).splash = (f (p.integrate dt).position (p.integrate dt).velocity).head?)) ∧
    ∃ g' : Game, runTicks g ticks = .ok g' ∧
      ∀ q ∈ g'.paintProjectiles, ∃ p ∈ g.paintProjectiles,
        q.object = p.object ∧ q.velocity.x = p.velocity.x ∧ q.velocity.z = p.velocity.z ∧
          q.velocity.y = p.velocity.y + p.gravity * (ticks.map Tick.deltaTime).sum := by
  refine ⟨fun p dt => ⟨rfl, rfl⟩, ?_, ?_⟩
  · intro f dt p
    rcases tickPaint_cases f dt p with ⟨hit, hc, he⟩ | ⟨_, he⟩
    · rw [he]
      exact ⟨rfl, rfl, fun _ => hc.1.symm⟩
    · rw [he]
      exact ⟨rfl, rfl, fun h => absurd h (by simp [expire])⟩
  · obtain ⟨g', h, -, hfl⟩ := runTicks_flown ticks g hd
    refine ⟨g', h, fun q hq => ?_⟩
    obtain ⟨p, hp, hf, -⟩ := hfl q hq
    exact ⟨p, hp, hf.1, hf.2.2.2.1, hf.2.2.2.2.1, hf.2.2.2.2.2.1⟩

/-- C24: on a state whose targets name existing doors, the backward loop with its splices
returns normally and is the filter: it gives the same result as visiting every projectile of the
list once, the last one first, and keeping the survivors in their order.  When the loop comes to
an index, the entry there is still the projectile the list had at that index at the start of the
tick; the list left is a sublist of the start list with every entry integrated once and its life
run down by `dt`, so the survivors keep their relative order. -/
theorem backward_loop_is_filter (rc : List Decal → Vec3 → Vec3 → List Intersection) (dt : ℚ)
    (now : Nat → ℚ) (g : Game) (hd : DoorsOk g) :
    updatePaintProjectiles rc dt now g = filterTick rc dt now g ∧
    ∃ g' : Game, updatePaintProjectiles rc dt now g = .ok g' ∧
      (∀ (i : Nat) (p : Projectile), g.paintProjectiles[i]? = some p →
        ∃ gi : Game, paintLoop rc dt now (i + 1) g.paintProjectiles.length g = .ok gi ∧
          gi.paintProjectiles[i]? = some p ∧
          projectileStep rc dt (now i) gi i =
            (visit rc dt (now i) p (withPaint gi (gi.paintProjectiles.drop (i + 1)))).map
              (fun g2 => withPaint g2 (gi.paintProjectiles.take i ++ g2.paintProjectiles))) ∧
      g'.paintProjectiles.Sublist (g.paintProjectiles.map (fun p => p.aged dt)) ∧
      (g'.paintProjectiles.map Projectile.object).Sublist
        (g.paintProjectiles.map Projectile.object) := by
  refine ⟨update_eq_filterTick rc dt now g, ?_⟩
  obtain ⟨g', h, -⟩ := update_ok rc dt now hd
  obtain ⟨hsub, -⟩ := update_survivors h
  refine ⟨g', h, ?_, hsub, ?_⟩
  · intro i p hp
    obtain ⟨T, D, hl, hT⟩ := split_at_index _ i p hp
    subst hT
    obtain ⟨gi, g3, S1, S2, hgi, hli, -⟩ := tick_around rc dt now hd hl
    refine ⟨gi, hgi, by rw [hli]; exact getElem?_append_cons T S1 p, ?_⟩
    rw [projectileStep_visit rc dt (now T.length) gi T S1 p hli, hli]
    simp
  · have := hsub.map Projectile.object
    simpa [Projectile.aged, Projectile.integrate, Function.comp] using this

/-- C25, counterexample: the red paint just fired in the loaded level, with nothing ever in
reach of its ray and ticks of one second.  After the first tick it is in the list with life 4
at height -41/5; the second tick puts it at height -139/5, below -10, and removes it, with 2
seconds accumulated, not 5. -/
theorem paint_removed_before_life_is_spent :
    (launch loadedGame).paintProjectiles.map (fun p => (p.life, p.position.y, p.velocity.y))
      = [(5, 8 / 5, 0)] ∧
    (runTicks (launch loadedGame) [secondTick]).toOption.map
        (fun g => g.paintProjectiles.map (fun p => (p.life, p.position.y, p.velocity.y)))
      = some [(4, -41 / 5, -49 / 5)] ∧
    (firstPaint.aged 1).aged 1 = { firstPaint with
      position := ⟨-30, -139 / 5, -30⟩, velocity := ⟨0, -98 / 5, -15⟩, life := 3 } ∧
    (∀ hit, ¬ Contact (openSky [] ((firstPaint.aged 1).integrate 1).position
      ((firstPaint.aged 1).integrate 1).velocity) hit) ∧
    (runTicks (launch loadedGame) [secondTick, secondTick]).toOption.map
        (fun g => g.paintProjectiles) = some [] := by
  refine ⟨by decide!, by decide!, by decide!, ?_, by decide!⟩
  intro hit h
  simp [Contact, openSky] at h

/-- C25, amended: on a state whose targets name existing doors every run of ticks returns
normally, and a projectile still in the list afterwards has the life it had before minus the
sum of the frame times, still positive, and stands at height -10 or above.  So when no
projectile of the list had more life than 5 and the frame times sum to 5 or more, the list is
empty.  A projectile is fired with life 5.  On a tick without contact a projectile is removed
exactly when its life minus `dt` is at most 0 or its new height is below -10. -/
theorem paint_life_runs_down (ticks : List Tick) (g : Game) (hd : DoorsOk g) :
    (∃ g' : Game, runTicks g ticks = .ok g' ∧
      (∀ q ∈ g'.paintProjectiles, ∃ p ∈ g.paintProjectiles,
        q.object = p.object ∧ q.life = p.life - (ticks.map Tick.deltaTime).sum ∧
          (ticks ≠ [] → 0 < q.life ∧ -10 ≤ q.position.y)) ∧
      ((∀ p ∈ g.paintProjectiles, p.life ≤ 5) → ticks ≠ [] →
        5 ≤ (ticks.map Tick.deltaTime).sum → g'.paintProjectiles = [])) ∧
    (∃ p : Projectile, (launch g).paintProjectiles = g.paintProjectiles ++ [p] ∧ p.life = 5) ∧
    (∀ (f : Vec3 → Vec3 → List Intersection) (dt : ℚ) (p : Projectile),
      (∀ hit, ¬ Contact (f (p.integrate dt).position (p.integrate dt).velocity) hit) →
      ((tickPaint f dt p).removed = true ↔
        p.life - dt ≤ 0 ∨ (p.integrate dt).position.y < -10)) := by
  refine ⟨?_, ⟨_, rfl, rfl⟩, ?_⟩
  · obtain ⟨g', h, -, hfl⟩ := runTicks_flown ticks g hd
    refine ⟨g', h, ?_, ?_⟩
    · intro q hq
      obtain ⟨p, hp, hf, hpos⟩ := hfl q hq
      exact ⟨p, hp, hf.1, hf.2.2.2.2.2.2, hpos⟩
    · intro hlife hne hsum
      apply List.eq_nil_iff_forall_not_mem.2
      intro q hq
      obtain ⟨p, hp, hf, hpos⟩ := hfl q hq
      have h1 := (hpos hne).1
      have h2 := hf.2.2.2.2.2.2
      have h3 := hlife p hp
      linarith
  · intro f dt p hno
    rw [tickPaint_removed_iff]
    constructor
    · rintro (⟨hit, hc⟩ | h)
      · exact absurd hc (hno hit)
      · exact h
    · exact Or.inr

/-- The amended C25 statement on the loaded level with one paint just fired, for five ticks of
one second. -/
theorem paint_life_runs_down_witness :
    DoorsOk (launch loadedGame) ∧
    (∃ g' : Game,
      runTicks (launch loadedGame)
        [secondTick, secondTick, secondTick, secondTick, secondTick] = .ok g' ∧
      (∀ q ∈ g'.paintProjectiles, ∃ p ∈ (launch loadedGame).paintProjectiles,
        q.object = p.object ∧
          q.life = p.life -
            ([secondTick, secondTick, secondTick, secondTick, secondTick].map
              Tick.deltaTime).sum ∧
          ([secondTick, secondTick, secondTick, secondTick, secondTick] ≠ [] →
            0 < q.life ∧ -10 ≤ q.position.y)) ∧
      ((∀ p ∈ (launch loadedGame).paintProjectiles, p.life ≤ 5) →
        [secondTick, secondTick, secondTick, secondTick, secondTick] ≠ [] →
        5 ≤ ([secondTick, secondTick, secondTick, secondTick, secondTick].map
          Tick.deltaTime).sum →
        g'.paintProjectiles = [])) ∧
    (∃ p : Projectile,
      (launch (launch loadedGame)).paintProjectiles
        = (launch loadedGame).paintProjectiles ++ [p] ∧ p.life = 5) ∧
    (∀ (f : Vec3 → Vec3 → List Intersection) (dt : ℚ) (p : Projectile),
      (∀ hit, ¬ Contact (f (p.integrate dt).position (p.integrate dt).velocity) hit) →
      ((tickPaint f dt p).removed = true ↔
        p.life - dt ≤ 0 ∨ (p.integrate dt).position.y < -10)) :=
  have hd : DoorsOk (launch loadedGame) := by
    simp [DoorsOk, launch, loadedGame, initialGame, levelTargets, levelDoors]
  ⟨hd, paint_life_runs_down [secondTick, secondTick, secondTick, secondTick, secondTick]
    (launch loadedGame) hd⟩

/-- C23 on the loaded level with one paint just fired, for two ticks of one second. -/
theorem velocity_then_position_witness :
    DoorsOk (launch loadedGame) ∧
    (∀ (p : Projectile) (dt : ℚ),
      (p.integrate dt).velocity = ⟨p.velocity.x, p.velocity.y + p.gravity * dt, p.velocity.z⟩ ∧
      (p.integrate dt).position =
        ⟨p.position.x + p.velocity.x * dt,
          p.position.y + (p.velocity.y + p.gravity * dt) * dt,
          p.position.z + p.velocity.z * dt⟩) ∧
    (∀ (f : Vec3 → Vec3 → List Intersection) (dt : ℚ) (p : Projectile),
      (tickPaint f dt p).paint.velocity = (p.integrate dt).velocity ∧
      (tickPaint f dt p).paint.position = (p.integrate dt).position ∧
      ((tickPaint f dt p).splash.isSome = true →
        (tickPaint f dt p).splash = (f (p.integrate dt).position (p.integrate dt).velocity).head?)) ∧
    ∃ g' : Game, runTicks (launch loadedGame) [secondTick, secondTick] = .ok g' ∧
      ∀ q ∈ g'.paintProjectiles, ∃ p ∈ (launch loadedGame).paintProjectiles,
        q.object = p.object ∧ q.velocity.x = p.velocity.x ∧ q.velocity.z = p.velocity.z ∧
          q.velocity.y = p.velocity.y +
            p.gravity * ([secondTick, secondTick].map Tick.deltaTime).sum :=
  have hd : DoorsOk (launch loadedGame) := by
    simp [DoorsOk, launch, loadedGame, initialGame, levelTargets, levelDoors]
  ⟨hd, velocity_then_position [secondTick, secondTick] (launch loadedGame) hd⟩

/-- C24 on the loaded level with two paints just fired, nothing in reach of the ray, a tick of
one second. -/
theorem backward_loop_is_filter_witness :
    DoorsOk (launch (launch loadedGame)) ∧
    updatePaintProjectiles openSky 1 (fun _ => 0) (launch (launch loadedGame))
      = filterTick openSky 1 (fun _ => 0) (launch (launch loadedGame)) ∧
    ∃ g' : Game,
      updatePaintProjectiles openSky 1 (fun _ => 0) (launch (launch loadedGame)) = .ok g' ∧
      (∀ (i : Nat) (p : Projectile),
        (launch (launch loadedGame)).paintProjectiles[i]? = some p →
        ∃ gi : Game,
          paintLoop openSky 1 (fun _ => 0) (i + 1)
            (launch (launch loadedGame)).paintProjectiles.length
            (launch (launch loadedGame)) = .ok gi ∧
          gi.paintProjectiles[i]? = some p ∧
          projectileStep openSky 1 ((fun _ => 0) i) gi i =
            (visit openSky 1 ((fun _ => 0) i) p
              (withPaint gi (gi.paintProjectiles.drop (i + 1)))).map
              (fun g2 => withPaint g2 (gi.paintProjectiles.take i ++ g2.paintProjectiles))) ∧
      g'.paintProjectiles.Sublist
        ((launch (launch loadedGame)).paintProjectiles.map (fun p => p.aged 1)) ∧
      (g'.paintProjectiles.map Projectile.object).Sublist
        ((launch (launch loadedGame)).paintProjectiles.map Projectile.object) :=
  have hd : DoorsOk (launch (launch loadedGame)) := by
    simp [DoorsOk, launch, loadedGame, initialGame, levelTargets, levelDoors]
  ⟨hd, backward_loop_is_filter openSky 1 (fun _ => 0) (launch (launch loadedGame)) hd⟩

/-! ## The player: keys, jump and paint colour -/

theorem pickBlueCube_fields (g : Game) :
    (pickBlueCube g).lastJumpTime = g.lastJumpTime ∧
      (pickBlueCube g).playerBody = g.playerBody ∧
      (pickBlueCube g).currentPaintColor = g.currentPaintColor ∧
      (pickBlueCube g).keys = g.keys ∧
      (g.bluePaintUnlocked = true → (pickBlueCube g).bluePaintUnlocked = true) := by
  unfold pickBlueCube
  cases g.blueCubeMesh with
  | none => exact ⟨rfl, rfl, rfl, rfl, fun h => h⟩
  | some position =>
    dsimp only
    split_ifs
    · exact ⟨rfl, rfl, rfl, rfl, fun _ => rfl⟩
    · exact ⟨rfl, rfl, rfl, rfl, fun h => h⟩

theorem pickCrown_fields (g : Game) :
    (pickCrown g).lastJumpTime = g.lastJumpTime ∧
      (pickCrown g).playerBody = g.playerBody ∧
      (pickCrown g).currentPaintColor = g.currentPaintColor ∧
      (pickCrown g).keys = g.keys ∧
      (pickCrown g).bluePaintUnlocked = g.bluePaintUnlocked := by
  unfold pickCrown
  cases g.crownMesh with
  | none => exact ⟨rfl, rfl, rfl, rfl, rfl⟩
  | some position =>
    dsimp only
    split_ifs <;> exact ⟨rfl, rfl, rfl, rfl, rfl⟩

theorem updatePlayer_fields (wd : Vec3) (nz : Vec3 → Vec3) (t : ℚ) (g : Game) :
    (updatePlayer wd nz t g).lastJumpTime = (if jumpTest g t = true then t else g.lastJumpTime) ∧
      (updatePlayer wd nz t g).playerBody.translation = g.playerBody.translation ∧
      (updatePlayer wd nz t g).playerBody.linvel =
        ⟨(nz (moveDirection g.keys (nz { wd with y := 0 }))).x *
            (if g.keys.shift = true then playerSpeed * 2 else playerSpeed),
          if jumpTest g t = true then jumpPower else g.playerBody.linvel.y,
          (nz (moveDirection g.keys (nz { wd with y := 0 }))).z *
            (if g.keys.shift = true then playerSpeed * 2 else playerSpeed)⟩ ∧
      (updatePlayer wd nz t g).currentPaintColor = g.currentPaintColor ∧
      (updatePlayer wd nz t g).keys = g.keys ∧
      (g.bluePaintUnlocked = true → (updatePlayer wd nz t g).bluePaintUnlocked = true) := by
  unfold updatePlayer
  dsimp only
  refine ⟨?_, ?_, ?_, ?_, ?_, ?_⟩
  · rw [(pickCrown_fields _).1, (pickBlueCube_fields _).1]
  · rw [(pickCrown_fields _).2.1, (pickBlueCube_fields _).2.1]
  · rw [(pickCrown_fields _).2.1, (pickBlueCube_fields _).2.1]
    dsimp only
    split_ifs <;> rfl
  · rw [(pickCrown_fields _).2.2.1, (pickBlueCube_fields _).2.2.1]
  · rw [(pickCrown_fields _).2.2.2.1, (pickBlueCube_fields _).2.2.2.1]
  · intro h
    rw [(pickCrown_fields _).2.2.2.2]
    exact (pickBlueCube_fields _).2.2.2.2 h

theorem keydown_fields (g : Game) (code : String) :
    (keydown g code).lastJumpTime = g.lastJumpTime ∧
      (keydown g code).bluePaintUnlocked = g.bluePaintUnlocked ∧
      (keydown g code).playerBody = g.playerBody := by
  unfold keydown
  by_cases h0 : code = "KeyW"
  · rw [if_pos h0]
    exact ⟨rfl, rfl, rfl⟩
  rw [if_neg h0]
  by_cases h1 : code = "KeyA"
  · rw [if_pos h1]
    exact ⟨rfl, rfl, rfl⟩
  rw [if_neg h1]
  by_cases h2 : code = "KeyS"
  · rw [if_pos h2]
    exact ⟨rfl, rfl, rfl⟩
  rw [if_neg h2]
  by_cases h3 : code = "KeyD"
  · rw [if_pos h3]
    exact ⟨rfl, rfl, rfl⟩
  rw [if_neg h3]
  by_cases h4 : code = "Space"
  · rw [if_pos h4]
    exact ⟨rfl, rfl, rfl⟩
  rw [if_neg h4]
  by_cases h5 : code = "ShiftLeft"
  · rw [if_pos h5]
    exact ⟨rfl, rfl, rfl⟩
  rw [if_neg h5]
  by_cases h6 : code = "Escape"
  · rw [if_pos h6]
    exact ⟨rfl, rfl, rfl⟩
  rw [if_neg h6]
  by_cases h7 : code = "Digit1"
  · rw [if_pos h7]
    exact ⟨rfl, rfl, rfl⟩
  rw [if_neg h7]
  by_cases h8 : code = "Digit2"
  · rw [if_pos h8]
    by_cases hu : g.bluePaintUnlocked = true
    · rw [if_pos hu]
      exact ⟨rfl, rfl, rfl⟩
    · rw [if_neg hu]
      exact ⟨rfl, rfl, rfl⟩
  rw [if_neg h8]
  exact ⟨rfl, rfl, rfl⟩

theorem keyup_fields (g : Game) (code : String) :
    (keyup g code).lastJumpTime = g.lastJumpTime ∧
      (keyup g code).bluePaintUnlocked = g.bluePaintUnlocked ∧
      (keyup g code).currentPaintColor = g.currentPaintColor ∧
      (keyup g code).playerBody = g.playerBody := by
  unfold keyup
  by_cases h0 : code = "KeyW"
  · rw [if_pos h0]
    exact ⟨rfl, rfl, rfl, rfl⟩
  rw [if_neg h0]
  by_cases h1 : code = "KeyA"
  · rw [if_pos h1]
    exact ⟨rfl, rfl, rfl, rfl⟩
  rw [if_neg h1]
  by_cases h2 : code = "KeyS"
  · rw [if_pos h2]
    exact ⟨rfl, rfl, rfl, rfl⟩
  rw [if_neg h2]
  by_cases h3 : code = "KeyD"
  · rw [if_pos h3]
    exact ⟨rfl, rfl, rfl, rfl⟩
  rw [if_neg h3]
  by_cases h4 : code = "Space"
  · rw [if_pos h4]
    exact ⟨rfl, rfl, rfl, rfl⟩
  rw [if_neg h4]
  by_cases h5 : code = "ShiftLeft"
  · rw [if_pos h5]
    exact ⟨rfl, rfl, rfl, rfl⟩
  rw [if_neg h5]
  exact ⟨rfl, rfl, rfl, rfl⟩

theorem jumpTest_iff (g : Game) (t : ℚ) :
    jumpTest g t = true ↔
      g.keys.space = true ∧ |g.playerBody.linvel.y| < 1 / 10 ∧ t - g.lastJumpTime > 1500 := by
  unfold jumpTest jumpCooldown
  simp [Bool.and_eq_true, and_assoc]

theorem control_lastJumpTime (g : Game) (c : Control) (t0 : ℚ) (h : t0 ≤ g.lastJumpTime) :
    t0 ≤ (control g c).lastJumpTime := by
  cases c with
  | keydown code => rw [show control g (.keydown code) = keydown g code from rfl,
      (keydown_fields g code).1]; exact h
  | keyup code => rw [show control g (.keyup code) = keyup g code from rfl,
      (keyup_fields g code).1]; exact h
  | worldStep body => exact h
  | placeBlueCube o => exact h
  | updatePlayer wd nz t =>
    rw [show control g (.updatePlayer wd nz t) = updatePlayer wd nz t g from rfl,
      (updatePlayer_fields wd nz t g).1]
    split_ifs with hj
    · have := ((jumpTest_iff g t).1 hj).2.2
      linarith
    · exact h

theorem controlAll_lastJumpTime : ∀ (cs : List Control) (g : Game) (t0 : ℚ),
    t0 ≤ g.lastJumpTime → t0 ≤ (controlAll g cs).lastJumpTime
  | [], _, _, h => h
  | c :: cs, g, t0, h => controlAll_lastJumpTime cs (control g c) t0
      (control_lastJumpTime g c t0 h)

theorem keydown_color (g : Game) (code : String) :
    (keydown g code).currentPaintColor = g.currentPaintColor ∨
      (keydown g code).currentPaintColor = "red" ∨
      (g.bluePaintUnlocked = true ∧ (keydown g code).currentPaintColor = "blue") := by
  unfold keydown
  by_cases h0 : code = "KeyW"
  · rw [if_pos h0]
    exact Or.inl rfl
  rw [if_neg h0]
  by_cases h1 : code = "KeyA"
  · rw [if_pos h1]
    exact Or.inl rfl
  rw [if_neg h1]
  by_cases h2 : code = "KeyS"
  · rw [if_pos h2]
    exact Or.inl rfl
  rw [if_neg h2]
  by_cases h3 : code = "KeyD"
  · rw [if_pos h3]
    exact Or.inl rfl
  rw [if_neg h3]
  by_cases h4 : code = "Space"
  · rw [if_pos h4]
    exact Or.inl rfl
  rw [if_neg h4]
  by_cases h5 : code = "ShiftLeft"
  · rw [if_pos h5]
    exact Or.inl rfl
  rw [if_neg h5]
  by_cases h6 : code = "Escape"
  · rw [if_pos h6]
    exact Or.inl rfl
  rw [if_neg h6]
  by_cases h7 : code = "Digit1"
  · rw [if_pos h7]
    exact Or.inr (Or.inl rfl)
  rw [if_neg h7]
  by_cases h8 : code = "Digit2"
  · rw [if_pos h8]
    by_cases hu : g.bluePaintUnlocked = true
    · rw [if_pos hu]
      exact Or.inr (Or.inr ⟨hu, rfl⟩)
    · rw [if_neg hu]
      exact Or.inl rfl
  rw [if_neg h8]
  exact Or.inl rfl

theorem control_unlocked (g : Game) (c : Control) (h : g.bluePaintUnlocked = true) :
    (control g c).bluePaintUnlocked = true := by
  cases c with
  | keydown code =>
    rw [show control g (.keydown code) = keydown g code from rfl, (keydown_fields g code).2.1]
    exact h
  | keyup code =>
    rw [show control g (.keyup code) = keyup g code from rfl, (keyup_fields g code).2.1]
    exact h
  | worldStep body => exact h
  | placeBlueCube o => exact h
  | updatePlayer wd nz t => exact (updatePlayer_fields wd nz t g).2.2.2.2.2 h

theorem controlAll_unlocked : ∀ (cs : List Control) (g : Game),
    g.bluePaintUnlocked = true → (controlAll g cs).bluePaintUnlocked = true
  | [], _, h => h
  | c :: cs, g, h => controlAll_unlocked cs (control g c) (control_unlocked g c h)

theorem control_blue (g : Game) (c : Control)
    (h : g.currentPaintColor = "blue" → g.bluePaintUnlocked = true) :
    (control g c).currentPaintColor = "blue" → (control g c).bluePaintUnlocked = true := by
  cases c with
  | keydown code =>
    show (keydown g code).currentPaintColor = "blue" → (keydown g code).bluePaintUnlocked = true
    rw [(keydown_fields g code).2.1]
    intro hb
    rcases keydown_color g code with h1 | h1 | ⟨h1, -⟩
    · exact h (h1 ▸ hb)
    · rw [h1] at hb
      exact absurd hb (by decide)
    · exact h1
  | keyup code =>
    show (keyup g code).currentPaintColor = "blue" → (keyup g code).bluePaintUnlocked = true
    rw [(keyup_fields g code).2.1, (keyup_fields g code).2.2.1]
    exact h
  | worldStep body => exact h
  | placeBlueCube o => exact h
  | updatePlayer wd nz t =>
    show (updatePlayer wd nz t g).currentPaintColor = "blue" →
      (updatePlayer wd nz t g).bluePaintUnlocked = true
    rw [(updatePlayer_fields wd nz t g).2.2.2.1]
    intro hb
    exact (updatePlayer_fields wd nz t g).2.2.2.2.2 (h hb)

theorem controlAll_blue : ∀ (cs : List Control) (g : Game),
    (g.currentPaintColor = "blue" → g.bluePaintUnlocked = true) →
    (controlAll g cs).currentPaintColor = "blue" → (controlAll g cs).bluePaintUnlocked = true
  | [], _, h => h
  | c :: cs, g, h => controlAll_blue cs (control g c) (control_blue g c h)

theorem moveDirection_eq (keys : Keys) (forward : Vec3) :
    moveDirection keys forward =
      ⟨(held keys.w - held keys.s) * forward.x - (held keys.d - held keys.a) * forward.z,
        (held keys.w - held keys.s) * forward.y,
        (held keys.w - held keys.s) * forward.z + (held keys.d - held keys.a) * forward.x⟩ := by
  unfold moveDirection held
  cases keys.w <;> cases keys.s <;> cases keys.d <;> cases keys.a <;>
    simp [Vec3.add, Vec3.sub, Vec3.crossVectors] <;> ring_nf

/-! ## Claims on the player -/

/-- C21: `updatePlayer` applies a jump, writing the vertical velocity 7.5 and setting
`lastJumpTime` to the clock reading, exactly when space is held, the vertical velocity of the
body is below 0.1 in absolute value and more than 1500 ms have passed since `lastJumpTime`;
otherwise it leaves both as they are.  When a jump is applied at the reading `t1` and, after
any keys, physics steps and further player ticks, another at the reading `t2`, then `t2` is
more than 1500 ms after `t1`. -/
theorem jumps_are_cooldown_apart (g : Game) (cs : List Control) (wd : Vec3)
    (nz : Vec3 → Vec3) (t1 t2 : ℚ) (h1 : jumpTest g t1 = true)
    (h2 : jumpTest (controlAll (updatePlayer wd nz t1 g) cs) t2 = true) :
    t2 - t1 > 1500 ∧
    (∀ (g0 : Game) (wd0 : Vec3) (nz0 : Vec3 → Vec3) (t : ℚ),
      (jumpTest g0 t = true ↔
        g0.keys.space = true ∧ |g0.playerBody.linvel.y| < 1 / 10 ∧
          t - g0.lastJumpTime > 1500) ∧
      (jumpTest g0 t = true →
        (updatePlayer wd0 nz0 t g0).playerBody.linvel.y = 15 / 2 ∧
          (updatePlayer wd0 nz0 t g0).lastJumpTime = t) ∧
      (jumpTest g0 t = false →
        (updatePlayer wd0 nz0 t g0).playerBody.linvel.y = g0.playerBody.linvel.y ∧
          (updatePlayer wd0 nz0 t g0).lastJumpTime = g0.lastJumpTime) ∧
      ((updatePlayer wd0 nz0 t g0).lastJumpTime ≠ g0.lastJumpTime → jumpTest g0 t = true) ∧
      ((updatePlayer wd0 nz0 t g0).playerBody.linvel.y ≠ g0.playerBody.linvel.y →
        jumpTest g0 t = true)) := by
  have hone : ∀ (g0 : Game) (wd0 : Vec3) (nz0 : Vec3 → Vec3) (t : ℚ),
      (jumpTest g0 t = true →
        (updatePlayer wd0 nz0 t g0).playerBody.linvel.y = 15 / 2 ∧
          (updatePlayer wd0 nz0 t g0).lastJumpTime = t) ∧
      (jumpTest g0 t = false →
        (updatePlayer wd0 nz0 t g0).playerBody.linvel.y = g0.playerBody.linvel.y ∧
          (updatePlayer wd0 nz0 t g0).lastJumpTime = g0.lastJumpTime) := by
    intro g0 wd0 nz0 t
    obtain ⟨ha, -, hb, -⟩ := updatePlayer_fields wd0 nz0 t g0
    constructor
    · intro hj
      constructor
      · rw [hb]
        simp [hj, jumpPower]
      · rw [ha, if_pos hj]
    · intro hj
      constructor
      · rw [hb]
        simp [hj]
      · rw [ha]
        simp [hj]
  refine ⟨?_, ?_⟩
  · have hlast : (updatePlayer wd nz t1 g).lastJumpTime = t1 := ((hone g wd nz t1).1 h1).2
    have hle := controlAll_lastJumpTime cs (updatePlayer wd nz t1 g) t1 (le_of_eq hlast.symm)
    have := ((jumpTest_iff _ t2).1 h2).2.2
    linarith
  · intro g0 wd0 nz0 t
    refine ⟨jumpTest_iff g0 t, (hone g0 wd0 nz0 t).1, (hone g0 wd0 nz0 t).2, ?_, ?_⟩
    · intro hne
      by_contra hj
      exact hne ((hone g0 wd0 nz0 t).2 (by simpa using hj)).2
    · intro hne
      by_contra hj
      exact hne ((hone g0 wd0 nz0 t).2 (by simpa using hj)).1

/-- C22: the velocity `updatePlayer` writes to the body has as horizontal components those of
the normalised move direction times the speed, 2.5 or, with shift held, 5; the move direction is
the sum of the flattened camera direction for `w`, its opposite for `s`, and the right vector
for `d`, its opposite for `a`; the vertical component is the one the body had unless a jump is
applied, and the position of the body is not written. -/
theorem velocity_written_to_body (wd : Vec3) (nz : Vec3 → Vec3) (t : ℚ) (g : Game) :
    (∀ forward : Vec3, moveDirection g.keys forward =
      ⟨(held g.keys.w - held g.keys.s) * forward.x - (held g.keys.d - held g.keys.a) * forward.z,
        (held g.keys.w - held g.keys.s) * forward.y,
        (held g.keys.w - held g.keys.s) * forward.z +
          (held g.keys.d - held g.keys.a) * forward.x⟩) ∧
    (updatePlayer wd nz t g).playerBody.linvel.x =
      (nz (moveDirection g.keys (nz ⟨wd.x, 0, wd.z⟩))).x *
        (if g.keys.shift = true then 5 else 5 / 2) ∧
    (updatePlayer wd nz t g).playerBody.linvel.z =
      (nz (moveDirection g.keys (nz ⟨wd.x, 0, wd.z⟩))).z *
        (if g.keys.shift = true then 5 else 5 / 2) ∧
    (jumpTest g t = false →
      (updatePlayer wd nz t g).playerBody.linvel.y = g.playerBody.linvel.y) ∧
    (jumpTest g t = true → (updatePlayer wd nz t g).playerBody.linvel.y = 15 / 2) ∧
    (updatePlayer wd nz t g).playerBody.translation = g.playerBody.translation ∧
    (updatePlayer ⟨0, 0, -1⟩ unitAxes 0 (keydown initialGame "KeyW")).playerBody.linvel
      = ⟨0, 0, -5 / 2⟩ ∧
    (updatePlayer ⟨0, 0, -1⟩ unitAxes 0
        (keydown (keydown initialGame "KeyD") "ShiftLeft")).playerBody.linvel
      = ⟨5, 0, 0⟩ := by
  obtain ⟨-, htr, hv, -⟩ := updatePlayer_fields wd nz t g
  have hspeed : (if g.keys.shift = true then playerSpeed * 2 else playerSpeed)
      = (if g.keys.shift = true then (5 : ℚ) else 5 / 2) := by
    unfold playerSpeed
    split_ifs <;> norm_num
  refine ⟨fun forward => moveDirection_eq g.keys forward, ?_, ?_, ?_, ?_, htr,
    by decide!, by decide!⟩
  · rw [hv, hspeed]
  · rw [hv, hspeed]
  · intro hj
    rw [hv]
    simp [hj]
  · intro hj
    rw [hv]
    simp [hj, jumpPower]

/-- C28: in every state reached from the start by key presses, key releases, physics steps, the
placing of the blue cube and player ticks, `currentPaintColor` is "blue" only if
`bluePaintUnlocked` is true.  `Digit2` with blue paint locked changes nothing, and with blue
paint unlocked selects blue.  No control resets `bluePaintUnlocked`, and the only control that
sets it is a player tick with the cube in place and the body closer to it than 1.  In the level:
`Digit2` at the start leaves red selected; after the walk to the cube it selects blue. -/
theorem blue_selected_only_when_unlocked (cs : List Control) :
    ((controlAll initialGame cs).currentPaintColor = "blue" →
      (controlAll initialGame cs).bluePaintUnlocked = true) ∧
    (∀ g : Game, g.bluePaintUnlocked = false → keydown g "Digit2" = g) ∧
    (∀ g : Game, g.bluePaintUnlocked = true →
      (keydown g "Digit2").currentPaintColor = "blue") ∧
    (∀ (g : Game) (cs' : List Control), g.bluePaintUnlocked = true →
      (controlAll g cs').bluePaintUnlocked = true) ∧
    (∀ (g : Game) (c : Control), g.bluePaintUnlocked = false →
      (control g c).bluePaintUnlocked = true →
      ∃ (wd : Vec3) (nz : Vec3 → Vec3) (t : ℚ) (position : Vec3),
        c = .updatePlayer wd nz t ∧ g.blueCubeMesh = some position ∧
          g.playerBody.translation.distanceToSquared position < 1) ∧
    (controlAll initialGame [.keydown "Digit2"]).currentPaintColor = "red" ∧
    (controlAll initialGame walkToCube).currentPaintColor = "blue" ∧
    (controlAll initialGame walkToCube).bluePaintUnlocked = true := by
  refine ⟨controlAll_blue cs initialGame (fun h => absurd h (by decide)), ?_, ?_,
    fun g cs' h => controlAll_unlocked cs' g h, ?_, by decide!, by decide!, by decide!⟩
  · intro g hu
    unfold keydown
    simp [hu]
  · intro g hu
    unfold keydown
    simp [hu]
  · intro g c hu hu'
    cases c with
    | keydown code =>
      rw [show control g (.keydown code) = keydown g code from rfl,
        (keydown_fields g code).2.1, hu] at hu'
      exact absurd hu' (by decide)
    | keyup code =>
      rw [show control g (.keyup code) = keyup g code from rfl,
        (keyup_fields g code).2.1, hu] at hu'
      exact absurd hu' (by decide)
    | worldStep body =>
      rw [show (control g (.worldStep body)).bluePaintUnlocked = g.bluePaintUnlocked from rfl,
        hu] at hu'
      exact absurd hu' (by decide)
    | placeBlueCube o =>
      rw [show (control g (.placeBlueCube o)).bluePaintUnlocked = g.bluePaintUnlocked from rfl,
        hu] at hu'
      exact absurd hu' (by decide)
    | updatePlayer wd nz t =>
      refine ⟨wd, nz, t, ?_⟩
      have hu2 : (updatePlayer wd nz t g).bluePaintUnlocked = true := hu'
      unfold updatePlayer at hu2
      dsimp only at hu2
      rw [(pickCrown_fields _).2.2.2.2] at hu2
      unfold pickBlueCube at hu2
      dsimp only at hu2
      cases hc : g.blueCubeMesh with
      | none =>
        rw [hc] at hu2
        dsimp only at hu2
        rw [hu] at hu2
        exact absurd hu2 (by decide)
      | some position =>
        rw [hc] at hu2
        dsimp only at hu2
        refine ⟨position, rfl, rfl, ?_⟩
        by_contra hfar
        rw [if_neg hfar] at hu2
        dsimp only at hu2
        rw [hu] at hu2
        exact absurd hu2 (by decide)

/-- C21 with space held from the start: a jump at 2000 ms, the body brought to rest again by
the physics step, and a second jump at 4000 ms. -/
theorem jumps_are_cooldown_apart_witness :
    jumpTest (keydown initialGame "Space") 2000 = true ∧
    jumpTest
      (controlAll (updatePlayer ⟨0, 0, -1⟩ unitAxes 2000 (keydown initialGame "Space"))
        [.worldStep ⟨⟨-30, 8 / 5, 0⟩, ⟨0, 0, 0⟩⟩]) 4000 = true ∧
    (4000 : ℚ) - 2000 > 1500 ∧
    (∀ (g0 : Game) (wd0 : Vec3) (nz0 : Vec3 → Vec3) (t : ℚ),
      (jumpTest g0 t = true ↔
        g0.keys.space = true ∧ |g0.playerBody.linvel.y| < 1 / 10 ∧
          t - g0.lastJumpTime > 1500) ∧
      (jumpTest g0 t = true →
        (updatePlayer wd0 nz0 t g0).playerBody.linvel.y = 15 / 2 ∧
          (updatePlayer wd0 nz0 t g0).lastJumpTime = t) ∧
      (jumpTest g0 t = false →
        (updatePlayer wd0 nz0 t g0).playerBody.linvel.y = g0.playerBody.linvel.y ∧
          (updatePlayer wd0 nz0 t g0).lastJumpTime = g0.lastJumpTime) ∧
      ((updatePlayer wd0 nz0 t g0).lastJumpTime ≠ g0.lastJumpTime → jumpTest g0 t = true) ∧
      ((updatePlayer wd0 nz0 t g0).playerBody.linvel.y ≠ g0.playerBody.linvel.y →
        jumpTest g0 t = true)) :=
  ⟨by decide!, by decide!,
    jumps_are_cooldown_apart (keydown initialGame "Space")
      [.worldStep ⟨⟨-30, 8 / 5, 0⟩, ⟨0, 0, 0⟩⟩] ⟨0, 0, -1⟩ unitAxes 2000 4000
      (by decide!) (by decide!)⟩

end Final

namespace Ver3

open Final (Vec3 Target Door Mixer Intersection arraySet)

/-! ## One splash of the colour-mixing variant -/

theorem setAdd_mem (set : List String) (color c : String) :
    c ∈ setAdd set color ↔ c = color ∨ c ∈ set := by
  unfold setAdd
  split_ifs with h
  · constructor
    · exact Or.inr
    · rintro (rfl | h1)
      · exact h
      · exact h1
  · simp only [List.mem_append, List.mem_singleton]
    tauto

theorem overlapLoop_untagged (boxHit : Nat → Bool) :
    ∀ (cs : List SceneChild) (k : Nat) (splash : Decal),
      (∀ c ∈ cs, c.color ≠ some "red" ∧ c.color ≠ some "blue") →
      overlapLoop boxHit k splash cs = (splash, cs)
  | [], _, _, _ => rfl
  | c :: cs, k, splash, h => by
    have hc := h c (List.mem_cons_self _ _)
    have hstep : overlapStep boxHit k splash c = (splash, c) := by
      unfold overlapStep
      rw [if_neg]
      rintro ⟨-, h1 | h1⟩
      · exact hc.1 h1
      · exact hc.2 h1
    unfold overlapLoop
    simp only [hstep]
    rw [overlapLoop_untagged boxHit cs (k + 1) splash
      (fun c hm => h c (List.mem_cons_of_mem _ hm))]

theorem mix_scoreHit_spec (g : Game) (i : Nat) (obj : Target) (splash : Decal) (now : ℚ)
    (hd : obj.doorIndex < g.doors.length) :
    ∃ (g' : Game) (obj' : Target), scoreHit g i obj splash now = .ok g' ∧
      g'.splashMap = g.splashMap ∧ g'.sceneChildren = g.sceneChildren ∧
      g'.decals = g.decals ∧ g'.doors = g.doors ∧
      g'.mainObjects = (if splash.color = obj.requiredColor then g.mainObjects.set i obj'
        else g.mainObjects) ∧
      obj'.static = obj.static ∧ obj'.hitCount = obj.hitCount + 1 := by
  unfold scoreHit
  by_cases hc : splash.color = obj.requiredColor
  · simp only [hc, if_true]
    by_cases h3 : obj.hitCount + 1 = 3 ∧ obj.unlocked = false
    · simp only [h3, and_self, if_true]
      split_ifs with hall
      · unfold openDoor
        simp only [List.getElem?_eq_getElem hd]
        exact ⟨_, _, rfl, rfl, rfl, rfl, rfl, rfl, rfl, rfl⟩
      · exact ⟨_, _, rfl, rfl, rfl, rfl, rfl, rfl, rfl, rfl⟩
    · rw [if_neg h3]
      exact ⟨_, _, rfl, rfl, rfl, rfl, rfl, rfl, rfl, rfl⟩
  · simp only [hc, if_false]
    exact ⟨g, { obj with hitCount := obj.hitCount + 1 }, rfl, rfl, rfl, rfl, rfl, rfl, rfl, rfl⟩

theorem mix_scoreLoop_spec (g : Game) (o : Nat) (splash : Decal) (now : ℚ) (hd : DoorsOk g) :
    ∀ (rest : List Target) (pre : List Target), g.mainObjects = pre ++ rest →
      (∀ u ∈ pre, u.mesh ≠ o) →
      ∃ g' : Game, scoreLoop g o splash now rest pre.length = .ok g' ∧
        g'.splashMap = g.splashMap ∧ g'.sceneChildren = g.sceneChildren ∧
        g'.decals = g.decals ∧ g'.doors = g.doors ∧
        g'.mainObjects.length = g.mainObjects.length ∧
        ∀ (j : Nat) (t : Target), g.mainObjects[j]? = some t →
          ∃ t' : Target, g'.mainObjects[j]? = some t' ∧ t'.static = t.static ∧
            (FirstStruck g o j t ∧ splash.color = t.requiredColor →
              t'.hitCount = t.hitCount + 1) ∧
            (¬ (FirstStruck g o j t ∧ splash.color = t.requiredColor) → t' = t)
  | [], pre, h, hpre => by
    refine ⟨g, rfl, rfl, rfl, rfl, rfl, rfl, ?_⟩
    intro j t hj
    refine ⟨t, hj, rfl, ?_, fun _ => rfl⟩
    rintro ⟨hf, -⟩
    have hmem : t ∈ pre := by
      have := List.mem_iff_getElem?.2 ⟨j, hj⟩
      rwa [h, List.append_nil] at this
    exact absurd hf.2.1 (hpre t hmem)
  | obj :: rest, pre, h, hpre => by
    have hi : g.mainObjects[pre.length]? = some obj := by
      rw [h, List.getElem?_append_right (le_refl _)]; simp
    unfold scoreLoop
    by_cases hm : o = obj.mesh
    · rw [if_pos hm]
      have hfirst : FirstStruck g o pre.length obj := by
        refine ⟨hi, hm.symm, ?_⟩
        intro k u hk hu
        have : u ∈ pre := by
          rw [h, List.getElem?_append_left hk] at hu
          exact List.mem_iff_getElem?.2 ⟨k, hu⟩
        exact hpre u this
      have hdoor : obj.doorIndex < g.doors.length :=
        hd obj (List.mem_iff_getElem?.2 ⟨_, hi⟩)
      obtain ⟨g', obj', hrun, h1, h2, h3, h4, h5, h6, h7⟩ :=
        mix_scoreHit_spec g pre.length obj splash now hdoor
      refine ⟨g', hrun, h1, h2, h3, h4, ?_, ?_⟩
      · rw [h5]; split_ifs <;> simp
      · intro j t hj
        by_cases hjp : j = pre.length
        · subst hjp
          have ht : t = obj := by
            rw [hi] at hj; exact (Option.some.inj hj).symm
          subst ht
          by_cases hc : splash.color = t.requiredColor
          · refine ⟨obj', ?_, h6, fun _ => h7, fun hn => absurd ⟨hfirst, hc⟩ hn⟩
            rw [h5, if_pos hc]
            exact Final.getElem?_set_self_of hi
          · refine ⟨t, ?_, rfl, fun hy => absurd hy.2 hc, fun _ => rfl⟩
            rw [h5, if_neg hc]; exact hi
        · have hnot : ¬ FirstStruck g o j t := by
            intro hf
            rcases Nat.lt_or_gt_of_ne hjp with hlt | hgt
            · exact hfirst.2.2 j t hlt hf.1 hf.2.1
            · exact hf.2.2 pre.length obj hgt hi hm.symm
          refine ⟨t, ?_, rfl, fun hy => absurd hy.1 hnot, fun _ => rfl⟩
          rw [h5]
          split_ifs
          · rw [List.getElem?_set, if_neg (fun e => hjp e.symm)]; exact hj
          · exact hj
    · rw [if_neg hm]
      have := mix_scoreLoop_spec g o splash now hd rest (pre ++ [obj])
        (by rw [h]; simp)
        (by
          intro u hu
          rcases List.mem_append.1 hu with hu | hu
          · exact hpre u hu
          · rw [List.mem_singleton.1 hu]; exact fun e => hm e.symm)
      simpa using this

theorem recordColor_colorSet (g g' : Game) (key color : String)
    (h : g'.splashMap = recordColor g.splashMap key color) (key' : String) :
    colorSet g' key' = if key' = key then setAdd (colorSet g key) color else colorSet g key' := by
  unfold colorSet
  rw [h]
  unfold recordColor
  by_cases hk : key' = key
  · subst hk; simp
  · simp [hk]

theorem mix_splash_spec (boxHit : Nat → Bool) (g : Game) (hit : Intersection) (color : String)
    (now : ℚ) (hu : Untagged g) (hd : DoorsOk g) :
    ∃ g' : Game, createPaintSplash boxHit g hit color now = .ok g' ∧
      g'.splashMap = recordColor g.splashMap (pointKey hit.point) color ∧
      g'.sceneChildren = g.sceneChildren ∧
      g'.decals = g.decals ++ [splashOf g hit color] ∧
      g'.doors = g.doors ∧ g'.mainObjects.length = g.mainObjects.length ∧
      ∀ (j : Nat) (t : Target), g.mainObjects[j]? = some t →
        ∃ t' : Target, g'.mainObjects[j]? = some t' ∧ t'.static = t.static ∧
          (FirstStruck g hit.object j t ∧ (splashOf g hit color).color = t.requiredColor →
            t'.hitCount = t.hitCount + 1) ∧
          (¬ (FirstStruck g hit.object j t ∧ (splashOf g hit color).color = t.requiredColor) →
            t' = t) := by
  have hset : ((recordColor g.splashMap (pointKey hit.point) color) (pointKey hit.point)).getD []
      = setAdd (colorSet g (pointKey hit.point)) color := by
    simp [recordColor, colorSet]
  unfold createPaintSplash
  simp only [hset, overlapLoop_untagged boxHit g.sceneChildren 0 _ hu]
  exact mix_scoreLoop_spec
    { g with
      splashMap := recordColor g.splashMap (pointKey hit.point) color
      sceneChildren := g.sceneChildren
      decals := g.decals ++ [splashOf g hit color] }
    hit.object (splashOf g hit color) now hd g.mainObjects [] rfl (by simp)

theorem mix_splash_doorsOk {g g' : Game} (hd : DoorsOk g) (hdoors : g'.doors = g.doors)
    (hlen : g'.mainObjects.length = g.mainObjects.length)
    (hstat : ∀ (j : Nat) (t : Target), g.mainObjects[j]? = some t →
        ∃ t' : Target, g'.mainObjects[j]? = some t' ∧ t'.static = t.static) :
    DoorsOk g' := by
  intro t' ht'
  rcases List.mem_iff_getElem?.1 ht' with ⟨j, hj⟩
  have hjl : j < g.mainObjects.length := by
    rw [← hlen]
    rcases List.getElem?_eq_some.1 hj with ⟨h, -⟩
    exact h
  obtain ⟨t'', h1, h2⟩ := hstat j _ (List.getElem?_eq_getElem hjl)
  rw [hj] at h1
  have : t' = t'' := Option.some.inj h1
  subst this
  have hdi : t'.doorIndex = (g.mainObjects[j]).doorIndex := by
    have := congrArg (fun p => p.2.2) h2
    exact this
  rw [hdi, hdoors]
  exact hd _ (List.getElem_mem _)

theorem effectiveColor_congr (a b : List String) (color : String)
    (h : ∀ c, c ∈ a ↔ c ∈ b) : effectiveColor a color = effectiveColor b color := by
  unfold effectiveColor
  exact if_congr (by rw [h "red", h "blue"]) rfl rfl

theorem firedAt_append (a b : List Splash) (key : String) :
    firedAt (a ++ b) key = firedAt a key ++ firedAt b key := by
  simp [firedAt]

theorem firedAt_singleton (s : Splash) (key : String) :
    firedAt [s] key = if pointKey s.hit.point = key then [s.color] else [] := by
  unfold firedAt
  by_cases h : pointKey s.hit.point = key
  · simp [h]
  · simp [h]

theorem mixInv_initialGame : MixInv [] initialGame where
  untagged := by
    intro c hc
    have : c.color = none := by
      revert c
      decide
    rw [this]
    exact ⟨by decide, by decide⟩
  doorsOk := by
    show ∀ t ∈ levelTargets, t.doorIndex < levelDoors.length
    decide
  cells := by intro key c; simp [colorSet, initialGame, firedAt]
  count := rfl
  colors := by intro k s d h; simp at h

theorem mixInv_step {ss : List Splash} {g g' : Game} (s : Splash) (h : MixInv ss g)
    (hrun : createPaintSplash s.boxHit g s.hit s.color s.now = .ok g') :
    MixInv (ss ++ [s]) g' := by
  obtain ⟨g1, h0, hmap, hscene, hdec, hdoors, hlen, htar⟩ :=
    mix_splash_spec s.boxHit g s.hit s.color s.now h.untagged h.doorsOk
  rw [hrun] at h0
  have hg : g' = g1 := Except.ok.inj h0
  subst hg
  have hcells : ∀ (key c : String), c ∈ colorSet g' key ↔ c ∈ firedAt (ss ++ [s]) key := by
    intro key c
    rw [recordColor_colorSet g g' _ _ hmap key, firedAt_append, firedAt_singleton]
    by_cases hk : key = pointKey s.hit.point
    · subst hk
      rw [if_pos rfl, if_pos rfl, setAdd_mem, List.mem_append, h.cells, List.mem_singleton]
      tauto
    · rw [if_neg hk, if_neg (fun e => hk e.symm), List.mem_append, h.cells]
      simp
  refine ⟨?_, ?_, hcells, ?_, ?_⟩
  · intro c hc
    rw [hscene] at hc
    exact h.untagged c hc
  · exact mix_splash_doorsOk h.doorsOk hdoors hlen
      (fun j t hj => by
        obtain ⟨t', h1, h2, -⟩ := htar j t hj
        exact ⟨t', h1, h2⟩)
  · rw [hdec]; simp [h.count]
  · intro k s' d hs hdk
    rw [hdec] at hdk
    by_cases hk : k < ss.length
    · rw [List.getElem?_append_left hk] at hs
      rw [List.getElem?_append_left (by rw [h.count]; exact hk)] at hdk
      have := h.colors k s' d hs hdk
      rw [List.take_append_of_le_length (by omega)]
      exact this
    · have hk2 : k = ss.length := by
        have : k < (ss ++ [s]).length := by
          rcases List.getElem?_eq_some.1 hs with ⟨hh, -⟩
          exact hh
        simp at this
        omega
      subst hk2
      rw [List.getElem?_append_right (le_refl _)] at hs
      rw [List.getElem?_append_right (by rw [h.count])] at hdk
      simp only [Nat.sub_self, List.getElem?_cons_zero, Option.some.injEq, h.count] at hs hdk
      subst hs
      subst hdk
      rw [List.take_of_length_le (by simp)]
      refine ⟨?_, rfl, rfl⟩
      show effectiveColor (setAdd (colorSet g (pointKey s.hit.point)) s.color) s.color = _
      apply effectiveColor_congr
      intro c
      rw [← hcells, recordColor_colorSet g g' _ _ hmap, if_pos rfl]

theorem mix_run_append (g : Game) (a b : List Splash) :
    runSplashes g (a ++ b) =
      match runSplashes g a with
      | .ok g1 => runSplashes g1 b
      | .error e => .error e := by
  induction a generalizing g with
  | nil => rfl
  | cons s rest ih =>
    simp only [List.cons_append, runSplashes]
    cases createPaintSplash s.boxHit g s.hit s.color s.now with
    | error e => rfl
    | ok g1 => exact ih g1

theorem mixInv_run : ∀ (ss ss0 : List Splash) (g0 : Game), MixInv ss0 g0 →
    ∃ g : Game, runSplashes g0 ss = .ok g ∧ MixInv (ss0 ++ ss) g
  | [], ss0, g0, h => ⟨g0, rfl, by simpa using h⟩
  | s :: ss, ss0, g0, h => by
    obtain ⟨g1, h1, -⟩ := mix_splash_spec s.boxHit g0 s.hit s.color s.now h.untagged h.doorsOk
    obtain ⟨g, h2, h3⟩ := mixInv_run ss (ss0 ++ [s]) g1 (mixInv_step s h h1)
    refine ⟨g, ?_, by simpa using h3⟩
    unfold runSplashes
    rw [h1]
    exact h2

theorem mixInv_of_run {ss : List Splash} {g : Game}
    (h : runSplashes initialGame ss = .ok g) : MixInv ss g := by
  obtain ⟨g1, h1, h2⟩ := mixInv_run ss [] initialGame mixInv_initialGame
  rw [h] at h1
  rw [Except.ok.inj h1]
  simpa using h2

theorem run_afterSplashes (ss : List Splash) :
    runSplashes initialGame ss = .ok (afterSplashes ss) := by
  obtain ⟨g, hg, -⟩ := mixInv_run ss [] initialGame mixInv_initialGame
  unfold afterSplashes
  rw [hg]

/-! ## The key of a splash bucket -/

theorem digitChar_facts (d : Nat) (h : d < 10) :
    Nat.digitChar d ≠ ',' ∧ Nat.digitChar d ≠ '-' ∧ (Nat.digitChar d).toNat - 48 = d := by
  interval_cases d <;> decide

theorem digits_value (fuel : Nat) : ∀ (n : Nat) (acc : List Char), n < fuel →
    (digits fuel n acc).foldl (fun a c => 10 * a + (c.toNat - 48)) 0
      = acc.foldl (fun a c => 10 * a + (c.toNat - 48)) n := by
  induction fuel with
  | zero => intro n acc h; omega
  | succ fuel ih =>
    intro n acc h
    unfold digits
    split_ifs with h10
    · simp only [List.foldl_cons, (digitChar_facts n h10).2.2, Nat.mul_zero, Nat.zero_add]
    · rw [ih (n / 10) _ (by omega)]
      simp only [List.foldl_cons, (digitChar_facts (n % 10) (Nat.mod_lt _ (by decide))).2.2]
      congr 1
      omega

theorem digits_mem (fuel : Nat) : ∀ (n : Nat) (acc : List Char) (c : Char),
    c ∈ digits fuel n acc → c ∈ acc ∨ ∃ d, d < 10 ∧ c = Nat.digitChar d := by
  induction fuel with
  | zero => intro n acc c h; exact Or.inl h
  | succ fuel ih =>
    intro n acc c h
    unfold digits at h
    split_ifs at h with h10
    · rcases List.mem_cons.1 h with rfl | h
      · exact Or.inr ⟨n, h10, rfl⟩
      · exact Or.inl h
    · rcases ih _ _ _ h with h | h
      · rcases List.mem_cons.1 h with rfl | h
        · exact Or.inr ⟨n % 10, Nat.mod_lt _ (by decide), rfl⟩
        · exact Or.inl h
      · exact Or.inr h

theorem digits_injective (n m : Nat) (h : digits (n + 1) n [] = digits (m + 1) m []) : n = m := by
  have hn := digits_value (n + 1) n [] (by omega)
  have hm := digits_value (m + 1) m [] (by omega)
  rw [h, hm] at hn
  simpa using hn.symm

theorem digits_plain (n : Nat) (c : Char) (h : c ∈ digits (n + 1) n []) : c ≠ ',' ∧ c ≠ '-' := by
  rcases digits_mem _ _ _ _ h with h | ⟨d, hd, rfl⟩
  · simp at h
  · exact ⟨(digitChar_facts d hd).1, (digitChar_facts d hd).2.1⟩

theorem numberToString_injective (a b : Int) (h : numberToString a = numberToString b) :
    a = b := by
  unfold numberToString at h
  split_ifs at h with ha hb hb
  · have := digits_injective _ _ (List.cons.inj h).2
    omega
  · have hmem : '-' ∈ digits (b.natAbs + 1) b.natAbs [] := by rw [← h]; exact List.mem_cons_self _ _
    exact absurd rfl (digits_plain _ _ hmem).2
  · have hmem : '-' ∈ digits (a.natAbs + 1) a.natAbs [] := by rw [h]; exact List.mem_cons_self _ _
    exact absurd rfl (digits_plain _ _ hmem).2
  · have := digits_injective _ _ h
    omega

theorem numberToString_no_comma (a : Int) : ',' ∉ numberToString a := by
  intro h
  unfold numberToString at h
  split_ifs at h
  · rcases List.mem_cons.1 h with h | h
    · exact absurd h (by decide)
    · exact (digits_plain _ _ h).1 rfl
  · exact (digits_plain _ _ h).1 rfl

theorem split_at_comma : ∀ (xs ys r r' : List Char), ',' ∉ xs → ',' ∉ ys →
    xs ++ ',' :: r = ys ++ ',' :: r' → xs = ys ∧ r = r'
  | [], [], r, r', _, _, h => ⟨rfl, (List.cons.inj h).2⟩
  | [], y :: ys, r, r', _, hy, h => by
    have := (List.cons.inj h).1
    exact absurd (this ▸ List.mem_cons_self _ _) hy
  | x :: xs, [], r, r', hx, _, h => by
    have := (List.cons.inj h).1
    exact absurd (this ▸ List.mem_cons_self _ _) hx
  | x :: xs, y :: ys, r, r', hx, hy, h => by
    have h1 := List.cons.inj h
    have := split_at_comma xs ys r r' (fun hm => hx (List.mem_cons_of_mem _ hm))
      (fun hm => hy (List.mem_cons_of_mem _ hm)) h1.2
    exact ⟨by rw [h1.1, this.1], this.2⟩

theorem join_injective (a b c a' b' c' : Int) (h : join [a, b, c] = join [a', b', c']) :
    a = a' ∧ b = b' ∧ c = c' := by
  simp only [join] at h
  have h1 := split_at_comma _ _ _ _ (numberToString_no_comma a) (numberToString_no_comma a') h
  have h2 := split_at_comma _ _ _ _ (numberToString_no_comma b) (numberToString_no_comma b') h1.2
  exact ⟨numberToString_injective _ _ h1.1, numberToString_injective _ _ h2.1,
    numberToString_injective _ _ h2.2⟩

theorem pointKey_eq_iff (p q : Vec3) : pointKey p = pointKey q ↔ cell p = cell q := by
  constructor
  · intro h
    have h1 : join (cell p) = join (cell q) := by
      have := congrArg String.data h
      exact this
    have := join_injective _ _ _ _ _ _ h1
    unfold cell
    rw [this.1, this.2.1, this.2.2]
  · intro h
    unfold pointKey
    rw [h]

/-- C15: two points have the same key, hence the same bucket of `splashMap`, exactly when the
floors of their three coordinates divided by 0.1 agree; the joined numeral is one-to-one on
integer triples, negative ones included; recording a colour at the key of `p` changes the
bucket read at the key of `q` exactly when the cells agree. -/
theorem same_bucket_iff_same_cell (p q : Vec3) :
    (pointKey p = pointKey q ↔
      ⌊p.x / (1 / 10)⌋ = ⌊q.x / (1 / 10)⌋ ∧ ⌊p.y / (1 / 10)⌋ = ⌊q.y / (1 / 10)⌋ ∧
        ⌊p.z / (1 / 10)⌋ = ⌊q.z / (1 / 10)⌋) ∧
    (∀ a b c a' b' c' : Int, join [a, b, c] = join [a', b', c'] ↔ a = a' ∧ b = b' ∧ c = c') ∧
    (∀ (m : SplashMap) (color : String),
      recordColor m (pointKey p) color (pointKey q) =
        if cell p = cell q then some (setAdd ((m (pointKey q)).getD []) color)
        else m (pointKey q)) ∧
    pointKey ⟨-1 / 20, 3 / 25, 3⟩ = "-1,1,30" ∧
    pointKey ⟨-1 / 10, -11 / 100, 0⟩ = "-1,-2,0" ∧
    pointKey ⟨1 / 20, 1 / 10, -101 / 5⟩ = "0,1,-202" := by
  refine ⟨?_, ?_, ?_, by decide!, by decide!, by decide!⟩
  · rw [pointKey_eq_iff]
    unfold cell
    simp
  · intro a b c a' b' c'
    constructor
    · exact join_injective a b c a' b' c'
    · rintro ⟨rfl, rfl, rfl⟩; rfl
  · intro m color
    unfold recordColor
    by_cases h : cell p = cell q
    · have hk := (pointKey_eq_iff p q).2 h
      simp only [h, hk, if_true]
    · have hk : pointKey q ≠ pointKey p := fun e => h ((pointKey_eq_iff p q).1 e.symm)
      simp only [h, hk, if_false]

/-! ## Colour mixing: which splashes turn purple and which are counted -/

/-- C12: a red splash and then a blue one at two points of the same cell (both reading the key
"-240,10,0"), the box of each meeting every child of the scene: the later splash is tagged and
coloured purple, the earlier one is still tagged red with the red material colour; likewise
with blue first. -/
theorem earlier_splash_keeps_its_colour :
    pointKey ⟨-24, 51 / 50, 3 / 100⟩ = "-240,10,0" ∧
    pointKey ⟨-24, 107 / 100, 2 / 25⟩ = "-240,10,0" ∧
    (runSplashes initialGame
        [splashAt 7 ⟨-24, 51 / 50, 3 / 100⟩ "red",
          splashAt 7 ⟨-24, 107 / 100, 2 / 25⟩ "blue"]).toOption.map
        (fun g => g.decals.map (fun d => (d.color, d.materialColor)))
      = some [("red", 0xff3c3c), ("purple", 0xaa00aa)] ∧
    (runSplashes initialGame
        [splashAt 7 ⟨-24, 51 / 50, 3 / 100⟩ "blue",
          splashAt 7 ⟨-24, 107 / 100, 2 / 25⟩ "red"]).toOption.map
        (fun g => g.decals.map (fun d => (d.color, d.materialColor)))
      = some [("blue", 0x3c3cff), ("purple", 0xaa00aa)] := by
  decide!

/-- C13: in a state reached by splashes from the start of the level, a further splash succeeds
and adds one splash mesh, leaving the earlier ones as they are.  The bucket of its cell then
holds the fired colour and what it held before; the new mesh is tagged purple when that bucket
holds both "red" and "blue" and is tagged with the fired colour otherwise, so for a fired colour
other than "purple" it is purple exactly when the bucket holds both; its material colour is the
one of its tag.  In a cell at which no blue splash was fired, every red splash is tagged red,
with the red material colour, after the whole run. -/
theorem splash_purple_iff_bucket_has_red_and_blue (ss : List Splash) (g : Game) (s : Splash)
    (hrun : runSplashes initialGame ss = .ok g) :
    ∃ (g' : Game) (d : Decal),
      createPaintSplash s.boxHit g s.hit s.color s.now = .ok g' ∧
      g'.decals = g.decals ++ [d] ∧
      (∀ c : String, c ∈ colorSet g' (pointKey s.hit.point) ↔
        c = s.color ∨ c ∈ colorSet g (pointKey s.hit.point)) ∧
      ("red" ∈ colorSet g' (pointKey s.hit.point) ∧
        "blue" ∈ colorSet g' (pointKey s.hit.point) → d.color = "purple") ∧
      (¬ ("red" ∈ colorSet g' (pointKey s.hit.point) ∧
        "blue" ∈ colorSet g' (pointKey s.hit.point)) → d.color = s.color) ∧
      (s.color ≠ "purple" →
        (d.color = "purple" ↔ "red" ∈ colorSet g' (pointKey s.hit.point) ∧
          "blue" ∈ colorSet g' (pointKey s.hit.point))) ∧
      d.materialColor = splashColor d.color ∧
      ∀ key : String,
        (∀ s' ∈ ss ++ [s], pointKey s'.hit.point = key → s'.color ≠ "blue") →
        ∀ (k : Nat) (s' : Splash) (d' : Decal), (ss ++ [s])[k]? = some s' →
          pointKey s'.hit.point = key → s'.color = "red" → g'.decals[k]? = some d' →
          d'.color = "red" ∧ d'.materialColor = 0xff3c3c := by
  have hinv := mixInv_of_run hrun
  obtain ⟨g', h0, hmap, -, hdec, -, -, -⟩ :=
    mix_splash_spec s.boxHit g s.hit s.color s.now hinv.untagged hinv.doorsOk
  have hinv' := mixInv_step s hinv h0
  have hset : colorSet g' (pointKey s.hit.point)
      = setAdd (colorSet g (pointKey s.hit.point)) s.color := by
    rw [recordColor_colorSet g g' _ _ hmap, if_pos rfl]
  have hcol : (splashOf g s.hit s.color).color
      = effectiveColor (colorSet g' (pointKey s.hit.point)) s.color := by
    rw [hset]; rfl
  refine ⟨g', splashOf g s.hit s.color, h0, hdec, ?_, ?_, ?_, ?_, rfl, ?_⟩
  · intro c
    rw [hset, setAdd_mem]
  · intro hb
    rw [hcol]
    unfold effectiveColor
    rw [if_pos hb]
  · intro hb
    rw [hcol]
    unfold effectiveColor
    rw [if_neg hb]
  · intro hp
    rw [hcol]
    unfold effectiveColor
    constructor
    · intro h
      by_contra hb
      rw [if_neg hb] at h
      exact hp h
    · intro hb
      rw [if_pos hb]
  · intro key hno k s' d' hs hkey hred hd
    obtain ⟨h1, h2, -⟩ := hinv'.colors k s' d' hs hd
    have hblue : ¬ ("red" ∈ firedAt ((ss ++ [s]).take (k + 1)) (pointKey s'.hit.point) ∧
        "blue" ∈ firedAt ((ss ++ [s]).take (k + 1)) (pointKey s'.hit.point)) := by
      rintro ⟨-, hb⟩
      unfold firedAt at hb
      rcases List.mem_map.1 hb with ⟨s'', hm, hc⟩
      rcases List.mem_filter.1 hm with ⟨hm1, hm2⟩
      have hk2 : pointKey s''.hit.point = key := by
        rw [← hkey]; simpa using hm2
      exact hno s'' (List.mem_of_mem_take hm1) hk2 hc
    have hc : d'.color = "red" := by
      rw [h1]
      unfold effectiveColor
      rw [if_neg hblue]
      exact hred
    refine ⟨hc, ?_⟩
    rw [h2, hc]
    rfl

/-- C14: in a state reached by splashes from the start of the level, a splash on the mesh of
the target `t` (the first target of `mainObjects` with that mesh) succeeds and adds one splash
mesh, whose tag is the colour resolved from the bucket of its cell; the `hitCount` of `t` goes up
by one when that tag is the `requiredColor` of `t` and `t` is left as it is otherwise, and no
other target changes.  So a target requiring "purple" counts exactly the splashes resolved to
purple, and a target requiring "red" does not count a red paint that lands in a cell already
holding blue.  In the level: red then blue in one cell of the fourth target (purple) counts the
second splash only; blue then red in one cell of the first target (red) counts neither. -/
theorem hitCount_follows_resolved_colour (ss : List Splash) (g : Game) (s : Splash) (j : Nat)
    (t : Target) (hrun : runSplashes initialGame ss = .ok g)
    (hf : FirstStruck g s.hit.object j t) :
    (∃ (g' : Game) (d : Decal) (t' : Target),
      createPaintSplash s.boxHit g s.hit s.color s.now = .ok g' ∧
      g'.decals = g.decals ++ [d] ∧
      d.color = effectiveColor (colorSet g' (pointKey s.hit.point)) s.color ∧
      g'.mainObjects[j]? = some t' ∧
      (t'.hitCount = t.hitCount + 1 ↔ d.color = t.requiredColor) ∧
      (d.color ≠ t.requiredColor → t' = t) ∧
      (∀ (k : Nat) (u : Target), k ≠ j → g.mainObjects[k]? = some u →
        g'.mainObjects[k]? = some u) ∧
      (t.requiredColor = "purple" → (t'.hitCount = t.hitCount + 1 ↔ d.color = "purple")) ∧
      (t.requiredColor = "red" → s.color = "red" →
        "blue" ∈ colorSet g (pointKey s.hit.point) → d.color = "purple" ∧ t' = t)) ∧
    (runSplashes initialGame
        [splashAt 3 ⟨14, 1, 5⟩ "red", splashAt 3 ⟨14, 1, 5⟩ "blue"]).toOption.map
        (fun g => (g.decals.map Decal.color, g.mainObjects.map Target.hitCount))
      = some (["red", "purple"], [0, 0, 0, 1, 0]) ∧
    (runSplashes initialGame
        [splashAt 0 ⟨-26, 1, 0⟩ "blue", splashAt 0 ⟨-26, 1, 0⟩ "red"]).toOption.map
        (fun g => (g.decals.map Decal.color, g.mainObjects.map Target.hitCount))
      = some (["blue", "purple"], [0, 0, 0, 0, 0]) ∧
    (runSplashes initialGame
        [splashAt 0 ⟨-26, 1, 0⟩ "red", splashAt 0 ⟨-26, 1, 0⟩ "red"]).toOption.map
        (fun g => (g.decals.map Decal.color, g.mainObjects.map Target.hitCount))
      = some (["red", "red"], [2, 0, 0, 0, 0]) := by
  refine ⟨?_, by decide!, by decide!, by decide!⟩
  have hinv := mixInv_of_run hrun
  obtain ⟨g', h0, hmap, -, hdec, -, -, htar⟩ :=
    mix_splash_spec s.boxHit g s.hit s.color s.now hinv.untagged hinv.doorsOk
  have hset : colorSet g' (pointKey s.hit.point)
      = setAdd (colorSet g (pointKey s.hit.point)) s.color := by
    rw [recordColor_colorSet g g' _ _ hmap, if_pos rfl]
  have hcol : (splashOf g s.hit s.color).color
      = effectiveColor (colorSet g' (pointKey s.hit.point)) s.color := by
    rw [hset]; rfl
  obtain ⟨t', ht', -, hyes, hno⟩ := htar j t hf.1
  have hiff : t'.hitCount = t.hitCount + 1 ↔ (splashOf g s.hit s.color).color = t.requiredColor := by
    constructor
    · intro h
      by_contra hc
      have := hno (fun hy => hc hy.2)
      rw [this] at h
      omega
    · intro hc
      exact hyes ⟨hf, hc⟩
  refine ⟨g', splashOf g s.hit s.color, t', h0, hdec, hcol, ht', hiff,
    fun hc => hno (fun hy => hc hy.2), ?_, ?_, ?_⟩
  · intro k u hk hu
    obtain ⟨u', hu', -, -, hsame⟩ := htar k u hu
    have hnf : ¬ FirstStruck g s.hit.object k u := by
      intro hfu
      rcases Nat.lt_or_gt_of_ne hk with hlt | hgt
      · exact hf.2.2 k u hlt hu hfu.2.1
      · exact hfu.2.2 j t hgt hf.1 hf.2.1
    rw [hu', hsame (fun hy => hnf hy.1)]
  · intro hp
    rw [hiff, hp]
  · intro hreq hred hblue
    have hboth : "red" ∈ colorSet g' (pointKey s.hit.point) ∧
        "blue" ∈ colorSet g' (pointKey s.hit.point) := by
      rw [hset, setAdd_mem, setAdd_mem]
      exact ⟨Or.inl hred.symm, Or.inr hblue⟩
    have hpurple : (splashOf g s.hit s.color).color = "purple" := by
      rw [hcol]
      unfold effectiveColor
      rw [if_pos hboth]
    refine ⟨hpurple, hno ?_⟩
    rintro ⟨-, hc⟩
    rw [hpurple, hreq] at hc
    exact absurd hc (by decide)

/-- The statement of C13 after a red splash on a wall, for a blue splash at another point of
the same cell. -/
theorem splash_purple_iff_bucket_has_red_and_blue_witness :
    runSplashes initialGame [splashAt 7 ⟨-24, 51 / 50, 3 / 100⟩ "red"]
      = .ok (afterSplashes [splashAt 7 ⟨-24, 51 / 50, 3 / 100⟩ "red"]) ∧
    ∃ (g' : Game) (d : Decal),
      createPaintSplash (fun _ => true) (afterSplashes [splashAt 7 ⟨-24, 51 / 50, 3 / 100⟩ "red"])
        ⟨0, ⟨-24, 107 / 100, 2 / 25⟩, ⟨0, 0, 1⟩, 7⟩ "blue" 0 = .ok g' ∧
      g'.decals = (afterSplashes [splashAt 7 ⟨-24, 51 / 50, 3 / 100⟩ "red"]).decals ++ [d] ∧
      (∀ c : String, c ∈ colorSet g' (pointKey ⟨-24, 107 / 100, 2 / 25⟩) ↔
        c = "blue" ∨ c ∈ colorSet (afterSplashes [splashAt 7 ⟨-24, 51 / 50, 3 / 100⟩ "red"])
          (pointKey ⟨-24, 107 / 100, 2 / 25⟩)) ∧
      ("red" ∈ colorSet g' (pointKey ⟨-24, 107 / 100, 2 / 25⟩) ∧
        "blue" ∈ colorSet g' (pointKey ⟨-24, 107 / 100, 2 / 25⟩) → d.color = "purple") ∧
      (¬ ("red" ∈ colorSet g' (pointKey ⟨-24, 107 / 100, 2 / 25⟩) ∧
        "blue" ∈ colorSet g' (pointKey ⟨-24, 107 / 100, 2 / 25⟩)) → d.color = "blue") ∧
      ("blue" ≠ "purple" →
        (d.color = "purple" ↔ "red" ∈ colorSet g' (pointKey ⟨-24, 107 / 100, 2 / 25⟩) ∧
          "blue" ∈ colorSet g' (pointKey ⟨-24, 107 / 100, 2 / 25⟩))) ∧
      d.materialColor = splashColor d.color ∧
      ∀ key : String,
        (∀ s' ∈ [splashAt 7 ⟨-24, 51 / 50, 3 / 100⟩ "red"] ++
            [splashAt 7 ⟨-24, 107 / 100, 2 / 25⟩ "blue"],
          pointKey s'.hit.point = key → s'.color ≠ "blue") →
        ∀ (k : Nat) (s' : Splash) (d' : Decal),
          ([splashAt 7 ⟨-24, 51 / 50, 3 / 100⟩ "red"] ++
            [splashAt 7 ⟨-24, 107 / 100, 2 / 25⟩ "blue"])[k]? = some s' →
          pointKey s'.hit.point = key → s'.color = "red" → g'.decals[k]? = some d' →
          d'.color = "red" ∧ d'.materialColor = 0xff3c3c :=
  ⟨rfl, splash_purple_iff_bucket_has_red_and_blue [splashAt 7 ⟨-24, 51 / 50, 3 / 100⟩ "red"]
    (afterSplashes [splashAt 7 ⟨-24, 51 / 50, 3 / 100⟩ "red"])
    (splashAt 7 ⟨-24, 107 / 100, 2 / 25⟩ "blue") rfl⟩

theorem firstStruck_fourth (g : Game) (h : g.mainObjects = levelTargets) :
    FirstStruck g 3 3 ⟨3, 0, "purple", 2, false, 0x938784⟩ := by
  refine ⟨by rw [h]; rfl, rfl, ?_⟩
  rw [h]
  intro k u hk hu
  have hmem : ∀ i : Fin 3, ∀ v, levelTargets[i.1]? = some v → v.mesh ≠ 3 := by decide
  exact hmem ⟨k, hk⟩ u hu

/-- The statement of C14 after a red splash on a wall at the point (14, 1, 4), for a blue
splash at the same point on the fourth target, which requires purple. -/
theorem hitCount_follows_resolved_colour_witness :
    runSplashes initialGame [splashAt 7 ⟨14, 1, 4⟩ "red"]
      = .ok (afterSplashes [splashAt 7 ⟨14, 1, 4⟩ "red"]) ∧
    FirstStruck (afterSplashes [splashAt 7 ⟨14, 1, 4⟩ "red"]) 3 3
      ⟨3, 0, "purple", 2, false, 0x938784⟩ ∧
    (∃ (g' : Game) (d : Decal) (t' : Target),
      createPaintSplash (fun _ => true) (afterSplashes [splashAt 7 ⟨14, 1, 4⟩ "red"])
        ⟨0, ⟨14, 1, 4⟩, ⟨0, 0, 1⟩, 3⟩ "blue" 0 = .ok g' ∧
      g'.decals = (afterSplashes [splashAt 7 ⟨14, 1, 4⟩ "red"]).decals ++ [d] ∧
      d.color = effectiveColor (colorSet g' (pointKey ⟨14, 1, 4⟩)) "blue" ∧
      g'.mainObjects[3]? = some t' ∧
      (t'.hitCount = 0 + 1 ↔ d.color = "purple") ∧
      (d.color ≠ "purple" → t' = ⟨3, 0, "purple", 2, false, 0x938784⟩) ∧
      (∀ (k : Nat) (u : Target), k ≠ 3 →
        (afterSplashes [splashAt 7 ⟨14, 1, 4⟩ "red"]).mainObjects[k]? = some u →
        g'.mainObjects[k]? = some u) ∧
      ("purple" = "purple" → (t'.hitCount = 0 + 1 ↔ d.color = "purple")) ∧
      ("purple" = "red" → "blue" = "red" →
        "blue" ∈ colorSet (afterSplashes [splashAt 7 ⟨14, 1, 4⟩ "red"]) (pointKey ⟨14, 1, 4⟩) →
        d.color = "purple" ∧ t' = ⟨3, 0, "purple", 2, false, 0x938784⟩)) ∧
    (runSplashes initialGame
        [splashAt 3 ⟨14, 1, 5⟩ "red", splashAt 3 ⟨14, 1, 5⟩ "blue"]).toOption.map
        (fun g => (g.decals.map Decal.color, g.mainObjects.map Target.hitCount))
      = some (["red", "purple"], [0, 0, 0, 1, 0]) ∧
    (runSplashes initialGame
        [splashAt 0 ⟨-26, 1, 0⟩ "blue", splashAt 0 ⟨-26, 1, 0⟩ "red"]).toOption.map
        (fun g => (g.decals.map Decal.color, g.mainObjects.map Target.hitCount))
      = some (["blue", "purple"], [0, 0, 0, 0, 0]) ∧
    (runSplashes initialGame
        [splashAt 0 ⟨-26, 1, 0⟩ "red", splashAt 0 ⟨-26, 1, 0⟩ "red"]).toOption.map
        (fun g => (g.decals.map Decal.color, g.mainObjects.map Target.hitCount))
      = some (["red", "red"], [2, 0, 0, 0, 0]) :=
  ⟨rfl, firstStruck_fourth _ rfl,
    hitCount_follows_resolved_colour [splashAt 7 ⟨14, 1, 4⟩ "red"]
      (afterSplashes [splashAt 7 ⟨14, 1, 4⟩ "red"]) (splashAt 3 ⟨14, 1, 4⟩ "blue") 3
      ⟨3, 0, "purple", 2, false, 0x938784⟩ rfl (firstStruck_fourth _ rfl)⟩

/-! ## A bucket only grows -/

theorem firedAt_mem_take_append (ss ss' : List Splash) (k : Nat) (key c : String)
    (h : c ∈ firedAt ss key) : c ∈ firedAt ((ss ++ ss').take (ss.length + k + 1)) key := by
  have : (ss ++ ss').take (ss.length + k + 1) = ss ++ ss'.take (k + 1) := by
    rw [List.take_append_eq_append_take]
    rw [List.take_of_length_le (by omega)]
    congr 2
    omega
  rw [this, firedAt_append]
  exact List.mem_append_left _ h

/-- C26: from a state reached by splashes from the start of the level, every further run of
splashes succeeds; the colours a bucket holds are still in it afterwards; and once the bucket of
a cell holds both "red" and "blue" it still does after the run, and every splash of the run
that lands in that cell, whatever its fired colour, is tagged purple with the purple material
colour. -/
theorem bucket_only_grows (ss ss' : List Splash) (g : Game) (key : String)
    (hrun : runSplashes initialGame ss = .ok g)
    (hred : "red" ∈ colorSet g key) (hblue : "blue" ∈ colorSet g key) :
    ∃ g' : Game, runSplashes g ss' = .ok g' ∧
      (∀ (key' c : String), c ∈ colorSet g key' → c ∈ colorSet g' key') ∧
      g'.decals.length = g.decals.length + ss'.length ∧
      ("red" ∈ colorSet g' key ∧ "blue" ∈ colorSet g' key) ∧
      ∀ (k : Nat) (s : Splash), ss'[k]? = some s → pointKey s.hit.point = key →
        ∃ d : Decal, g'.decals[g.decals.length + k]? = some d ∧
          d.color = "purple" ∧ d.materialColor = 0xaa00aa := by
  have hinv := mixInv_of_run hrun
  obtain ⟨g', hrun', hinv'⟩ := mixInv_run ss' ss g hinv
  have hgrow : ∀ (key' c : String), c ∈ colorSet g key' → c ∈ colorSet g' key' := by
    intro key' c hc
    rw [hinv'.cells, firedAt_append]
    exact List.mem_append_left _ ((hinv.cells key' c).1 hc)
  refine ⟨g', hrun', hgrow, ?_, ⟨hgrow _ _ hred, hgrow _ _ hblue⟩, ?_⟩
  · rw [hinv'.count, hinv.count, List.length_append]
  · intro k s hs hkey
    have hk : k < ss'.length := by
      rcases List.getElem?_eq_some.1 hs with ⟨h, -⟩
      exact h
    have hlt : g.decals.length + k < g'.decals.length := by
      rw [hinv'.count, hinv.count, List.length_append]
      omega
    have hs' : (ss ++ ss')[g.decals.length + k]? = some s := by
      rw [hinv.count, List.getElem?_append_right (by omega)]
      simpa using hs
    refine ⟨g'.decals[g.decals.length + k], List.getElem?_eq_getElem hlt, ?_⟩
    obtain ⟨h1, h2, -⟩ := hinv'.colors _ s _ hs' (List.getElem?_eq_getElem hlt)
    have hboth : "red" ∈ firedAt ((ss ++ ss').take (g.decals.length + k + 1))
          (pointKey s.hit.point) ∧
        "blue" ∈ firedAt ((ss ++ ss').take (g.decals.length + k + 1))
          (pointKey s.hit.point) := by
      rw [hinv.count, hkey]
      exact ⟨firedAt_mem_take_append ss ss' k key _ ((hinv.cells key _).1 hred),
        firedAt_mem_take_append ss ss' k key _ ((hinv.cells key _).1 hblue)⟩
    have hc : (g'.decals[g.decals.length + k]).color = "purple" := by
      rw [h1]
      unfold effectiveColor
      rw [if_pos hboth]
    refine ⟨hc, ?_⟩
    rw [h2, hc]
    rfl

/-- The statement of C26 after a red and a blue splash in one cell of a wall, for a run of
three splashes, the first two of them, a red and a blue one, in that cell. -/
theorem bucket_only_grows_witness :
    runSplashes initialGame
        [splashAt 7 ⟨-24, 51 / 50, 3 / 100⟩ "red", splashAt 7 ⟨-24, 107 / 100, 2 / 25⟩ "blue"]
      = .ok (afterSplashes
        [splashAt 7 ⟨-24, 51 / 50, 3 / 100⟩ "red",
          splashAt 7 ⟨-24, 107 / 100, 2 / 25⟩ "blue"]) ∧
    "red" ∈ colorSet (afterSplashes
        [splashAt 7 ⟨-24, 51 / 50, 3 / 100⟩ "red",
          splashAt 7 ⟨-24, 107 / 100, 2 / 25⟩ "blue"]) "-240,10,0" ∧
    "blue" ∈ colorSet (afterSplashes
        [splashAt 7 ⟨-24, 51 / 50, 3 / 100⟩ "red",
          splashAt 7 ⟨-24, 107 / 100, 2 / 25⟩ "blue"]) "-240,10,0" ∧
    ∃ g' : Game,
      runSplashes
        (afterSplashes
          [splashAt 7 ⟨-24, 51 / 50, 3 / 100⟩ "red",
            splashAt 7 ⟨-24, 107 / 100, 2 / 25⟩ "blue"])
        [splashAt 7 ⟨-24, 21 / 20, 1 / 20⟩ "red", splashAt 8 ⟨-24, 21 / 20, 1 / 20⟩ "blue",
          splashAt 7 ⟨0, 0, 0⟩ "red"] = .ok g' ∧
      (∀ (key' c : String),
        c ∈ colorSet (afterSplashes
          [splashAt 7 ⟨-24, 51 / 50, 3 / 100⟩ "red",
            splashAt 7 ⟨-24, 107 / 100, 2 / 25⟩ "blue"]) key' →
        c ∈ colorSet g' key') ∧
      g'.decals.length = (afterSplashes
          [splashAt 7 ⟨-24, 51 / 50, 3 / 100⟩ "red",
            splashAt 7 ⟨-24, 107 / 100, 2 / 25⟩ "blue"]).decals.length +
        [splashAt 7 ⟨-24, 21 / 20, 1 / 20⟩ "red", splashAt 8 ⟨-24, 21 / 20, 1 / 20⟩ "blue",
          splashAt 7 ⟨0, 0, 0⟩ "red"].length ∧
      ("red" ∈ colorSet g' "-240,10,0" ∧ "blue" ∈ colorSet g' "-240,10,0") ∧
      ∀ (k : Nat) (s : Splash),
        [splashAt 7 ⟨-24, 21 / 20, 1 / 20⟩ "red", splashAt 8 ⟨-24, 21 / 20, 1 / 20⟩ "blue",
          splashAt 7 ⟨0, 0, 0⟩ "red"][k]? = some s →
        pointKey s.hit.point = "-240,10,0" →
        ∃ d : Decal,
          g'.decals[(afterSplashes
            [splashAt 7 ⟨-24, 51 / 50, 3 / 100⟩ "red",
              splashAt 7 ⟨-24, 107 / 100, 2 / 25⟩ "blue"]).decals.length + k]? = some d ∧
          d.color = "purple" ∧ d.materialColor = 0xaa00aa :=
  ⟨rfl, by decide!, by decide!, bucket_only_grows
    [splashAt 7 ⟨-24, 51 / 50, 3 / 100⟩ "red", splashAt 7 ⟨-24, 107 / 100, 2 / 25⟩ "blue"]
    [splashAt 7 ⟨-24, 21 / 20, 1 / 20⟩ "red", splashAt 8 ⟨-24, 21 / 20, 1 / 20⟩ "blue",
      splashAt 7 ⟨0, 0, 0⟩ "red"]
    (afterSplashes
      [splashAt 7 ⟨-24, 51 / 50, 3 / 100⟩ "red", splashAt 7 ⟨-24, 107 / 100, 2 / 25⟩ "blue"])
    "-240,10,0" rfl (by decide!) (by decide!)⟩

end Ver3

namespace Main0604

open Final (Vec3 Keys)

/-! ## The floor and the walls of the legacy player physics -/

/-- C30: after every call of the legacy `updatePlayer`, whatever the state, the keys, the camera
direction and the frame time, the height of the player is at least 1.6 and its x and z lie
between -9 and 9.  When the integrated height is at or below 1.6 the call ends with height 1.6,
vertical velocity 0 and `onGround` true; otherwise the height is the integrated one.  The
camera is at the player.  At the start a frame of 1/60 s lands the player; after such a frame
with `w`, shift and space held, a frame of one second ends on the floor, at the wall z = -9,
and a frame of 1/10 s ends in the air, at height 47/20. -/
theorem legacy_player_stays_in_bounds (wd : Vec3) (nz : Vec3 → Vec3) (dt : ℚ) (g : Game) :
    8 / 5 ≤ (updatePlayer wd nz dt g).player.position.y ∧
    (-9 ≤ (updatePlayer wd nz dt g).player.position.x ∧
      (updatePlayer wd nz dt g).player.position.x ≤ 9) ∧
    (-9 ≤ (updatePlayer wd nz dt g).player.position.z ∧
      (updatePlayer wd nz dt g).player.position.z ≤ 9) ∧
    (integratedHeight g dt ≤ 8 / 5 →
      (updatePlayer wd nz dt g).player.position.y = 8 / 5 ∧
        (updatePlayer wd nz dt g).player.velocity.y = 0 ∧
        (updatePlayer wd nz dt g).player.onGround = true) ∧
    (8 / 5 < integratedHeight g dt →
      (updatePlayer wd nz dt g).player.position.y = integratedHeight g dt) ∧
    (updatePlayer wd nz dt g).cameraPosition = (updatePlayer wd nz dt g).player.position ∧
    (updatePlayer ⟨0, 0, -1⟩ (fun v => v) (1 / 60) initialGame).player
      = ⟨⟨0, 8 / 5, 0⟩, ⟨0, 0, 0⟩, 5, 10, true⟩ ∧
    (updatePlayer ⟨0, 0, -1⟩ (fun v => v) 1
        (updatePlayer ⟨0, 0, -1⟩ (fun v => v) (1 / 60) runningJump)).player
      = ⟨⟨0, 8 / 5, -9⟩, ⟨0, 0, -10⟩, 5, 10, true⟩ ∧
    (updatePlayer ⟨0, 0, -1⟩ (fun v => v) (1 / 10)
        (updatePlayer ⟨0, 0, -1⟩ (fun v => v) (1 / 60) runningJump)).player
      = ⟨⟨0, 47 / 20, -7 / 6⟩, ⟨0, 15 / 2, -10⟩, 5, 10, false⟩ := by
  refine ⟨?_, ⟨?_, ?_⟩, ⟨?_, ?_⟩, ?_, ?_, rfl, by decide!, by decide!, by decide!⟩
  · unfold updatePlayer
    dsimp only
    split_ifs <;> first | exact le_refl _ | (rename_i h; exact le_of_lt (not_le.1 h))
  · exact le_max_left _ _
  · exact max_le (by norm_num) (min_le_left _ _)
  · exact le_max_left _ _
  · exact max_le (by norm_num) (min_le_left _ _)
  · intro h
    unfold integratedHeight at h
    unfold updatePlayer
    dsimp only
    by_cases hj : g.keys.space = true ∧ g.player.onGround = true
    · simp only [hj, and_self, if_true, Vec3.add, Vec3.multiplyScalar] at h ⊢
      simp [h]
    · simp only [hj, if_false, Vec3.add, Vec3.multiplyScalar] at h ⊢
      simp [h]
  · intro h
    unfold integratedHeight at h
    unfold updatePlayer integratedHeight
    dsimp only
    by_cases hj : g.keys.space = true ∧ g.player.onGround = true
    · simp only [hj, and_self, if_true, Vec3.add, Vec3.multiplyScalar] at h ⊢
      simp [not_le.2 h]
    · simp only [hj, if_false, Vec3.add, Vec3.multiplyScalar] at h ⊢
      simp [not_le.2 h]

end Main0604
